import Mathlib

/-!
# Wheels carpooling backend: seat inventory and booking lifecycle

A shallow embedding of the trip and booking controllers
(`src/src/controllers/tripController.js`, `src/src/controllers/bookingController.js`)
together with the Mongoose schemas they persist through
(`src/src/models/Trip.js`, `src/src/models/Booking.js`, `src/src/models/Vehicle.js`).

Modelling conventions
* The database is a `Store`: the trip, booking and vehicle collections as lists, plus a
  counter that plays the part of ObjectId generation. Documents are never physically
  removed by the controllers, so a collection only grows.
* Every controller is a function `Store → request → Store × Nat`; the number is the HTTP
  status of the response. A thrown error is caught by the controller's `catch` and answers
  500, keeping whatever had been written before the throw.
* JSON numbers are integers (`Int`), dates are day numbers (`Int`), an absent body field is
  `none`. Truthiness tests of the source (`if (x)`, `a || b`, `!x`) are kept.
* A date is its day number only: the time of day of a `fechaSalida` is not modelled. An
  edit that keeps the day is taken to leave `fechaSalida` unmodified, and the listing
  orders the trips of one day by `horaSalida`.
* The price of a booking is a product of two numbers, computed in IEEE 754 double
  arithmetic as JavaScript does: `multiplicar` rounds the exact product to the nearest
  double and yields an infinity beyond the largest one, so `precioTotal` is a `Numero`.
* `doc.save()` runs the schema validators and then the `pre('save')` hooks; a failure throws
  and writes nothing. The validators are run on every path of the document; on the stores
  reachable from an empty one this is the same as validating the modified paths only,
  since every stored value passed its validator when it was written.
* The unique index `{ tripId: 1, pasajeroId: 1 }` declared by `bookingSchema` is enforced on
  every insert.
* The listing `obtenerViajes` writes nothing: it returns the documents found and the
  status. Its library calls (regular expression match, `new Date`, `parseInt`) are
  parameters, and each query parameter is a string.
* Requests are served one at a time by `step` and `run`. The last part of the definitions
  steps a `joinTrip` request from one `await` to the next, to interleave requests in flight.
-/

namespace Wheels

/-! ## Data model -/

/-- Values of `estado` in `tripSchema` (Trip.js, enum at line 65). -/
inductive TripEstado
  | disponible | lleno | en_curso | completado | cancelado
  deriving DecidableEq, Repr

/-- Values of `estado` in `bookingSchema` (Booking.js, enum at line 32). -/
inductive BookingEstado
  | pendiente | confirmada | cancelada | completada
  deriving DecidableEq, Repr

/-- A JavaScript number whose value is an integer, `Infinity` or `-Infinity`: the values
a product of two integers can take. -/
inductive Numero
  | entero (n : Int)
  | infinito
  | menosInfinito
  deriving DecidableEq, Repr

instance (n : Nat) : OfNat Numero n := ⟨.entero n⟩

/-- Document of the `Trip` collection (Trip.js). -/
structure Trip where
  id : Nat
  conductorId : Nat
  vehiculoId : Nat
  puntoInicio : String
  puntoFinal : String
  ruta : Option String
  fechaSalida : Int
  horaSalida : String
  cuposDisponibles : Int
  cuposTotales : Int
  tarifaPorPasajero : Int
  estado : TripEstado
  activo : Bool
  deriving DecidableEq, Repr

/-- Document of the `Booking` collection (Booking.js). -/
structure Booking where
  id : Nat
  tripId : Nat
  pasajeroId : Nat
  cuposReservados : Int
  puntoRecogida : String
  estado : BookingEstado
  precioTotal : Numero
  activo : Bool
  deriving DecidableEq, Repr

/-- Document of the `Vehicle` collection (Vehicle.js), the fields the controllers read. -/
structure Vehicle where
  id : Nat
  conductorId : Nat
  capacidad : Int
  activo : Bool
  deriving DecidableEq, Repr

/-- The persisted state: the three collections and the next fresh document id. -/
structure Store where
  trips : List Trip
  bookings : List Booking
  vehicles : List Vehicle
  nextId : Nat
  deriving DecidableEq, Repr

/-- A store with no trip and no booking, over a given vehicle registry. -/
def Store.inicial (vehicles : List Vehicle) : Store :=
  { trips := [], bookings := [], vehicles := vehicles, nextId := 0 }

/-! ## JavaScript and Mongoose helpers -/

/-- Truthiness of an optional string: `undefined` and the empty string are falsy. -/
def truthyStr : Option String → Bool
  | some s => s ≠ ""
  | none => false

/-- Truthiness of an optional number: `undefined` and `0` are falsy. -/
def truthyNum : Option Int → Bool
  | some n => n ≠ 0
  | none => false

/-- The expression `a || b` on optional strings. -/
def orStr (a b : Option String) : Option String :=
  if truthyStr a then a else b

/-- The expression `a || b` on optional numbers. -/
def orNum (a b : Option Int) : Option Int :=
  if truthyNum a then a else b

/-- The test `x >= k` of a `min` validator on a number. -/
def Numero.alMenos : Numero → Int → Bool
  | .entero n, k => decide (k ≤ n)
  | .infinito, _ => true
  | .menosInfinito, _ => false

/-- The binary exponent of the double nearest to `m`, for `m ≥ 2 ^ 53`: the least `e`,
from the given one on, with `m / 2 ^ e < 2 ^ 53`. The first argument bounds the search. -/
def exponenteDoble (m : Nat) : Nat → Nat → Nat
  | 0, e => e
  | k + 1, e => if m / 2 ^ e < 2 ^ 53 then e else exponenteDoble m k (e + 1)

/-- The IEEE 754 double nearest to the natural number `m`, ties to even: `m` itself below
`2 ^ 53`; above, `m` cut to its 53 leading bits `q`, rounded up when the part cut off is
more than half a unit of `q`, or exactly half and `q` is odd. The result is `none` when it
reaches `2 ^ 1024`, beyond the largest double. -/
def redondearDoble (m : Nat) : Option Nat :=
  if m < 2 ^ 53 then some m
  else
    let e := exponenteDoble m m 0
    let q := m / 2 ^ e
    let r := m % 2 ^ e
    let q1 := if 2 * r > 2 ^ e ∨ (2 * r = 2 ^ e ∧ q % 2 = 1) then q + 1 else q
    if e + 53 > 1024 ∨ (e + 53 = 1024 ∧ q1 = 2 ^ 53) then none else some (q1 * 2 ^ e)

/-- The expression `a * b` on two numbers that are integers: the exact product rounded to
the nearest double, an infinity when that is out of range. -/
def multiplicar (a b : Int) : Numero :=
  match redondearDoble (a * b).natAbs with
  | some m => if a * b < 0 then .entero (-(m : Int)) else .entero m
  | none => if a * b < 0 then .menosInfinito else .infinito

/-- White space and line terminators of ECMAScript, the characters that
`String.prototype.trim` strips: tab, line feed, vertical tab, form feed, carriage return,
space, no-break space, U+1680, U+2000 to U+200A, U+2028, U+2029, U+202F, U+205F, U+3000
and U+FEFF. -/
def esBlanco (c : Char) : Bool :=
  [0x9, 0xA, 0xB, 0xC, 0xD, 0x20, 0xA0, 0x1680, 0x2028, 0x2029, 0x202F, 0x205F, 0x3000,
    0xFEFF].contains c.toNat ||
  (decide (0x2000 ≤ c.toNat) && decide (c.toNat ≤ 0x200A))

/-- The setter `trim: true` of a Mongoose string path, which calls
`String.prototype.trim`. -/
def trim (s : String) : String :=
  ⟨((s.data.dropWhile esBlanco).reverse.dropWhile esBlanco).reverse⟩

/-- Cast of a request string to the `estado` enum of `tripSchema`; `none` is the
validation error `{VALUE} no es un estado válido`. -/
def TripEstado.ofString? : String → Option TripEstado
  | "disponible" => some .disponible
  | "lleno" => some .lleno
  | "en_curso" => some .en_curso
  | "completado" => some .completado
  | "cancelado" => some .cancelado
  | _ => none

/-- Field validators of `tripSchema` (Trip.js 17-59): required strings are non-empty,
`cuposDisponibles >= 0`, `cuposTotales >= 1`, `tarifaPorPasajero >= 0`. -/
def Trip.validar (t : Trip) : Bool :=
  t.puntoInicio ≠ "" && t.puntoFinal ≠ "" && t.horaSalida ≠ "" &&
  decide (0 ≤ t.cuposDisponibles) && decide (1 ≤ t.cuposTotales) &&
  decide (0 ≤ t.tarifaPorPasajero)

/-- The two `pre('save')` hooks of `tripSchema` (Trip.js 85-106). `fechaNueva` is
`this.isNew || this.isModified('fechaSalida')`; `hoy` is the day of `new Date()`.
The result is `true` when both hooks call `next()` without an error. -/
def Trip.preSave (t : Trip) (fechaNueva : Bool) (hoy : Int) : Bool :=
  !(fechaNueva && decide (t.fechaSalida < hoy)) &&
  !(decide (t.cuposDisponibles > t.cuposTotales))

/-- Field validators of `bookingSchema` (Booking.js 17-43). -/
def Booking.validar (b : Booking) : Bool :=
  decide (1 ≤ b.cuposReservados) && b.puntoRecogida ≠ "" && b.precioTotal.alMenos 0

/-- The query `Trip.findById(id)`. -/
def Store.findTripById (s : Store) (id : Nat) : Option Trip :=
  s.trips.find? (fun t => t.id = id)

/-- The query `Trip.findOne({ _id: id, activo: true })`. -/
def Store.findTripActivo (s : Store) (id : Nat) : Option Trip :=
  s.trips.find? (fun t => t.id = id && t.activo)

/-- The query `Trip.findOne({ _id: id, conductorId, activo: true })`. -/
def Store.findTripDe (s : Store) (id conductorId : Nat) : Option Trip :=
  s.trips.find? (fun t => t.id = id && t.conductorId = conductorId && t.activo)

/-- The query `Booking.findOne({ _id: id, activo: true })`. -/
def Store.findBookingActivo (s : Store) (id : Nat) : Option Booking :=
  s.bookings.find? (fun b => b.id = id && b.activo)

/-- The query `Booking.findOne({ _id: id, pasajeroId, activo: true })`. -/
def Store.findBookingDe (s : Store) (id pasajeroId : Nat) : Option Booking :=
  s.bookings.find? (fun b => b.id = id && b.pasajeroId = pasajeroId && b.activo)

/-- Write of an existing trip document: the stored document with the same `_id` is
replaced. -/
def Store.putTrip (s : Store) (t : Trip) : Store :=
  { s with trips := s.trips.map (fun x => if x.id = t.id then t else x) }

/-- Write of an existing booking document. -/
def Store.putBooking (s : Store) (b : Booking) : Store :=
  { s with bookings := s.bookings.map (fun x => if x.id = b.id then b else x) }

/-- The call `viaje.save()` on a loaded trip whose `fechaSalida` was not touched:
validators, then hooks, then the write. `none` is a thrown error. -/
def Store.saveTrip (s : Store) (t : Trip) : Option Store :=
  if t.validar && t.preSave false 0 then some (s.putTrip t) else none

/-- The call `reserva.save()` on a loaded booking (`isNew` is false, so the price hook
does nothing). `none` is a thrown error. -/
def Store.saveBooking (s : Store) (b : Booking) : Option Store :=
  if b.validar then some (s.putBooking b) else none

/-- The unique index `{ tripId: 1, pasajeroId: 1 }` of `bookingSchema` (Booking.js 56):
`true` when a document with the same pair is already stored, whatever its `estado` and
`activo`. -/
def Store.claveDuplicada (s : Store) (tripId pasajeroId : Nat) : Bool :=
  s.bookings.any (fun b => b.tripId = tripId && b.pasajeroId = pasajeroId)

/-- The `pre('save')` hook of `bookingSchema` on a new document (Booking.js 58-79): the
trip is reloaded by id and `precioTotal` is recomputed from it; `none` is the error
`El viaje no existe`. -/
def Booking.preSaveNuevo (s : Store) (b : Booking) : Option Booking :=
  match s.findTripById b.tripId with
  | none => none
  | some trip =>
    some { b with precioTotal := multiplicar trip.tarifaPorPasajero b.cuposReservados }

/-- The call `nuevaReserva.save()` on a new booking: validators on the document as built
by the controller, then the `pre('save')` hook, then the insert under the unique index. -/
def Store.insertBooking (s : Store) (b : Booking) : Option Store :=
  if !b.validar then none
  else
    match b.preSaveNuevo s with
    | none => none
    | some b1 =>
      if s.claveDuplicada b1.tripId b1.pasajeroId then none
      else some { s with bookings := s.bookings ++ [b1], nextId := s.nextId + 1 }

/-! ## Trip controller (tripController.js) -/

/-- Request body of `POST /api/trips`, both field spellings (tripController.js 26-42). -/
structure CrearViajeBody where
  origen : Option String
  destino : Option String
  hora : Option String
  asientosDisponibles : Option Int
  precio : Option Int
  ruta : Option String
  estado : Option String
  puntoInicio : Option String
  puntoFinal : Option String
  fechaSalida : Option Int
  horaSalida : Option String
  cuposDisponibles : Option Int
  tarifaPorPasajero : Option Int
  deriving DecidableEq, Repr

/-- The body `{}`. -/
def CrearViajeBody.vacio : CrearViajeBody :=
  ⟨none, none, none, none, none, none, none, none, none, none, none, none, none⟩

/-- Controller `crearViaje` (tripController.js 11-122). `hoy` is the day of `new Date()`. -/
def crearViaje (s : Store) (conductorId : Nat) (body : CrearViajeBody) (hoy : Int) :
    Store × Nat :=
  match s.vehicles.find? (fun v => v.conductorId = conductorId && v.activo) with
  | none => (s, 403)
  | some vehiculo =>
    let puntoInicioFinal := orStr body.origen body.puntoInicio
    let puntoFinalFinal := orStr body.destino body.puntoFinal
    let horaSalidaFinal := orStr body.hora body.horaSalida
    let cuposFinal : Int :=
      match orNum body.asientosDisponibles body.cuposDisponibles with
      | some n => if n ≠ 0 then n else vehiculo.capacidad
      | none => vehiculo.capacidad
    let tarifaFinal := orNum body.precio body.tarifaPorPasajero
    let fechaSalidaFinal : Int := body.fechaSalida.getD hoy
    if !truthyStr puntoInicioFinal || !truthyStr puntoFinalFinal ||
        !truthyStr horaSalidaFinal || !truthyNum tarifaFinal then (s, 400)
    else if cuposFinal > vehiculo.capacidad then (s, 400)
    else
      let estadoTexto : String :=
        if body.estado = some "activo" then "disponible"
        else (orStr body.estado (some "disponible")).getD "disponible"
      match TripEstado.ofString? estadoTexto with
      | none => (s, 500)
      | some estado =>
        let nuevoViaje : Trip :=
          { id := s.nextId
            conductorId := conductorId
            vehiculoId := vehiculo.id
            puntoInicio := trim (puntoInicioFinal.getD "")
            puntoFinal := trim (puntoFinalFinal.getD "")
            ruta := body.ruta.map trim
            fechaSalida := fechaSalidaFinal
            horaSalida := horaSalidaFinal.getD ""
            cuposDisponibles := cuposFinal
            cuposTotales := cuposFinal
            tarifaPorPasajero := tarifaFinal.getD 0
            estado := estado
            activo := true }
        if nuevoViaje.validar && nuevoViaje.preSave true hoy then
          ({ s with trips := s.trips ++ [nuevoViaje], nextId := s.nextId + 1 }, 201)
        else (s, 500)

/-- Request body of `PUT /api/trips/:id` (tripController.js 335-344). -/
structure ActualizarViajeBody where
  puntoInicio : Option String
  puntoFinal : Option String
  ruta : Option String
  fechaSalida : Option Int
  horaSalida : Option String
  cuposDisponibles : Option Int
  tarifaPorPasajero : Option Int
  estado : Option String
  deriving DecidableEq, Repr

/-- The body `{}`. -/
def ActualizarViajeBody.vacio : ActualizarViajeBody :=
  ⟨none, none, none, none, none, none, none, none⟩

/-- The field assignments of `actualizarViaje` that need no check
(tripController.js 347-352): each is made only when the body value is truthy
(`ruta`: when it is not `undefined`). -/
def aplicarCampos (viaje : Trip) (body : ActualizarViajeBody) : Trip :=
  let v1 := if truthyStr body.puntoInicio then
    { viaje with puntoInicio := trim (body.puntoInicio.getD "") } else viaje
  let v2 := if truthyStr body.puntoFinal then
    { v1 with puntoFinal := trim (body.puntoFinal.getD "") } else v1
  let v3 := match body.ruta with
    | some r => { v2 with ruta := some (trim r) }
    | none => v2
  let v4 := match body.fechaSalida with
    | some f => { v3 with fechaSalida := f }
    | none => v3
  let v5 := if truthyStr body.horaSalida then
    { v4 with horaSalida := body.horaSalida.getD "" } else v4
  if truthyNum body.tarifaPorPasajero then
    { v5 with tarifaPorPasajero := body.tarifaPorPasajero.getD 0 } else v5

/-- The assignment `if (estado) viaje.estado = estado` (tripController.js 353) followed by
the enum validator run by `save()`: `none` when the string is not an enum value. -/
def aplicarEstado (viaje : Trip) (estado : Option String) : Option Trip :=
  if truthyStr estado then
    match TripEstado.ofString? (estado.getD "") with
    | some e => some { viaje with estado := e }
    | none => none
  else some viaje

/-- The end of `actualizarViaje`: `await viaje.save()` (tripController.js 372) on the edited
document `v`, where `previo` is the document as loaded and `estado` the body field. -/
def guardarEdicion (s : Store) (previo v : Trip) (estado : Option String) (hoy : Int) :
    Store × Nat :=
  match aplicarEstado v estado with
  | none => (s, 500)
  | some v1 =>
    if v1.validar && v1.preSave (decide (v1.fechaSalida ≠ previo.fechaSalida)) hoy then
      (s.putTrip v1, 200)
    else (s, 500)

/-- Controller `actualizarViaje` (tripController.js 312-393). -/
def actualizarViaje (s : Store) (id conductorId : Nat) (body : ActualizarViajeBody)
    (hoy : Int) : Store × Nat :=
  match s.findTripDe id conductorId with
  | none => (s, 404)
  | some viaje =>
    if viaje.estado = .en_curso ∨ viaje.estado = .completado then (s, 400)
    else
      let v := aplicarCampos viaje body
      match body.cuposDisponibles with
      | none => guardarEdicion s viaje v body.estado hoy
      | some cuposDisponibles =>
        let cuposReservados := v.cuposTotales - v.cuposDisponibles
        let nuevosTotales := cuposDisponibles + cuposReservados
        match s.vehicles.find? (fun x => x.id = v.vehiculoId) with
        | none => (s, 500)
        | some vehiculo =>
          if nuevosTotales > vehiculo.capacidad then (s, 400)
          else
            guardarEdicion s viaje
              { v with cuposDisponibles := cuposDisponibles, cuposTotales := nuevosTotales }
              body.estado hoy

/-- Predicate of the queries on bookings that hold seats: `activo: true` and
`estado: { $in: ['pendiente', 'confirmada'] }` for a given trip. -/
def Booking.reservaActivaDe (b : Booking) (tripId : Nat) : Bool :=
  b.tripId = tripId && b.activo &&
  (b.estado = .pendiente || b.estado = .confirmada)

/-- Controller `eliminarViaje` (tripController.js 400-446). -/
def eliminarViaje (s : Store) (id conductorId : Nat) : Store × Nat :=
  match s.findTripDe id conductorId with
  | none => (s, 404)
  | some viaje =>
    let reservasActivas := s.bookings.countP (fun b => b.reservaActivaDe id)
    if reservasActivas > 0 then (s, 400)
    else
      match s.saveTrip { viaje with activo := false, estado := .cancelado } with
      | none => (s, 500)
      | some s1 => (s1, 200)

/-- The bulk write `Booking.updateMany({ tripId: id, activo: true }, { estado: 'cancelada' })`
(tripController.js 479-482). -/
def Store.cancelarReservasDe (s : Store) (tripId : Nat) : Store :=
  { s with bookings := s.bookings.map (fun b =>
      if b.tripId = tripId && b.activo then { b with estado := .cancelada } else b) }

/-- Controller `cancelarViaje` (tripController.js 453-497). -/
def cancelarViaje (s : Store) (id conductorId : Nat) : Store × Nat :=
  match s.findTripDe id conductorId with
  | none => (s, 404)
  | some viaje =>
    if viaje.estado = .cancelado ∨ viaje.estado = .completado then (s, 400)
    else
      match s.saveTrip { viaje with estado := .cancelado } with
      | none => (s, 500)
      | some s1 => (s1.cancelarReservasDe id, 200)

/-- The store after the insert of `joinTrip`, before the trip is written back. -/
def Store.conReserva (s : Store) (b1 : Booking) : Store :=
  { s with bookings := s.bookings ++ [b1], nextId := s.nextId + 1 }

/-- The document `new Booking({ ... })` built by `joinTrip` (tripController.js 575-588)
for the loaded trip `viaje`. -/
def nuevaReserva (s : Store) (viaje : Trip) (id pasajeroId : Nat) (numCupos : Int)
    (pickupPoints : List String) : Booking :=
  let precioTotal := multiplicar viaje.tarifaPorPasajero numCupos
  let puntoRecogida := ", ".intercalate pickupPoints
  { id := s.nextId
    tripId := id
    pasajeroId := pasajeroId
    cuposReservados := numCupos
    puntoRecogida := trim puntoRecogida
    estado := .pendiente
    precioTotal := precioTotal
    activo := true }

/-- The seat update of `joinTrip` on the loaded trip (tripController.js 592-598). -/
def descontarCupos (viaje : Trip) (numCupos : Int) : Trip :=
  let viaje1 := { viaje with cuposDisponibles := viaje.cuposDisponibles - numCupos }
  if viaje1.cuposDisponibles = 0 then { viaje1 with estado := .lleno } else viaje1

/-- Controller `joinTrip` (tripController.js 504-628). `pickupPoints` lists the
`puntoNombre` of each element of the body array (an absent array is `[]`, an absent name
is `""`, which is how `join` renders it); an absent `numCupos` is `0`. The `User`
document of the trip's driver is taken to exist, so `populate('conductorId')` yields it. -/
def joinTrip (s : Store) (id pasajeroId : Nat) (numCupos : Int)
    (pickupPoints : List String) : Store × Nat :=
  if numCupos = 0 ∨ numCupos < 1 then (s, 400)
  else if pickupPoints.length = 0 then (s, 400)
  else
    match s.findTripActivo id with
    | none => (s, 404)
    | some viaje =>
      if viaje.estado ≠ .disponible then (s, 400)
      else if viaje.conductorId = pasajeroId then (s, 403)
      else if viaje.cuposDisponibles < numCupos then (s, 400)
      else if s.bookings.any (fun b => b.reservaActivaDe id && b.pasajeroId = pasajeroId)
        then (s, 400)
      else
        match s.insertBooking (nuevaReserva s viaje id pasajeroId numCupos pickupPoints) with
        | none => (s, 500)
        | some s1 =>
          match s1.saveTrip (descontarCupos viaje numCupos) with
          | none => (s1, 500)
          | some s2 => (s2, 201)

/-! ## Booking controller (bookingController.js) -/

/-- The seat release of `cancelarReserva` on the loaded trip
(bookingController.js 259-265). -/
def liberarCupos (viaje : Trip) (reserva : Booking) : Trip :=
  let viaje1 :=
    { viaje with cuposDisponibles := viaje.cuposDisponibles + reserva.cuposReservados }
  if viaje1.estado = .lleno then { viaje1 with estado := .disponible } else viaje1

/-- Controller `cancelarReserva` (bookingController.js 211-294). -/
def cancelarReserva (s : Store) (id pasajeroId : Nat) : Store × Nat :=
  match s.findBookingDe id pasajeroId with
  | none => (s, 404)
  | some reserva =>
    if reserva.estado = .cancelada then (s, 400)
    else if reserva.estado = .completada then (s, 400)
    else
      match s.findTripById reserva.tripId with
      | none => (s, 404)
      | some viaje =>
        match s.saveBooking { reserva with estado := .cancelada } with
        | none => (s, 500)
        | some s1 =>
          match s1.saveTrip (liberarCupos viaje reserva) with
          | none => (s1, 500)
          | some s2 => (s2, 200)

/-- Controller `confirmarReserva` (bookingController.js 301-362). A booking whose trip
cannot be populated makes `reserva.tripId.conductorId` throw. -/
def confirmarReserva (s : Store) (id conductorId : Nat) : Store × Nat :=
  match s.findBookingActivo id with
  | none => (s, 404)
  | some reserva =>
    match s.findTripById reserva.tripId with
    | none => (s, 500)
    | some viaje =>
      if viaje.conductorId ≠ conductorId then (s, 403)
      else if reserva.estado ≠ .pendiente then (s, 400)
      else
        match s.saveBooking { reserva with estado := .confirmada } with
        | none => (s, 500)
        | some s1 => (s1, 200)

/-- Controller `completarReserva` (bookingController.js 369-430). -/
def completarReserva (s : Store) (id conductorId : Nat) : Store × Nat :=
  match s.findBookingActivo id with
  | none => (s, 404)
  | some reserva =>
    match s.findTripById reserva.tripId with
    | none => (s, 500)
    | some viaje =>
      if viaje.conductorId ≠ conductorId then (s, 403)
      else if reserva.estado ≠ .confirmada then (s, 400)
      else
        match s.saveBooking { reserva with estado := .completada } with
        | none => (s, 500)
        | some s1 => (s1, 200)

/-- Controller `eliminarReserva` (bookingController.js 437-480). -/
def eliminarReserva (s : Store) (id pasajeroId : Nat) : Store × Nat :=
  match s.findBookingDe id pasajeroId with
  | none => (s, 404)
  | some reserva =>
    if reserva.estado ≠ .cancelada ∧ reserva.estado ≠ .completada then (s, 400)
    else
      match s.saveBooking { reserva with activo := false } with
      | none => (s, 500)
      | some s1 => (s1, 200)

/-! ## Requests and runs -/

/-- A request to one of the nine state-changing endpoints, with the authenticated user
(`req.user._id`) and, where the handler reads the clock, the current day. -/
inductive Op
  | crearViaje (user : Nat) (body : CrearViajeBody) (hoy : Int)
  | actualizarViaje (id user : Nat) (body : ActualizarViajeBody) (hoy : Int)
  | eliminarViaje (id user : Nat)
  | cancelarViaje (id user : Nat)
  | joinTrip (id user : Nat) (numCupos : Int) (pickupPoints : List String)
  | cancelarReserva (id user : Nat)
  | confirmarReserva (id user : Nat)
  | completarReserva (id user : Nat)
  | eliminarReserva (id user : Nat)
  deriving DecidableEq, Repr

/-- One request handled to completion: the new store and the HTTP status. -/
def step (s : Store) : Op → Store × Nat
  | .crearViaje user body hoy => crearViaje s user body hoy
  | .actualizarViaje id user body hoy => actualizarViaje s id user body hoy
  | .eliminarViaje id user => eliminarViaje s id user
  | .cancelarViaje id user => cancelarViaje s id user
  | .joinTrip id user numCupos pickupPoints => joinTrip s id user numCupos pickupPoints
  | .cancelarReserva id user => cancelarReserva s id user
  | .confirmarReserva id user => confirmarReserva s id user
  | .completarReserva id user => completarReserva s id user
  | .eliminarReserva id user => eliminarReserva s id user

/-- Requests handled one at a time, in order. -/
def run (s : Store) : List Op → Store
  | [] => s
  | op :: ops => run (step s op).1 ops

/-! ## Quantities and predicates of the specification -/

/-- Seats held on a trip: the sum of `cuposReservados` over its active bookings in
`pendiente` or `confirmada`. -/
def cuposRetenidos (bookings : List Booking) (tripId : Nat) : Int :=
  ((bookings.filter (fun b => b.reservaActivaDe tripId)).map (fun b => b.cuposReservados)).sum

/-- What one booking adds to the seats held on a trip. -/
def aporte (tripId : Nat) (b : Booking) : Int :=
  if b.reservaActivaDe tripId then b.cuposReservados else 0

/-- The pair under the unique index of `bookingSchema`. -/
def Booking.clave (b : Booking) : Nat × Nat := (b.tripId, b.pasajeroId)

/-- Terminal booking states. -/
def BookingEstado.terminal (e : BookingEstado) : Prop :=
  e = .cancelada ∨ e = .completada

/-- Well-formedness of a store, kept by every controller. -/
structure Inv (s : Store) : Prop where
  tripIdLt : ∀ t ∈ s.trips, t.id < s.nextId
  tripIdNodup : (s.trips.map Trip.id).Nodup
  tripValido : ∀ t ∈ s.trips, t.validar = true ∧ t.cuposDisponibles ≤ t.cuposTotales
  bookingIdLt : ∀ b ∈ s.bookings, b.id < s.nextId
  bookingIdNodup : (s.bookings.map Booking.id).Nodup
  bookingValido : ∀ b ∈ s.bookings, b.validar = true
  bookingTrip : ∀ b ∈ s.bookings, b.tripId ∈ s.trips.map Trip.id
  claveNodup : (s.bookings.map Booking.clave).Nodup
  inactiva : ∀ b ∈ s.bookings, b.activo = false → b.estado.terminal
  cupos : ∀ t ∈ s.trips,
    t.cuposDisponibles + cuposRetenidos s.bookings t.id ≤ t.cuposTotales

/-- The seat equation of the specification on one store: for every trip,
`cuposDisponibles` plus the seats held by its active `pendiente`/`confirmada` bookings
equals `cuposTotales`. -/
def CuposExactos (s : Store) : Prop :=
  ∀ t ∈ s.trips, t.cuposDisponibles + cuposRetenidos s.bookings t.id = t.cuposTotales

instance (s : Store) : Decidable (CuposExactos s) := by
  unfold CuposExactos; infer_instance

/-- Requests that take seats out of the `pendiente`/`confirmada` pool without giving
them back to the trip: `completarReserva` and `cancelarViaje`. -/
def Op.retiraCupos : Op → Bool
  | .completarReserva _ _ => true
  | .cancelarViaje _ _ => true
  | _ => false

/-- Invariant I3 of the specification on one store: a trip is `lleno` exactly when it has
no free seat. -/
def LlenoSiiSinCupos (s : Store) : Prop :=
  ∀ t ∈ s.trips, (t.estado = .lleno ↔ t.cuposDisponibles = 0)

instance (s : Store) : Decidable (LlenoSiiSinCupos s) := by
  unfold LlenoSiiSinCupos; infer_instance

/-- The part of I3 that the seat bookkeeping maintains: `lleno` only with no free seat,
and no free seat only in `lleno` or `cancelado`. -/
def LlenoCoherente (s : Store) : Prop :=
  ∀ t ∈ s.trips, (t.estado = .lleno → t.cuposDisponibles = 0) ∧
    (t.cuposDisponibles = 0 → t.estado = .lleno ∨ t.estado = .cancelado)

/-- Requests that leave `estado` and the seat counters of trips to the bookkeeping: a
`crearViaje` without `estado`, an `actualizarViaje` without `estado` and without
`cuposDisponibles`, and every other request. -/
def Op.sinEstadoNiCupos : Op → Bool
  | .crearViaje _ body _ => body.estado = none
  | .actualizarViaje _ _ body _ => body.estado = none && body.cuposDisponibles = none
  | _ => true

/-- Reference procedure of the specification for creating a booking (section 4.2, steps
1 to 6 in order, first failure returned), as the HTTP status: 400 validation, 404
not found, 400 trip not open, 403 own trip, 400 not enough seats, 400 duplicate, 201
success. -/
def joinTripRef (s : Store) (id pasajeroId : Nat) (numCupos : Int)
    (pickupPoints : List String) : Nat :=
  if numCupos < 1 ∨ pickupPoints = [] then 400
  else
    match s.trips.find? (fun t => t.id = id && t.activo) with
    | none => 404
    | some trip =>
      if trip.estado ≠ .disponible then 400
      else if pasajeroId = trip.conductorId then 403
      else if trip.cuposDisponibles < numCupos then 400
      else if s.bookings.any (fun b => b.tripId = id && b.pasajeroId = pasajeroId &&
          b.activo && (b.estado = .pendiente || b.estado = .confirmada)) then 400
      else 201

/-- Bookings of a (trip, passenger) pair whose `estado` satisfies `p`. -/
def reservasDelPar (s : Store) (tripId pasajeroId : Nat) (p : BookingEstado → Bool) :
    List Booking :=
  s.bookings.filter (fun b => b.tripId = tripId && b.pasajeroId = pasajeroId && p b.estado)

/-! ## Example data -/

/-- A registered vehicle of driver 1 with four seats. -/
def ejVehiculo : Vehicle := ⟨100, 1, 4, true⟩

/-- A minimal valid `crearViaje` body in the frontend spelling. -/
def ejCrear : CrearViajeBody :=
  { CrearViajeBody.vacio with
    origen := some "Campus", destino := some "Centro", hora := some "08:00",
    precio := some 5000 }

/-- The body `ejCrear` with the largest fare that is exact below `2 ^ 53`. -/
def ejCrearCaro : CrearViajeBody := { ejCrear with precio := some 9007199254740991 }

/-- The trip stored by `crearViaje` for `ejCrear` on day 10. -/
def ejViaje : Trip :=
  { id := 0, conductorId := 1, vehiculoId := 100, puntoInicio := "Campus",
    puntoFinal := "Centro", ruta := none, fechaSalida := 10, horaSalida := "08:00",
    cuposDisponibles := 4, cuposTotales := 4, tarifaPorPasajero := 5000,
    estado := .disponible, activo := true }

/-- Driver 1 publishes a trip; passenger 2 books one seat; the driver confirms and then
completes the booking. -/
def ejCompletar : List Op :=
  [.crearViaje 1 ejCrear 10, .joinTrip 0 2 1 ["Porteria"], .confirmarReserva 1 1,
   .completarReserva 1 1]

/-- Driver 1 publishes a trip; passenger 2 books three seats. -/
def ejTresCupos : List Op :=
  [.crearViaje 1 ejCrear 10, .joinTrip 0 2 3 ["Porteria"]]

/-- Driver 1 publishes a trip with `estado: 'lleno'` in the body. -/
def ejCrearLleno : List Op :=
  [.crearViaje 1 { ejCrear with estado := some "lleno" } 10]

/-- Driver 1 publishes a trip; passenger 2 books one seat and cancels the booking. -/
def ejCancelada : List Op :=
  [.crearViaje 1 ejCrear 10, .joinTrip 0 2 1 ["Porteria"], .cancelarReserva 1 2]

/-- Driver 1 publishes a trip; passenger 2 books three seats and passenger 3 the last. -/
def ejLleno : List Op :=
  [.crearViaje 1 ejCrear 10, .joinTrip 0 2 3 ["Porteria"], .joinTrip 0 3 1 ["Biblioteca"]]

/-- The trip of `ejTresCupos` after passenger 2 booked three seats. -/
def ejViajeTres : Trip := { ejViaje with cuposDisponibles := 1 }

/-- The trip of `ejLleno` once the last seat is booked. -/
def ejViajeLleno : Trip := { ejViaje with cuposDisponibles := 0, estado := .lleno }

/-- Identity and price of a booking, the two fields compared across requests. -/
def Booking.idPrecio (b : Booking) : Nat × Numero := (b.id, b.precioTotal)

/-- The booking of `ejTresCupos`: three seats at 5000 each. -/
def ejReserva : Booking :=
  { id := 1, tripId := 0, pasajeroId := 2, cuposReservados := 3, puntoRecogida := "Porteria",
    estado := .pendiente, precioTotal := 15000, activo := true }

/-- After `ejTresCupos`: the driver doubles `tarifaPorPasajero`, confirms and completes
the booking, and the passenger removes it. -/
def ejTarifa : List Op :=
  [.actualizarViaje 0 1 { ActualizarViajeBody.vacio with tarifaPorPasajero := some 10000 } 10,
   .confirmarReserva 1 1, .completarReserva 1 1, .eliminarReserva 1 2]

/-- The booking `ejReserva` at the end of `ejTarifa`. -/
def ejReservaFinal : Booking :=
  { ejReserva with estado := .completada, activo := false }

/-- States the system can be in: those reached from an empty store, over some vehicle
registry, by requests handled one at a time. -/
def Alcanzable (s : Store) : Prop :=
  ∃ vs ops, s = run (Store.inicial vs) ops

/-- The trip of `ejLleno` after passenger 2 cancelled the booking of three seats. -/
def ejViajeLiberado : Trip := { ejViaje with cuposDisponibles := 3 }

/-- The booking of `ejCancelada`: one seat of passenger 2, cancelled. -/
def ejReservaCancelada : Booking :=
  { id := 1, tripId := 0, pasajeroId := 2, cuposReservados := 1, puntoRecogida := "Porteria",
    estado := .cancelada, precioTotal := 5000, activo := true }


/-- Passenger 2 books one seat on the trip of driver 1, who confirms the booking. -/
def ejConfirmada : List Op :=
  [.crearViaje 1 ejCrear 10, .joinTrip 0 2 1 ["Porteria"], .confirmarReserva 1 1]

/-- Passenger 2 books one seat on the trip of driver 1. -/
def ejPendiente : List Op :=
  [.crearViaje 1 ejCrear 10, .joinTrip 0 2 1 ["Porteria"]]

/-- The booking of `ejPendiente`. -/
def ejReservaUna : Booking :=
  { id := 1, tripId := 0, pasajeroId := 2, cuposReservados := 1, puntoRecogida := "Porteria",
    estado := .pendiente, precioTotal := 5000, activo := true }

/-- The trip of `ejPendiente`, with one of four seats booked. -/
def ejViajeUna : Trip := { ejViaje with cuposDisponibles := 3 }


/-- The edges of the booking state machine of the specification, staying in place
included: `pendiente → confirmada`, `pendiente → cancelada`, `confirmada → completada`,
`confirmada → cancelada`. -/
def BookingEstado.transicion (a b : BookingEstado) : Bool :=
  a = b || (a = .pendiente && b = .confirmada) || (a = .pendiente && b = .cancelada) ||
  (a = .confirmada && b = .completada) || (a = .confirmada && b = .cancelada)

/-- The booking state machine between a store and its successor: every booking of the
first that is still stored in the second has moved along an edge of the machine. -/
def MaquinaRespetada (s s' : Store) : Prop :=
  ∀ b ∈ s.bookings, ∀ b' ∈ s'.bookings, b'.id = b.id →
    BookingEstado.transicion b.estado b'.estado = true

instance (s s' : Store) : Decidable (MaquinaRespetada s s') := by
  unfold MaquinaRespetada; infer_instance

/-- Scenario 5 of the specification: on the trip of driver 1, the booking of passenger 2
(id 1) is completed and the booking of passenger 3 (id 2) is pending. -/
def ejMixta : List Op :=
  [.crearViaje 1 ejCrear 10, .joinTrip 0 2 1 ["Porteria"], .confirmarReserva 1 1,
   .completarReserva 1 1, .joinTrip 0 3 1 ["Biblioteca"]]

/-- The completed booking of `ejMixta`. -/
def ejReservaCompletada : Booking :=
  { id := 1, tripId := 0, pasajeroId := 2, cuposReservados := 1, puntoRecogida := "Porteria",
    estado := .completada, precioTotal := 5000, activo := true }

/-- The pending booking of `ejMixta`. -/
def ejReservaPendiente : Booking :=
  { id := 2, tripId := 0, pasajeroId := 3, cuposReservados := 1,
    puntoRecogida := "Biblioteca", estado := .pendiente, precioTotal := 5000, activo := true }


/-- The trip of `ejCancelada` after `eliminarViaje`. -/
def ejViajeEliminado : Trip := { ejViaje with activo := false, estado := .cancelado }


/-- A patch that only resizes the free seats to `a`. -/
def soloCupos (a : Int) : ActualizarViajeBody :=
  { ActualizarViajeBody.vacio with cuposDisponibles := some a }


/-- A trip of driver 1 marked `completado` by the driver through `actualizarViaje`. -/
def ejCompletado : List Op :=
  [.crearViaje 1 ejCrear 10,
   .actualizarViaje 0 1 { ActualizarViajeBody.vacio with estado := some "completado" } 10]

/-- The trip of `ejCompletado`. -/
def ejViajeCompletado : Trip := { ejViaje with estado := .completado }

/-- A patch that renames the origin and doubles the fare. -/
def ejParche : ActualizarViajeBody :=
  { ActualizarViajeBody.vacio with
    puntoInicio := some "Biblioteca", tarifaPorPasajero := some 10000 }


/-- Seats of a trip taken by bookings in `pendiente` or `confirmada`, whatever their
`activo` flag. -/
def cuposEnCurso (bookings : List Booking) (tripId : Nat) : Int :=
  ((bookings.filter (fun b => b.tripId = tripId &&
      (b.estado = .pendiente || b.estado = .confirmada))).map
    (fun b => b.cuposReservados)).sum

/-- The booking of `ejTarifa` once it is completed and removed by the passenger. -/
def ejEliminada : List Op := ejTresCupos ++ ejTarifa


/-- The seat count a `crearViaje` body supplies: the first of `asientosDisponibles` and
`cuposDisponibles` that is present. -/
def CrearViajeBody.cuposSuministrados (body : CrearViajeBody) : Option Int :=
  match body.asientosDisponibles with
  | some n => some n
  | none => body.cuposDisponibles

/-- The seat count a `crearViaje` body asks for, as the controller reads it: the first of
`asientosDisponibles` and `cuposDisponibles` that is present and not `0`. -/
def CrearViajeBody.cuposPedidos (body : CrearViajeBody) : Option Int :=
  match orNum body.asientosDisponibles body.cuposDisponibles with
  | some n => if n ≠ 0 then some n else none
  | none => none

/-- The `estado` string a `crearViaje` body names, as the controller reads it
(tripController.js 80): `'activo'`, an absent and an empty `estado` stand for
`'disponible'`. -/
def CrearViajeBody.estadoTexto (body : CrearViajeBody) : String :=
  if body.estado = some "activo" then "disponible"
  else (orStr body.estado (some "disponible")).getD "disponible"

/-- A `crearViaje` body that asks for zero seats. -/
def ejCrearCero : CrearViajeBody := { ejCrear with asientosDisponibles := some 0 }

/-- A `crearViaje` body that asks for two seats. -/
def ejCrearDos : CrearViajeBody := { ejCrear with asientosDisponibles := some 2 }

/-- A `crearViaje` body that asks for five seats, one more than `ejVehiculo` has. -/
def ejCrearCinco : CrearViajeBody := { ejCrear with asientosDisponibles := some 5 }

/-- The trip stored for `ejCrearDos`. -/
def ejViajeDos : Trip := { ejViaje with cuposDisponibles := 2, cuposTotales := 2 }

/-- The trip stored for `ejCrearLleno`. -/
def ejViajeCreadoLleno : Trip := { ejViaje with estado := .lleno }


/-- The property of C30 on one store: no trip in `cancelado` has an active booking in
`pendiente` or `confirmada`. -/
def CanceladoSinReservas (s : Store) : Prop :=
  ∀ t ∈ s.trips, t.estado = .cancelado → ∀ b ∈ s.bookings, b.reservaActivaDe t.id = false

instance (s : Store) : Decidable (CanceladoSinReservas s) := by
  unfold CanceladoSinReservas; infer_instance

/-- Requests that set a trip to `cancelado` by editing it: an `actualizarViaje` whose body
carries `estado: 'cancelado'`. -/
def Op.cancelaPorEdicion : Op → Bool
  | .actualizarViaje _ _ body _ => body.estado = some "cancelado"
  | _ => false

/-- Passenger 2 holds a pending booking on the trip of driver 1, who then sets the trip to
`cancelado` with `actualizarViaje`. -/
def ejCanceladoPorEdicion : List Op :=
  ejPendiente ++
    [.actualizarViaje 0 1 { ActualizarViajeBody.vacio with estado := some "cancelado" } 10]

/-- Driver 1 cancels the trip on which passenger 2 holds a pending booking. -/
def ejViajeCancelado : List Op := ejPendiente ++ [.cancelarViaje 0 1]


/-- The request is an `actualizarViaje`. -/
def Op.esActualizarViaje : Op → Bool
  | .actualizarViaje _ _ _ _ => true
  | _ => false

/-- The request is a `cancelarReserva`. -/
def Op.esCancelarReserva : Op → Bool
  | .cancelarReserva _ _ => true
  | _ => false

/-- The request is an `eliminarViaje`. -/
def Op.esEliminarViaje : Op → Bool
  | .eliminarViaje _ _ => true
  | _ => false

/-- What one request `op` does at most to a trip `t` whose `estado` is `completado` or
`cancelado`, `t'` being the trip stored under the same id afterwards. -/
def Congelado (op : Op) (t t' : Trip) : Prop :=
  (op.esActualizarViaje = false →
    t'.cuposTotales = t.cuposTotales ∧ t'.fechaSalida = t.fechaSalida ∧
    t'.horaSalida = t.horaSalida ∧ t'.puntoInicio = t.puntoInicio ∧
    t'.puntoFinal = t.puntoFinal ∧
    (t'.estado = .completado ∨ t'.estado = .cancelado) ∧
    (op.esCancelarReserva = false → t'.cuposDisponibles = t.cuposDisponibles) ∧
    (op.esEliminarViaje = false → t'.estado = t.estado)) ∧
  (t.estado = .completado → op.esActualizarViaje = true → t' = t)

/-- Driver 1 publishes a trip and cancels it. -/
def ejCancelado : List Op := [.crearViaje 1 ejCrear 10, .cancelarViaje 0 1]

/-- An edit that renames the origin, moves the departure to day 12 at 09:30, offers two
seats and names the `estado` `'disponible'`. -/
def ejReabrir : ActualizarViajeBody :=
  { ActualizarViajeBody.vacio with
    puntoInicio := some "Biblioteca", fechaSalida := some 12, horaSalida := some "09:30",
    cuposDisponibles := some 2, estado := some "disponible" }

/-- The cancelled trip of `ejCancelado` after the edit `ejReabrir`. -/
def ejViajeReabierto : Trip :=
  { ejViaje with
    puntoInicio := "Biblioteca", fechaSalida := 12, horaSalida := "09:30",
    cuposDisponibles := 2, cuposTotales := 2 }

/-- Passenger 2 books one seat, the driver sets the trip to `completado`. -/
def ejCompletadoConReserva : List Op :=
  ejPendiente ++
    [.actualizarViaje 0 1 { ActualizarViajeBody.vacio with estado := some "completado" } 10]


/-! ## Listing of trips: `obtenerViajes` (tripController.js 129-215) -/

/-- Query string of `GET /api/trips` (tripController.js 131-141); each parameter is a
string when present. -/
structure ObtenerViajesQuery where
  origen : Option String
  destino : Option String
  cupos : Option String
  estado : Option String
  puntoInicio : Option String
  puntoFinal : Option String
  fechaSalida : Option String
  cuposMinimos : Option String
  deriving DecidableEq, Repr

/-- The request without query string. -/
def ObtenerViajesQuery.vacio : ObtenerViajesQuery :=
  ⟨none, none, none, none, none, none, none, none⟩

/-- The library calls of `obtenerViajes`, taken as given. `regex p` is the filter
`{ $regex: p, $options: 'i' }` as a test on the stored string, `none` when the pattern is
rejected; `fecha x` is the day of `new Date(x)`, `none` for an invalid date; `parseInt x`
is `parseInt(x)`, `none` for `NaN`. A rejected value makes `Trip.find` throw. -/
structure Biblioteca where
  regex : String → Option (String → Bool)
  fecha : String → Option Int
  parseInt : String → Option Int

/-- The object `filtros` of `obtenerViajes`, whose `activo` is always `true`
(tripController.js 144-178). -/
structure Filtros where
  estado : String
  puntoInicio : Option (String → Bool)
  puntoFinal : Option (String → Bool)
  fechaSalida : Option Int
  cuposDisponibles : Option Int

/-- The stored string of an `estado`. -/
def TripEstado.nombre : TripEstado → String
  | .disponible => "disponible"
  | .lleno => "lleno"
  | .en_curso => "en_curso"
  | .completado => "completado"
  | .cancelado => "cancelado"

/-- The value of `filtros.estado` (tripController.js 147-151): the query's `estado` when it
is truthy, `'activo'` read as `'disponible'`; `'disponible'` otherwise. -/
def ObtenerViajesQuery.estadoPedido (q : ObtenerViajesQuery) : String :=
  if truthyStr q.estado then
    (if q.estado = some "activo" then "disponible" else q.estado.getD "")
  else "disponible"

/-- The filter on `puntoInicio` or `puntoFinal` (tripController.js 154-160): set when
`a || b` is truthy. The outer `none` is a rejected pattern. -/
def filtroTexto (lib : Biblioteca) (a b : Option String) : Option (Option (String → Bool)) :=
  if truthyStr (orStr a b) then (lib.regex ((orStr a b).getD "")).map some else some none

/-- The filter on `fechaSalida` (tripController.js 162-172): the trips of the day of the
query's date. The outer `none` is an invalid date. -/
def filtroFecha (lib : Biblioteca) (a : Option String) : Option (Option Int) :=
  if truthyStr a then (lib.fecha (a.getD "")).map some else some none

/-- The filter on `cuposDisponibles` (tripController.js 174-176):
`{ $gte: parseInt(cupos || cuposMinimos) }`. The outer `none` is `NaN`. -/
def filtroCupos (lib : Biblioteca) (a b : Option String) : Option (Option Int) :=
  if truthyStr (orStr a b) then (lib.parseInt ((orStr a b).getD "")).map some else some none

/-- Construction of `filtros` (tripController.js 144-176); `none` when a library call
rejects a parameter. -/
def construirFiltros (lib : Biblioteca) (q : ObtenerViajesQuery) : Option Filtros :=
  match filtroTexto lib q.origen q.puntoInicio, filtroTexto lib q.destino q.puntoFinal,
      filtroFecha lib q.fechaSalida, filtroCupos lib q.cupos q.cuposMinimos with
  | some pi, some pf, some fe, some cu => some ⟨q.estadoPedido, pi, pf, fe, cu⟩
  | _, _, _, _ => none

/-- The library rejects a parameter of the query: a pattern, the date or the minimum
that the query supplies. -/
def rechazada (lib : Biblioteca) (q : ObtenerViajesQuery) : Bool :=
  (truthyStr (orStr q.origen q.puntoInicio) &&
    (lib.regex ((orStr q.origen q.puntoInicio).getD "")).isNone) ||
  (truthyStr (orStr q.destino q.puntoFinal) &&
    (lib.regex ((orStr q.destino q.puntoFinal).getD "")).isNone) ||
  (truthyStr q.fechaSalida && (lib.fecha (q.fechaSalida.getD "")).isNone) ||
  (truthyStr (orStr q.cupos q.cuposMinimos) &&
    (lib.parseInt ((orStr q.cupos q.cuposMinimos).getD "")).isNone)

/-- A stored trip matches `{ activo: true, ...filtros }`. -/
def Filtros.admite (f : Filtros) (t : Trip) : Bool :=
  t.activo && decide (t.estado.nombre = f.estado) &&
  (match f.puntoInicio with
    | some p => p t.puntoInicio
    | none => true) &&
  (match f.puntoFinal with
    | some p => p t.puntoFinal
    | none => true) &&
  (match f.fechaSalida with
    | some d => decide (t.fechaSalida = d)
    | none => true) &&
  (match f.cuposDisponibles with
    | some n => decide (n ≤ t.cuposDisponibles)
    | none => true)

/-- The order `.sort({ fechaSalida: 1, horaSalida: 1 })` (tripController.js 182). -/
def antesDe (a b : Trip) : Bool :=
  decide (a.fechaSalida < b.fechaSalida) ||
  (decide (a.fechaSalida = b.fechaSalida) && !decide (b.horaSalida < a.horaSalida))

/-- Controller `obtenerViajes` (tripController.js 129-215): the documents found by
`Trip.find(filtros).sort(...)`, of which the response lists one entry each in the same
order, and the status; a thrown error is answered 500. -/
def obtenerViajes (lib : Biblioteca) (s : Store) (q : ObtenerViajesQuery) :
    Option (List Trip) × Nat :=
  match construirFiltros lib q with
  | none => (none, 500)
  | some f => (some ((s.trips.filter f.admite).insertionSort (fun a b => antesDe a b = true)),
      200)

/-- The `estado` shown for a trip in the response (tripController.js 193). -/
def estadoMostrado (t : Trip) : String :=
  if t.estado = .disponible then "activo" else t.estado.nombre

/-- Test of a list of characters for a leading block. -/
def empiezaCon : List Char → List Char → Bool
  | _, [] => true
  | [], _ :: _ => false
  | x :: xs, p :: ps => x == p && empiezaCon xs ps

/-- Test of a list of characters for a contiguous block. -/
def contiene : List Char → List Char → Bool
  | [], p => empiezaCon [] p
  | x :: xs, p => empiezaCon (x :: xs) p || contiene xs p

/-- Value of a non-empty list of decimal digits. -/
def digitos (ds : List Char) : Option Nat :=
  if ds = [] then none
  else ds.foldl (fun acc c =>
    acc.bind (fun n => if c.isDigit then some (10 * n + (c.toNat - 48)) else none)) (some 0)

/-- Value of a decimal integer with an optional leading `-`. -/
def enteroDe (x : String) : Option Int :=
  match x.data with
  | '-' :: ds => (digitos ds).map (fun n => -(n : Int))
  | ds => (digitos ds).map Int.ofNat

/-- Library calls on the values used in the examples: a pattern of letters, digits and
blanks matches the strings that contain it, case ignored; dates are day numbers and
minimums integers in decimal. -/
def ejBiblioteca : Biblioteca where
  regex p :=
    if p.data.all (fun c => c.isAlphanum || c == ' ') then
      some (fun x => contiene (x.data.map Char.toLower) (p.data.map Char.toLower))
    else none
  fecha x := enteroDe x
  parseInt x := enteroDe x

/-- The query `?estado=activo`. -/
def ejSoloActivo : ObtenerViajesQuery :=
  { ObtenerViajesQuery.vacio with estado := some "activo" }

/-- The query `?origen=camp&cupos=3&fechaSalida=10`. -/
def ejDesdeCampus : ObtenerViajesQuery :=
  { ObtenerViajesQuery.vacio with
    origen := some "camp", cupos := some "3", fechaSalida := some "10" }

/-- The query `?cupos=tres`. -/
def ejCuposTexto : ObtenerViajesQuery :=
  { ObtenerViajesQuery.vacio with cupos := some "tres" }


/-! ## Concurrent `joinTrip` requests

`joinTrip` is an `async` function: it gives up control at each `await`, and the database
serves the operations of the requests in flight one at a time, in any order. A request is
modelled by the point it has reached; one step runs one database operation and the code
that follows it up to the next `await`. -/

/-- Point reached by a `joinTrip` request: `inicio` before `Trip.findOne`
(tripController.js 526); `buscaReserva` before `Booking.findOne` (560), holding the loaded
trip; `guarda` before `nuevaReserva.save()` (590); `actualiza` before `viaje.save()` (600);
`fin` once answered. -/
inductive Fase
  | inicio
  | buscaReserva (viaje : Trip)
  | guarda (viaje : Trip)
  | actualiza (viaje : Trip)
  | fin (status : Nat)
  deriving DecidableEq, Repr

/-- A `joinTrip` request in flight. -/
structure Peticion where
  id : Nat
  pasajeroId : Nat
  numCupos : Int
  pickupPoints : List String
  fase : Fase
  deriving DecidableEq, Repr

/-- A request just received. -/
def Peticion.nueva (id pasajeroId : Nat) (numCupos : Int) (pickupPoints : List String) :
    Peticion :=
  ⟨id, pasajeroId, numCupos, pickupPoints, .inicio⟩

/-- The call `viaje.save()` of `joinTrip` (tripController.js 592-600) on the copy loaded
earlier: validators and hooks run on the copy, and the write sets the modified paths of the
stored document, `cuposDisponibles` and, when it was assigned a new value, `estado`, without
a condition on the stored seat count. -/
def Store.guardarCupos (s : Store) (viaje : Trip) (numCupos : Int) : Option Store :=
  let v := descontarCupos viaje numCupos
  if v.validar && v.preSave false 0 then
    some { s with trips := s.trips.map (fun x =>
      if x.id = v.id then
        { x with
          cuposDisponibles := v.cuposDisponibles
          estado := if v.estado = viaje.estado then x.estado else v.estado }
      else x) }
  else none

/-- One step of a `joinTrip` request (tripController.js 504-628): the database operation
it waits for, on the store as it is now, and the code up to the next `await`. -/
def avanzar (s : Store) (p : Peticion) : Store × Peticion :=
  match p.fase with
  | .inicio =>
    if p.numCupos = 0 ∨ p.numCupos < 1 then (s, { p with fase := .fin 400 })
    else if p.pickupPoints.length = 0 then (s, { p with fase := .fin 400 })
    else
      match s.findTripActivo p.id with
      | none => (s, { p with fase := .fin 404 })
      | some viaje =>
        if viaje.estado ≠ .disponible then (s, { p with fase := .fin 400 })
        else if viaje.conductorId = p.pasajeroId then (s, { p with fase := .fin 403 })
        else if viaje.cuposDisponibles < p.numCupos then (s, { p with fase := .fin 400 })
        else (s, { p with fase := .buscaReserva viaje })
  | .buscaReserva viaje =>
    if s.bookings.any (fun b => b.reservaActivaDe p.id && b.pasajeroId = p.pasajeroId)
      then (s, { p with fase := .fin 400 })
    else (s, { p with fase := .guarda viaje })
  | .guarda viaje =>
    match s.insertBooking
        (nuevaReserva s viaje p.id p.pasajeroId p.numCupos p.pickupPoints) with
    | none => (s, { p with fase := .fin 500 })
    | some s1 => (s1, { p with fase := .actualiza viaje })
  | .actualiza viaje =>
    match s.guardarCupos viaje p.numCupos with
    | none => (s, { p with fase := .fin 500 })
    | some s2 => (s2, { p with fase := .fin 201 })
  | .fin _ => (s, p)

/-- A request served alone: its four steps in a row. -/
def atender (s : Store) (p : Peticion) : Store × Peticion :=
  let r1 := avanzar s p
  let r2 := avanzar r1.1 r1.2
  let r3 := avanzar r2.1 r2.2
  avanzar r3.1 r3.2

/-- Requests in flight served in the order `orden`: each entry names the request that
takes the next step. -/
def entrelazar (s : Store) (ps : List Peticion) : List Nat → Store × List Peticion
  | [] => (s, ps)
  | i :: orden =>
    match ps.get? i with
    | none => entrelazar s ps orden
    | some p => entrelazar (avanzar s p).1 (ps.set i (avanzar s p).2) orden

/-- Passengers 3 and 4 each ask for one seat of trip 0. -/
def ejRivales : List Peticion :=
  [Peticion.nueva 0 3 1 ["Biblioteca"], Peticion.nueva 0 4 1 ["Cafeteria"]]

/-- The two bookings accepted in the race for the last seat of `ejTresCupos`, after the
booking of passenger 2. -/
def ejReservasCarrera : List Booking :=
  [{ id := 1, tripId := 0, pasajeroId := 2, cuposReservados := 3,
     puntoRecogida := "Porteria", estado := .pendiente, precioTotal := 15000,
     activo := true },
   { id := 2, tripId := 0, pasajeroId := 3, cuposReservados := 1,
     puntoRecogida := "Biblioteca", estado := .pendiente, precioTotal := 5000,
     activo := true },
   { id := 3, tripId := 0, pasajeroId := 4, cuposReservados := 1,
     puntoRecogida := "Cafeteria", estado := .pendiente, precioTotal := 5000,
     activo := true }]


/-! ## List lemmas for keyed replacement -/

theorem cuposRetenidos_eq_sum (bs : List Booking) (tid : Nat) :
    cuposRetenidos bs tid = (bs.map (aporte tid)).sum := by
  induction bs with
  | nil => rfl
  | cons b bs ih =>
    simp only [cuposRetenidos] at ih
    by_cases hb : b.reservaActivaDe tid = true
    · simp [cuposRetenidos, List.filter_cons, aporte, hb, ih]
    · simp [cuposRetenidos, List.filter_cons, aporte, hb, ih]

theorem replace_eq_self_of_not_mem {α : Type} (key : α → Nat) (l : List α) (a' : α)
    (h : key a' ∉ l.map key) :
    l.map (fun x => if key x = key a' then a' else x) = l := by
  induction l with
  | nil => rfl
  | cons x l ih =>
    simp only [List.map_cons, List.mem_cons, not_or] at h
    simp only [List.map_cons]
    rw [if_neg (fun e => h.1 e.symm), ih h.2]

theorem mem_replace {α : Type} (key : α → Nat) (l : List α) (a' y : α)
    (hy : y ∈ l.map (fun x => if key x = key a' then a' else x)) :
    y = a' ∨ (y ∈ l ∧ key y ≠ key a') := by
  rcases List.mem_map.1 hy with ⟨x, hx, rfl⟩
  by_cases hk : key x = key a'
  · left; simp [hk]
  · right; simp [hk, hx]

theorem map_replace_of_eq {α β : Type} (key : α → Nat) (f : α → β) (l : List α) (a' : α)
    (h : ∀ x ∈ l, key x = key a' → f a' = f x) :
    (l.map (fun x => if key x = key a' then a' else x)).map f = l.map f := by
  rw [List.map_map]
  apply List.map_congr_left
  intro x hx
  by_cases hk : key x = key a'
  · simp [hk, h x hx hk]
  · simp [hk]

theorem eq_of_key_eq {α : Type} (key : α → Nat) (l : List α) (hn : (l.map key).Nodup)
    (a x : α) (ha : a ∈ l) (hx : x ∈ l) (hk : key x = key a) : x = a :=
  List.inj_on_of_nodup_map hn hx ha hk

theorem sum_map_replace {α : Type} (key : α → Nat) (g : α → Int) (l : List α) (a a' : α)
    (hn : (l.map key).Nodup) (ha : a ∈ l) (hk : key a' = key a) :
    ((l.map (fun x => if key x = key a' then a' else x)).map g).sum
      = (l.map g).sum - g a + g a' := by
  induction l with
  | nil => simp at ha
  | cons x l ih =>
    simp only [List.map_cons, List.nodup_cons] at hn
    rcases List.mem_cons.1 ha with rfl | hal
    · have hnot : key a' ∉ l.map key := by rw [hk]; exact hn.1
      simp only [List.map_cons, hk, if_true, List.sum_cons]
      have := replace_eq_self_of_not_mem key l a' hnot
      rw [hk] at this
      rw [this]; ring
    · have hne : key x ≠ key a' := by
        intro e
        apply hn.1
        rw [e, hk]
        exact List.mem_map_of_mem key hal
      simp only [List.map_cons, if_neg hne, List.sum_cons]
      rw [ih hn.2 hal]; ring

theorem cuposRetenidos_eq_zero (bs : List Booking) (tid : Nat)
    (h : ∀ b ∈ bs, b.tripId ≠ tid) : cuposRetenidos bs tid = 0 := by
  rw [cuposRetenidos_eq_sum]
  apply List.sum_eq_zero
  intro x hx
  rcases List.mem_map.1 hx with ⟨b, hb, rfl⟩
  simp [aporte, Booking.reservaActivaDe, h b hb]

theorem cuposRetenidos_append (bs : List Booking) (b : Booking) (tid : Nat) :
    cuposRetenidos (bs ++ [b]) tid = cuposRetenidos bs tid + aporte tid b := by
  simp [cuposRetenidos_eq_sum]

/-! ## Query lemmas -/

theorem mem_of_findTripDe {s : Store} {id u : Nat} {t : Trip}
    (h : s.findTripDe id u = some t) :
    t ∈ s.trips ∧ t.id = id ∧ t.conductorId = u ∧ t.activo = true := by
  unfold Store.findTripDe at h
  have h1 := List.mem_of_find?_eq_some h
  have h2 := List.find?_some h
  simp only [Bool.and_eq_true, decide_eq_true_eq] at h2
  exact ⟨h1, h2.1.1, h2.1.2, h2.2⟩

theorem mem_of_findTripActivo {s : Store} {id : Nat} {t : Trip}
    (h : s.findTripActivo id = some t) : t ∈ s.trips ∧ t.id = id ∧ t.activo = true := by
  unfold Store.findTripActivo at h
  have h1 := List.mem_of_find?_eq_some h
  have h2 := List.find?_some h
  simp only [Bool.and_eq_true, decide_eq_true_eq] at h2
  exact ⟨h1, h2.1, h2.2⟩

theorem mem_of_findTripById {s : Store} {id : Nat} {t : Trip}
    (h : s.findTripById id = some t) : t ∈ s.trips ∧ t.id = id := by
  unfold Store.findTripById at h
  have h1 := List.mem_of_find?_eq_some h
  have h2 := List.find?_some h
  simp only [decide_eq_true_eq] at h2
  exact ⟨h1, h2⟩

theorem mem_of_findBookingDe {s : Store} {id u : Nat} {b : Booking}
    (h : s.findBookingDe id u = some b) :
    b ∈ s.bookings ∧ b.id = id ∧ b.pasajeroId = u ∧ b.activo = true := by
  unfold Store.findBookingDe at h
  have h1 := List.mem_of_find?_eq_some h
  have h2 := List.find?_some h
  simp only [Bool.and_eq_true, decide_eq_true_eq] at h2
  exact ⟨h1, h2.1.1, h2.1.2, h2.2⟩

theorem mem_of_findBookingActivo {s : Store} {id : Nat} {b : Booking}
    (h : s.findBookingActivo id = some b) :
    b ∈ s.bookings ∧ b.id = id ∧ b.activo = true := by
  unfold Store.findBookingActivo at h
  have h1 := List.mem_of_find?_eq_some h
  have h2 := List.find?_some h
  simp only [Bool.and_eq_true, decide_eq_true_eq] at h2
  exact ⟨h1, h2.1, h2.2⟩

theorem Trip.le_of_preSave {t : Trip} {f : Bool} {hoy : Int} (h : t.preSave f hoy = true) :
    t.cuposDisponibles ≤ t.cuposTotales := by
  simp only [Trip.preSave, Bool.and_eq_true, Bool.not_eq_true', decide_eq_false_iff_not,
    not_lt] at h
  omega

theorem saveTrip_cases (s : Store) (t : Trip) :
    s.saveTrip t = none ∨
    (t.validar = true ∧ t.cuposDisponibles ≤ t.cuposTotales ∧
      s.saveTrip t = some (s.putTrip t)) := by
  unfold Store.saveTrip
  split
  · rename_i hok
    simp only [Bool.and_eq_true] at hok
    exact Or.inr ⟨hok.1, Trip.le_of_preSave hok.2, rfl⟩
  · exact Or.inl rfl

theorem saveTrip_isSome {s : Store} {t : Trip} (hv : t.validar = true)
    (hle : t.cuposDisponibles ≤ t.cuposTotales) : s.saveTrip t = some (s.putTrip t) := by
  unfold Store.saveTrip
  rw [if_pos]
  simp only [Bool.and_eq_true, hv, Trip.preSave, Bool.false_and, Bool.not_false,
    Bool.true_and, Bool.not_eq_true', decide_eq_false_iff_not, not_lt, true_and]
  omega

/-! ## The store invariant under the primitive writes -/

theorem inv_inicial (vs : List Vehicle) : Inv (Store.inicial vs) := by
  constructor <;> simp [Store.inicial, cuposRetenidos]

theorem aporte_nonneg (tid : Nat) (b : Booking) (hv : b.validar = true) :
    0 ≤ aporte tid b := by
  unfold aporte
  split
  · simp only [Booking.validar, Bool.and_eq_true, decide_eq_true_eq] at hv
    omega
  · exact le_refl 0

theorem map_id_putTrip (s : Store) (t' : Trip) :
    (s.putTrip t').trips.map Trip.id = s.trips.map Trip.id := by
  simp only [Store.putTrip]
  apply map_replace_of_eq Trip.id Trip.id
  intro x _ hk; exact hk.symm

/-- Writing back a valid trip whose seat count accounts for the held seats keeps the
invariant; the clause on the other trips lets the caller start from a store where only
this trip's seat inequality is pending. -/
theorem Inv.putTrip_of {s : Store} {t' : Trip}
    (h1 : ∀ t ∈ s.trips, t.id < s.nextId)
    (h2 : (s.trips.map Trip.id).Nodup)
    (h3 : ∀ t ∈ s.trips, t.validar = true ∧ t.cuposDisponibles ≤ t.cuposTotales)
    (h4 : ∀ b ∈ s.bookings, b.id < s.nextId)
    (h5 : (s.bookings.map Booking.id).Nodup)
    (h6 : ∀ b ∈ s.bookings, b.validar = true)
    (h7 : ∀ b ∈ s.bookings, b.tripId ∈ s.trips.map Trip.id)
    (h8 : (s.bookings.map Booking.clave).Nodup)
    (h9 : ∀ b ∈ s.bookings, b.activo = false → b.estado.terminal)
    (h10 : ∀ t ∈ s.trips, t.id ≠ t'.id →
      t.cuposDisponibles + cuposRetenidos s.bookings t.id ≤ t.cuposTotales)
    (hid : t'.id < s.nextId)
    (hv : t'.validar = true) (hle : t'.cuposDisponibles ≤ t'.cuposTotales)
    (hc : t'.cuposDisponibles + cuposRetenidos s.bookings t'.id ≤ t'.cuposTotales) :
    Inv (s.putTrip t') := by
  have hmap := map_id_putTrip s t'
  have hmem : ∀ y ∈ (s.putTrip t').trips, y = t' ∨ (y ∈ s.trips ∧ y.id ≠ t'.id) :=
    fun y hy => mem_replace Trip.id s.trips t' y hy
  constructor
  · intro y hy
    rcases hmem y hy with rfl | ⟨hy, _⟩
    · exact hid
    · exact h1 y hy
  · rw [hmap]; exact h2
  · intro y hy
    rcases hmem y hy with rfl | ⟨hy, _⟩
    · exact ⟨hv, hle⟩
    · exact h3 y hy
  · exact h4
  · exact h5
  · exact h6
  · intro b hb; rw [hmap]; exact h7 b hb
  · exact h8
  · exact h9
  · intro y hy
    rcases hmem y hy with rfl | ⟨hy, hne⟩
    · exact hc
    · exact h10 y hy hne

theorem Inv.putTrip {s : Store} {t t' : Trip} (h : Inv s) (ht : t ∈ s.trips)
    (hid : t'.id = t.id) (hv : t'.validar = true)
    (hle : t'.cuposDisponibles ≤ t'.cuposTotales)
    (hc : t'.cuposDisponibles + cuposRetenidos s.bookings t.id ≤ t'.cuposTotales) :
    Inv (s.putTrip t') :=
  Inv.putTrip_of h.tripIdLt h.tripIdNodup h.tripValido h.bookingIdLt h.bookingIdNodup
    h.bookingValido h.bookingTrip h.claveNodup h.inactiva (fun t ht _ => h.cupos t ht)
    (by rw [hid]; exact h.tripIdLt t ht) hv hle (by rw [hid]; exact hc)

/-- Seats held after one booking document is rewritten. -/
theorem cuposRetenidos_putBooking {s : Store} (b b' : Booking) (h : Inv s)
    (hb : b ∈ s.bookings) (hid : b'.id = b.id) (tid : Nat) :
    cuposRetenidos (s.putBooking b').bookings tid
      = cuposRetenidos s.bookings tid - aporte tid b + aporte tid b' := by
  rw [cuposRetenidos_eq_sum, cuposRetenidos_eq_sum]
  exact sum_map_replace Booking.id (aporte tid) s.bookings b b' h.bookingIdNodup hb hid

/-- Rewriting a stored booking keeps the invariant when the document keeps its identity
and index key, stays valid, and does not hold more seats than before. -/
theorem Inv.putBooking {s : Store} {b b' : Booking} (h : Inv s) (hb : b ∈ s.bookings)
    (hid : b'.id = b.id) (htrip : b'.tripId = b.tripId)
    (hpas : b'.pasajeroId = b.pasajeroId) (hv : b'.validar = true)
    (hin : b'.activo = false → b'.estado.terminal)
    (hap : ∀ tid, aporte tid b' ≤ aporte tid b) :
    Inv (s.putBooking b') := by
  have hsame : ∀ x ∈ s.bookings, x.id = b'.id → x = b := fun x hx hk =>
    eq_of_key_eq Booking.id s.bookings h.bookingIdNodup b x hb hx (hk.trans hid)
  have hmem : ∀ y ∈ (s.putBooking b').bookings, y = b' ∨ (y ∈ s.bookings ∧ y.id ≠ b'.id) :=
    fun y hy => mem_replace Booking.id s.bookings b' y hy
  have hmapId : (s.putBooking b').bookings.map Booking.id = s.bookings.map Booking.id := by
    apply map_replace_of_eq Booking.id Booking.id
    intro x _ hk; exact hk.symm
  have hmapClave :
      (s.putBooking b').bookings.map Booking.clave = s.bookings.map Booking.clave := by
    apply map_replace_of_eq Booking.id Booking.clave
    intro x hx hk
    rw [hsame x hx hk]; simp [Booking.clave, htrip, hpas]
  constructor
  · exact h.tripIdLt
  · exact h.tripIdNodup
  · exact h.tripValido
  · intro y hy
    rcases hmem y hy with rfl | ⟨hy, _⟩
    · rw [hid]; exact h.bookingIdLt b hb
    · exact h.bookingIdLt y hy
  · rw [hmapId]; exact h.bookingIdNodup
  · intro y hy
    rcases hmem y hy with rfl | ⟨hy, _⟩
    · exact hv
    · exact h.bookingValido y hy
  · intro y hy
    rcases hmem y hy with rfl | ⟨hy, _⟩
    · rw [htrip]; exact h.bookingTrip b hb
    · exact h.bookingTrip y hy
  · rw [hmapClave]; exact h.claveNodup
  · intro y hy
    rcases hmem y hy with rfl | ⟨hy, _⟩
    · exact hin
    · exact h.inactiva y hy
  · intro t ht
    have h1 := h.cupos t ht
    have h2 := cuposRetenidos_putBooking b b' h hb hid t.id
    have h3 := hap t.id
    change t.cuposDisponibles + cuposRetenidos (s.putBooking b').bookings t.id ≤ t.cuposTotales
    omega

theorem Inv.cancelarReservasDe {s : Store} (h : Inv s) (tid : Nat) :
    Inv (s.cancelarReservasDe tid) := by
  have hmem : ∀ y ∈ (s.cancelarReservasDe tid).bookings,
      ∃ x ∈ s.bookings, y.id = x.id ∧ y.tripId = x.tripId ∧ y.validar = x.validar ∧
        (y = x ∨ y.estado = .cancelada) := by
    intro y hy
    rcases List.mem_map.1 hy with ⟨x, hx, rfl⟩
    refine ⟨x, hx, ?_⟩
    split
    · exact ⟨rfl, rfl, rfl, Or.inr rfl⟩
    · exact ⟨rfl, rfl, rfl, Or.inl rfl⟩
  have hmapId :
      (s.cancelarReservasDe tid).bookings.map Booking.id = s.bookings.map Booking.id := by
    simp only [Store.cancelarReservasDe, List.map_map]
    apply List.map_congr_left
    intro x _
    simp only [Function.comp]
    split <;> rfl
  have hmapClave :
      (s.cancelarReservasDe tid).bookings.map Booking.clave
        = s.bookings.map Booking.clave := by
    simp only [Store.cancelarReservasDe, List.map_map]
    apply List.map_congr_left
    intro x _
    simp only [Function.comp]
    split <;> rfl
  have hsum : ∀ t, cuposRetenidos (s.cancelarReservasDe tid).bookings t
      ≤ cuposRetenidos s.bookings t := by
    intro t
    rw [cuposRetenidos_eq_sum, cuposRetenidos_eq_sum]
    simp only [Store.cancelarReservasDe, List.map_map]
    apply List.sum_le_sum
    intro x hx
    simp only [Function.comp]
    split
    · have : aporte t { x with estado := BookingEstado.cancelada } = 0 := by
        simp [aporte, Booking.reservaActivaDe]
      rw [this]
      exact aporte_nonneg t x (h.bookingValido x hx)
    · exact le_refl _
  constructor
  · exact h.tripIdLt
  · exact h.tripIdNodup
  · exact h.tripValido
  · intro y hy
    rcases hmem y hy with ⟨x, hx, e, _⟩
    rw [e]; exact h.bookingIdLt x hx
  · rw [hmapId]; exact h.bookingIdNodup
  · intro y hy
    rcases hmem y hy with ⟨x, hx, _, _, e, _⟩
    rw [e]; exact h.bookingValido x hx
  · intro y hy
    rcases hmem y hy with ⟨x, hx, _, e, _⟩
    rw [e]; exact h.bookingTrip x hx
  · rw [hmapClave]; exact h.claveNodup
  · intro y hy hin
    rcases hmem y hy with ⟨x, hx, _, _, _, rfl | e⟩
    · exact h.inactiva y hx hin
    · exact Or.inl e
  · intro t ht
    have h1 := h.cupos t ht
    have h2 := hsum t.id
    change t.cuposDisponibles + cuposRetenidos (s.cancelarReservasDe tid).bookings t.id
      ≤ t.cuposTotales
    omega

/-! ## Each trip controller keeps the invariant -/

/-- Shape of the result of `crearViaje`: nothing is written, or one valid trip with a
fresh id and all its seats free is appended. -/
theorem crearViaje_cases (s : Store) (u : Nat) (body : CrearViajeBody) (hoy : Int) :
    ((crearViaje s u body hoy).1 = s ∧ (crearViaje s u body hoy).2 ≠ 201) ∨
    ∃ nv : Trip, nv.id = s.nextId ∧ nv.validar = true ∧ nv.preSave true hoy = true ∧
      nv.cuposDisponibles = nv.cuposTotales ∧ nv.conductorId = u ∧ nv.activo = true ∧
      (body.estado = none → nv.estado = .disponible) ∧
      crearViaje s u body hoy =
        ({ s with trips := s.trips ++ [nv], nextId := s.nextId + 1 }, 201) := by
  unfold crearViaje
  split
  · exact Or.inl ⟨rfl, by simp⟩
  · dsimp only
    split
    · exact Or.inl ⟨rfl, by simp⟩
    · split
      · exact Or.inl ⟨rfl, by simp⟩
      · split
        · exact Or.inl ⟨rfl, by simp⟩
        · rename_i estado hestado
          split
          · rename_i hok
            simp only [Bool.and_eq_true] at hok
            refine Or.inr ⟨_, rfl, hok.1, hok.2, rfl, rfl, rfl, ?_, rfl⟩
            intro hnone
            have h0 : TripEstado.ofString? "disponible" = some .disponible := by decide
            rw [hnone] at hestado
            simp [orStr, truthyStr, h0] at hestado
            exact hestado.symm
          · exact Or.inl ⟨rfl, by simp⟩

theorem inv_crearViaje {s : Store} (h : Inv s) (u : Nat) (body : CrearViajeBody)
    (hoy : Int) : Inv (crearViaje s u body hoy).1 := by
  rcases crearViaje_cases s u body hoy with ⟨he, _⟩ | ⟨nv, hid, hv, hp, hcu, _, _, _, he⟩
  · rw [he]; exact h
  · rw [he]
    have hfresh : ∀ b ∈ s.bookings, b.tripId ≠ nv.id := by
      intro b hb e
      rcases List.mem_map.1 (h.bookingTrip b hb) with ⟨t, ht, hte⟩
      have := h.tripIdLt t ht
      omega
    constructor
    · intro t ht
      simp only [List.mem_append, List.mem_singleton] at ht
      rcases ht with ht | rfl
      · have := h.tripIdLt t ht; simp only; omega
      · simp only; omega
    · simp only [List.map_append, List.map_cons, List.map_nil]
      rw [List.nodup_append]
      refine ⟨h.tripIdNodup, List.nodup_singleton _, ?_⟩
      intro a ha hb
      simp only [List.mem_singleton] at hb
      rcases List.mem_map.1 ha with ⟨t, ht, rfl⟩
      have := h.tripIdLt t ht
      omega
    · intro t ht
      simp only [List.mem_append, List.mem_singleton] at ht
      rcases ht with ht | rfl
      · exact h.tripValido t ht
      · exact ⟨hv, Trip.le_of_preSave hp⟩
    · intro b hb
      have := h.bookingIdLt b hb; simp only; omega
    · exact h.bookingIdNodup
    · exact h.bookingValido
    · intro b hb
      simp only [List.map_append, List.mem_append]
      exact Or.inl (h.bookingTrip b hb)
    · exact h.claveNodup
    · exact h.inactiva
    · intro t ht
      simp only [List.mem_append, List.mem_singleton] at ht
      rcases ht with ht | rfl
      · exact h.cupos t ht
      · simp only
        rw [cuposRetenidos_eq_zero s.bookings t.id hfresh, hcu]; omega

theorem aplicarCampos_frame (viaje : Trip) (body : ActualizarViajeBody) :
    (aplicarCampos viaje body).id = viaje.id ∧
    (aplicarCampos viaje body).cuposDisponibles = viaje.cuposDisponibles ∧
    (aplicarCampos viaje body).cuposTotales = viaje.cuposTotales ∧
    (aplicarCampos viaje body).estado = viaje.estado ∧
    (aplicarCampos viaje body).conductorId = viaje.conductorId ∧
    (aplicarCampos viaje body).vehiculoId = viaje.vehiculoId ∧
    (aplicarCampos viaje body).activo = viaje.activo := by
  unfold aplicarCampos
  dsimp only
  repeat' split
  all_goals exact ⟨rfl, rfl, rfl, rfl, rfl, rfl, rfl⟩

theorem aplicarEstado_frame {v v1 : Trip} {e : Option String}
    (h : aplicarEstado v e = some v1) : v1 = { v with estado := v1.estado } := by
  unfold aplicarEstado at h
  split at h
  · split at h
    · cases h; rfl
    · cases h
  · cases h; rfl

theorem guardarEdicion_cases (s : Store) (previo v : Trip) (e : Option String) (hoy : Int) :
    guardarEdicion s previo v e hoy = (s, 500) ∨
    ∃ v1, aplicarEstado v e = some v1 ∧ v1.validar = true ∧
      v1.preSave (decide (v1.fechaSalida ≠ previo.fechaSalida)) hoy = true ∧
      guardarEdicion s previo v e hoy = (s.putTrip v1, 200) := by
  unfold guardarEdicion
  split
  · exact Or.inl rfl
  · rename_i v1 hv1
    split
    · rename_i hok
      simp only [Bool.and_eq_true] at hok
      exact Or.inr ⟨v1, hv1, hok.1, hok.2, rfl⟩
    · exact Or.inl rfl

/-- Shape of the result of `actualizarViaje`: nothing is written, or the caller's trip is
replaced by a valid document with the same id and the same number of booked seats
(`cuposTotales - cuposDisponibles`). -/
theorem actualizarViaje_cases (s : Store) (id u : Nat) (body : ActualizarViajeBody)
    (hoy : Int) :
    ((actualizarViaje s id u body hoy).1 = s ∧ (actualizarViaje s id u body hoy).2 ≠ 200) ∨
    ∃ viaje v1 : Trip, s.findTripDe id u = some viaje ∧ v1.id = viaje.id ∧
      v1.validar = true ∧ v1.cuposDisponibles ≤ v1.cuposTotales ∧
      v1.cuposTotales - v1.cuposDisponibles = viaje.cuposTotales - viaje.cuposDisponibles ∧
      (body.estado = none → v1.estado = viaje.estado) ∧
      (body.cuposDisponibles = none → v1.cuposDisponibles = viaje.cuposDisponibles) ∧
      actualizarViaje s id u body hoy = (s.putTrip v1, 200) := by
  unfold actualizarViaje
  split
  · exact Or.inl ⟨rfl, by simp⟩
  · rename_i viaje hviaje
    have hf := aplicarCampos_frame viaje body
    split
    · exact Or.inl ⟨rfl, by simp⟩
    · dsimp only
      split
      · rcases guardarEdicion_cases s viaje (aplicarCampos viaje body) body.estado hoy with
          he | ⟨v1, hv1, hval, hpre, he⟩
        · rw [he]; exact Or.inl ⟨rfl, by simp⟩
        · rw [he]
          have hfr := aplicarEstado_frame hv1
          refine Or.inr ⟨viaje, v1, hviaje, ?_, hval, Trip.le_of_preSave hpre, ?_, ?_, ?_,
            rfl⟩
          · rw [hfr]; exact hf.1
          · rw [hfr]; simp only; rw [hf.2.1, hf.2.2.1]
          · intro hnone
            rw [hnone] at hv1
            simp only [aplicarEstado, truthyStr, Bool.false_eq_true, if_false,
              Option.some.injEq] at hv1
            rw [← hv1]; exact hf.2.2.2.1
          · intro _; rw [hfr]; exact hf.2.1
      · rename_i cd hcd
        split
        · exact Or.inl ⟨rfl, by simp⟩
        · split
          · exact Or.inl ⟨rfl, by simp⟩
          · rcases guardarEdicion_cases s viaje
                { aplicarCampos viaje body with
                  cuposDisponibles := cd
                  cuposTotales := cd + ((aplicarCampos viaje body).cuposTotales -
                    (aplicarCampos viaje body).cuposDisponibles) }
                body.estado hoy with he | ⟨v1, hv1, hval, hpre, he⟩
            · rw [he]; exact Or.inl ⟨rfl, by simp⟩
            · rw [he]
              have hfr := aplicarEstado_frame hv1
              refine Or.inr ⟨viaje, v1, hviaje, ?_, hval, Trip.le_of_preSave hpre, ?_, ?_, ?_,
                rfl⟩
              · rw [hfr]; exact hf.1
              · rw [hfr]; simp only; rw [hf.2.1, hf.2.2.1]; ring
              · intro hnone
                rw [hnone] at hv1
                simp only [aplicarEstado, truthyStr, Bool.false_eq_true, if_false,
                  Option.some.injEq] at hv1
                rw [← hv1]; exact hf.2.2.2.1
              · intro hnone; rw [hnone] at hcd; cases hcd

theorem inv_actualizarViaje {s : Store} (h : Inv s) (id u : Nat)
    (body : ActualizarViajeBody) (hoy : Int) : Inv (actualizarViaje s id u body hoy).1 := by
  rcases actualizarViaje_cases s id u body hoy with
    ⟨he, _⟩ | ⟨viaje, v1, hfind, hid, hv, hle, hres, _, _, he⟩
  · rw [he]; exact h
  · rw [he]
    have hm := mem_of_findTripDe hfind
    have hc := h.cupos viaje hm.1
    exact h.putTrip hm.1 hid hv hle (by omega)

theorem inv_eliminarViaje {s : Store} (h : Inv s) (id u : Nat) :
    Inv (eliminarViaje s id u).1 := by
  unfold eliminarViaje
  split
  · exact h
  · rename_i viaje hfind
    have hm := mem_of_findTripDe hfind
    dsimp only
    split
    · exact h
    · rcases saveTrip_cases s { viaje with activo := false, estado := .cancelado } with
        he | ⟨hv, hle, he⟩
      · rw [he]; exact h
      · rw [he]
        exact h.putTrip hm.1 rfl hv hle (h.cupos viaje hm.1)

theorem inv_cancelarViaje {s : Store} (h : Inv s) (id u : Nat) :
    Inv (cancelarViaje s id u).1 := by
  unfold cancelarViaje
  split
  · exact h
  · rename_i viaje hfind
    have hm := mem_of_findTripDe hfind
    split
    · exact h
    · rcases saveTrip_cases s { viaje with estado := .cancelado } with he | ⟨hv, hle, he⟩
      · rw [he]; exact h
      · rw [he]
        refine Inv.cancelarReservasDe ?_ id
        exact h.putTrip hm.1 rfl hv hle (h.cupos viaje hm.1)

/-! ## `joinTrip` and the booking controllers keep the invariant -/

/-- Below `2 ^ 53` the product of two integers is exact. -/
theorem multiplicar_exacto (a b : Int) (h : (a * b).natAbs < 2 ^ 53) :
    multiplicar a b = .entero (a * b) := by
  unfold multiplicar redondearDoble
  rw [if_pos h]
  dsimp only
  split
  · rename_i hneg
    congr 1
    omega
  · rename_i hpos
    congr 1
    omega

/-- The product of two integers that are not negative passes a `min: 0` validator. -/
theorem multiplicar_alMenos (a b : Int) (ha : 0 ≤ a) (hb : 0 ≤ b) :
    (multiplicar a b).alMenos 0 = true := by
  have hab : ¬ a * b < 0 := not_lt.2 (mul_nonneg ha hb)
  unfold multiplicar
  split
  · rw [if_neg hab]
    simp [Numero.alMenos]
  · rw [if_neg hab]
    rfl

theorem preSaveNuevo_some {s : Store} {b b1 : Booking} (h : b.preSaveNuevo s = some b1) :
    ∃ trip, s.findTripById b.tripId = some trip ∧
      b1 = { b with precioTotal := multiplicar trip.tarifaPorPasajero b.cuposReservados } := by
  unfold Booking.preSaveNuevo at h
  split at h
  · cases h
  · rename_i trip htrip
    cases h
    exact ⟨trip, htrip, rfl⟩

theorem insertBooking_cases (s : Store) (b : Booking) :
    s.insertBooking b = none ∨
    ∃ b1, b.validar = true ∧ b.preSaveNuevo s = some b1 ∧
      s.claveDuplicada b.tripId b.pasajeroId = false ∧
      s.insertBooking b =
        some { s with bookings := s.bookings ++ [b1], nextId := s.nextId + 1 } := by
  unfold Store.insertBooking
  split
  · exact Or.inl rfl
  · rename_i hv
    split
    · exact Or.inl rfl
    · rename_i b1 hb1
      rcases preSaveNuevo_some hb1 with ⟨trip, _, rfl⟩
      split
      · exact Or.inl rfl
      · rename_i hd
        refine Or.inr ⟨_, ?_, hb1, ?_, rfl⟩
        · simpa using hv
        · simpa using hd

theorem descontarCupos_frame (viaje : Trip) (n : Int) :
    (descontarCupos viaje n).id = viaje.id ∧
    (descontarCupos viaje n).cuposDisponibles = viaje.cuposDisponibles - n ∧
    (descontarCupos viaje n).cuposTotales = viaje.cuposTotales ∧
    (descontarCupos viaje n).validar =
      ({ viaje with cuposDisponibles := viaje.cuposDisponibles - n } : Trip).validar := by
  unfold descontarCupos
  dsimp only
  split <;> exact ⟨rfl, rfl, rfl, rfl⟩

theorem liberarCupos_frame (viaje : Trip) (r : Booking) :
    (liberarCupos viaje r).id = viaje.id ∧
    (liberarCupos viaje r).cuposDisponibles = viaje.cuposDisponibles + r.cuposReservados ∧
    (liberarCupos viaje r).cuposTotales = viaje.cuposTotales := by
  unfold liberarCupos
  dsimp only
  split <;> exact ⟨rfl, rfl, rfl⟩

/-- Shape of the result of `joinTrip` on any store: nothing is written, or every guard of
the controller passed, the booking was inserted, and the trip write decides the status. -/
theorem joinTrip_cases (s : Store) (id u : Nat) (n : Int) (pts : List String) :
    ((joinTrip s id u n pts).1 = s ∧ (joinTrip s id u n pts).2 ≠ 201) ∨
    ∃ viaje b1, s.findTripActivo id = some viaje ∧ 1 ≤ n ∧ pts ≠ [] ∧
      viaje.estado = .disponible ∧ viaje.conductorId ≠ u ∧ n ≤ viaje.cuposDisponibles ∧
      s.bookings.any (fun b => b.reservaActivaDe id && b.pasajeroId = u) = false ∧
      (nuevaReserva s viaje id u n pts).validar = true ∧
      (nuevaReserva s viaje id u n pts).preSaveNuevo s = some b1 ∧
      s.claveDuplicada id u = false ∧
      joinTrip s id u n pts =
        match (s.conReserva b1).saveTrip (descontarCupos viaje n) with
        | none => (s.conReserva b1, 500)
        | some s2 => (s2, 201) := by
  unfold joinTrip
  split
  · exact Or.inl ⟨rfl, by simp⟩
  · rename_i hn
    split
    · exact Or.inl ⟨rfl, by simp⟩
    · rename_i hp
      split
      · exact Or.inl ⟨rfl, by simp⟩
      · rename_i viaje hviaje
        split
        · exact Or.inl ⟨rfl, by simp⟩
        · rename_i he
          split
          · exact Or.inl ⟨rfl, by simp⟩
          · rename_i hc
            split
            · exact Or.inl ⟨rfl, by simp⟩
            · rename_i hcu
              split
              · exact Or.inl ⟨rfl, by simp⟩
              · rename_i hany
                rcases insertBooking_cases s (nuevaReserva s viaje id u n pts) with
                  hi | ⟨b1, hv, hb1, hd, hi⟩
                · rw [hi]; exact Or.inl ⟨rfl, by simp⟩
                · rw [hi]
                  refine Or.inr ⟨viaje, b1, hviaje, by omega, ?_, ?_, hc, by omega, ?_,
                    hv, hb1, hd, rfl⟩
                  · intro e; apply hp; rw [e]; rfl
                  · exact not_not.1 he
                  · simpa using hany

theorem validar_descontar {viaje : Trip} {n : Int} (hv : viaje.validar = true)
    (hn : n ≤ viaje.cuposDisponibles) : (descontarCupos viaje n).validar = true := by
  rw [(descontarCupos_frame viaje n).2.2.2]
  simp only [Trip.validar, Bool.and_eq_true, decide_eq_true_eq] at hv ⊢
  refine ⟨⟨⟨⟨⟨hv.1.1.1.1.1, hv.1.1.1.1.2⟩, hv.1.1.1.2⟩, ?_⟩, hv.1.2⟩, hv.2⟩
  omega

/-- On a well-formed store the trip write of `joinTrip` cannot fail, so a request is
either rejected with nothing written or fully applied. -/
theorem joinTrip_cases_inv {s : Store} (h : Inv s) (id u : Nat) (n : Int)
    (pts : List String) :
    ((joinTrip s id u n pts).1 = s ∧ (joinTrip s id u n pts).2 ≠ 201) ∨
    ∃ viaje b1, s.findTripActivo id = some viaje ∧ 1 ≤ n ∧ pts ≠ [] ∧
      viaje.estado = .disponible ∧ viaje.conductorId ≠ u ∧ n ≤ viaje.cuposDisponibles ∧
      s.bookings.any (fun b => b.reservaActivaDe id && b.pasajeroId = u) = false ∧
      (nuevaReserva s viaje id u n pts).validar = true ∧
      (nuevaReserva s viaje id u n pts).preSaveNuevo s = some b1 ∧
      s.claveDuplicada id u = false ∧
      joinTrip s id u n pts = ((s.conReserva b1).putTrip (descontarCupos viaje n), 201) := by
  rcases joinTrip_cases s id u n pts with h0 | ⟨viaje, b1, hf, hn, hp, he, hc, hcu, hany, hv,
    hb1, hd, hres⟩
  · exact Or.inl h0
  · refine Or.inr ⟨viaje, b1, hf, hn, hp, he, hc, hcu, hany, hv, hb1, hd, ?_⟩
    have hm := mem_of_findTripActivo hf
    have hval := h.tripValido viaje hm.1
    have hfr := descontarCupos_frame viaje n
    have hsave : (s.conReserva b1).saveTrip (descontarCupos viaje n)
        = some ((s.conReserva b1).putTrip (descontarCupos viaje n)) := by
      apply saveTrip_isSome (validar_descontar hval.1 hcu)
      rw [hfr.2.1, hfr.2.2.1]; omega
    rw [hres, hsave]

theorem findTripById_eq_of_mem {s : Store} (h : Inv s) {t : Trip} (ht : t ∈ s.trips) :
    s.findTripById t.id = some t := by
  unfold Store.findTripById
  cases hfind : s.trips.find? (fun x => decide (x.id = t.id)) with
  | none =>
    have := List.find?_eq_none.1 hfind t ht
    simp at this
  | some x =>
    have h1 := List.mem_of_find?_eq_some hfind
    have h2 := List.find?_some hfind
    simp only [decide_eq_true_eq] at h2
    rw [eq_of_key_eq Trip.id s.trips h.tripIdNodup t x ht h1 h2]

theorem inv_joinTrip {s : Store} (h : Inv s) (id u : Nat) (n : Int) (pts : List String) :
    Inv (joinTrip s id u n pts).1 := by
  rcases joinTrip_cases_inv h id u n pts with ⟨h0, _⟩ | ⟨viaje, b1, hf, hn, _, _, _, hcu, _,
    hv, hb1, hd, hres⟩
  · rw [h0]; exact h
  · rw [hres]
    have hm := mem_of_findTripActivo hf
    have hval := h.tripValido viaje hm.1
    have hfr := descontarCupos_frame viaje n
    rcases preSaveNuevo_some hb1 with ⟨trip, htrip, hb1e⟩
    have htripm := mem_of_findTripById htrip
    have htv := (h.tripValido trip htripm.1).1
    have hb1id : b1.id = s.nextId := by rw [hb1e]; rfl
    have hb1trip : b1.tripId = id := by rw [hb1e]; rfl
    have hb1pas : b1.pasajeroId = u := by rw [hb1e]; rfl
    have hb1cup : b1.cuposReservados = n := by rw [hb1e]; rfl
    have hb1act : b1.reservaActivaDe id = true := by
      rw [hb1e]; simp [Booking.reservaActivaDe, nuevaReserva]
    have hap : aporte id b1 = n := by simp [aporte, hb1act, hb1cup]
    apply Inv.putTrip_of
    · intro t ht
      have := h.tripIdLt t ht
      change t.id < s.nextId + 1
      omega
    · exact h.tripIdNodup
    · exact h.tripValido
    · intro b hb
      change b ∈ s.bookings ++ [b1] at hb
      change b.id < s.nextId + 1
      simp only [List.mem_append, List.mem_singleton] at hb
      rcases hb with hb | rfl
      · have := h.bookingIdLt b hb; omega
      · omega
    · change ((s.bookings ++ [b1]).map Booking.id).Nodup
      simp only [List.map_append, List.map_cons, List.map_nil]
      rw [List.nodup_append]
      refine ⟨h.bookingIdNodup, List.nodup_singleton _, ?_⟩
      intro a ha hb
      simp only [List.mem_singleton] at hb
      rcases List.mem_map.1 ha with ⟨b, hbm, rfl⟩
      have := h.bookingIdLt b hbm
      omega
    · intro b hb
      change b ∈ s.bookings ++ [b1] at hb
      simp only [List.mem_append, List.mem_singleton] at hb
      rcases hb with hb | rfl
      · exact h.bookingValido b hb
      · rw [hb1e]
        simp only [Booking.validar, Bool.and_eq_true, decide_eq_true_eq] at hv ⊢
        simp only [Trip.validar, Bool.and_eq_true, decide_eq_true_eq] at htv
        refine ⟨⟨hv.1.1, hv.1.2⟩, ?_⟩
        exact multiplicar_alMenos _ _ htv.2 (by omega)
    · intro b hb
      change b ∈ s.bookings ++ [b1] at hb
      change b.tripId ∈ s.trips.map Trip.id
      simp only [List.mem_append, List.mem_singleton] at hb
      rcases hb with hb | rfl
      · exact h.bookingTrip b hb
      · rw [hb1trip, ← hm.2.1]; exact List.mem_map_of_mem Trip.id hm.1
    · change ((s.bookings ++ [b1]).map Booking.clave).Nodup
      simp only [List.map_append, List.map_cons, List.map_nil]
      rw [List.nodup_append]
      refine ⟨h.claveNodup, List.nodup_singleton _, ?_⟩
      intro a ha hb
      simp only [List.mem_singleton] at hb
      rcases List.mem_map.1 ha with ⟨b, hbm, rfl⟩
      simp only [Store.claveDuplicada, List.any_eq_false, Bool.and_eq_true,
        decide_eq_true_eq, not_and] at hd
      simp only [Booking.clave, Prod.mk.injEq, hb1trip, hb1pas] at hb
      exact hd b hbm hb.1 hb.2
    · intro b hb
      change b ∈ s.bookings ++ [b1] at hb
      simp only [List.mem_append, List.mem_singleton] at hb
      rcases hb with hb | rfl
      · exact h.inactiva b hb
      · intro hin; rw [hb1e] at hin; simp [nuevaReserva] at hin
    · intro t ht hne
      change t.cuposDisponibles + cuposRetenidos (s.bookings ++ [b1]) t.id ≤ t.cuposTotales
      rw [cuposRetenidos_append]
      have hz : aporte t.id b1 = 0 := by
        have hne2 : b1.tripId ≠ t.id := by
          rw [hb1trip, ← hm.2.1, ← hfr.1]; exact fun e => hne e.symm
        simp [aporte, Booking.reservaActivaDe, hne2]
      have := h.cupos t ht
      omega
    · rw [hfr.1]
      have := h.tripIdLt viaje hm.1
      change viaje.id < s.nextId + 1
      omega
    · exact validar_descontar hval.1 hcu
    · rw [hfr.2.1, hfr.2.2.1]; omega
    · change (descontarCupos viaje n).cuposDisponibles +
        cuposRetenidos (s.bookings ++ [b1]) (descontarCupos viaje n).id
          ≤ (descontarCupos viaje n).cuposTotales
      rw [hfr.1, hfr.2.1, hfr.2.2.1, cuposRetenidos_append, hm.2.1, hap]
      have := h.cupos viaje hm.1
      rw [hm.2.1] at this
      omega

theorem saveBooking_cases (s : Store) (b : Booking) :
    s.saveBooking b = none ∨ (b.validar = true ∧ s.saveBooking b = some (s.putBooking b)) := by
  unfold Store.saveBooking
  split
  · rename_i hv; exact Or.inr ⟨hv, rfl⟩
  · exact Or.inl rfl

theorem aporte_eq_zero_of_estado {b : Booking} (tid : Nat)
    (h : b.estado = .cancelada ∨ b.estado = .completada) : aporte tid b = 0 := by
  rcases h with h | h <;> simp [aporte, Booking.reservaActivaDe, h]

theorem inv_cancelarReserva {s : Store} (h : Inv s) (id u : Nat) :
    Inv (cancelarReserva s id u).1 := by
  unfold cancelarReserva
  split
  · exact h
  · rename_i reserva hfind
    have hm := mem_of_findBookingDe hfind
    split
    · exact h
    · rename_i hnc
      split
      · exact h
      · rename_i hnk
        split
        · exact h
        · rename_i viaje hviaje
          have hvm := mem_of_findTripById hviaje
          rcases saveBooking_cases s { reserva with estado := .cancelada } with he | ⟨hv, he⟩
          · rw [he]; exact h
          · rw [he]
            have hz : ∀ tid, aporte tid { reserva with estado := BookingEstado.cancelada } = 0 :=
              fun tid => aporte_eq_zero_of_estado tid (Or.inl rfl)
            have h1 : Inv (s.putBooking { reserva with estado := .cancelada }) := by
              refine h.putBooking hm.1 ?_ ?_ ?_ hv ?_ ?_
              · rfl
              · rfl
              · rfl
              · intro _; exact Or.inl rfl
              · intro tid; rw [hz tid]
                exact aporte_nonneg tid reserva (h.bookingValido reserva hm.1)
            dsimp only
            rcases saveTrip_cases (s.putBooking { reserva with estado := .cancelada })
              (liberarCupos viaje reserva) with hs | ⟨hv2, hle2, hs⟩
            · rw [hs]; exact h1
            · rw [hs]
              have hfr := liberarCupos_frame viaje reserva
              apply h1.putTrip hvm.1 hfr.1 hv2 hle2
              have hsum := cuposRetenidos_putBooking reserva { reserva with estado := .cancelada }
                h hm.1 rfl viaje.id
              rw [hz] at hsum
              have hact : aporte viaje.id reserva = reserva.cuposReservados := by
                have : reserva.estado = .pendiente ∨ reserva.estado = .confirmada := by
                  cases hes : reserva.estado <;> simp_all
                rcases this with e | e <;>
                  simp [aporte, Booking.reservaActivaDe, hvm.2, hm.2.2.2, e]
              have hc := h.cupos viaje hvm.1
              rw [hfr.2.1, hfr.2.2, hsum, hact]
              omega

/-- A booking controller that only rewrites the `estado` or `activo` of the loaded booking
without letting it hold more seats keeps the invariant. -/
theorem inv_confirmarReserva {s : Store} (h : Inv s) (id u : Nat) :
    Inv (confirmarReserva s id u).1 := by
  unfold confirmarReserva
  split
  · exact h
  · rename_i reserva hfind
    have hm := mem_of_findBookingActivo hfind
    split
    · exact h
    · split
      · exact h
      · split
        · exact h
        · rename_i hpend
          rcases saveBooking_cases s { reserva with estado := .confirmada } with he | ⟨hv, he⟩
          · rw [he]; exact h
          · rw [he]
            refine h.putBooking hm.1 ?_ ?_ ?_ hv ?_ ?_
            · rfl
            · rfl
            · rfl
            · intro hin; simp [hm.2.2] at hin
            · intro tid
              have hp : reserva.estado = .pendiente := not_not.1 hpend
              simp [aporte, Booking.reservaActivaDe, hp]

theorem inv_completarReserva {s : Store} (h : Inv s) (id u : Nat) :
    Inv (completarReserva s id u).1 := by
  unfold completarReserva
  split
  · exact h
  · rename_i reserva hfind
    have hm := mem_of_findBookingActivo hfind
    split
    · exact h
    · split
      · exact h
      · split
        · exact h
        · rcases saveBooking_cases s { reserva with estado := .completada } with he | ⟨hv, he⟩
          · rw [he]; exact h
          · rw [he]
            refine h.putBooking hm.1 ?_ ?_ ?_ hv ?_ ?_
            · rfl
            · rfl
            · rfl
            · intro _; exact Or.inr rfl
            · intro tid
              rw [aporte_eq_zero_of_estado (b := { reserva with estado := .completada }) tid
                (Or.inr rfl)]
              exact aporte_nonneg tid reserva (h.bookingValido reserva hm.1)

theorem inv_eliminarReserva {s : Store} (h : Inv s) (id u : Nat) :
    Inv (eliminarReserva s id u).1 := by
  unfold eliminarReserva
  split
  · exact h
  · rename_i reserva hfind
    have hm := mem_of_findBookingDe hfind
    split
    · exact h
    · rename_i hterm
      have ht : reserva.estado = .cancelada ∨ reserva.estado = .completada := by
        by_cases e : reserva.estado = .cancelada
        · exact Or.inl e
        · right
          by_contra e2
          exact hterm ⟨e, e2⟩
      rcases saveBooking_cases s { reserva with activo := false } with he | ⟨hv, he⟩
      · rw [he]; exact h
      · rw [he]
        refine h.putBooking hm.1 ?_ ?_ ?_ hv ?_ ?_
        · rfl
        · rfl
        · rfl
        · intro _; exact ht
        · intro tid
          rw [aporte_eq_zero_of_estado (b := { reserva with activo := false }) tid ht]
          exact aporte_nonneg tid reserva (h.bookingValido reserva hm.1)

theorem inv_step {s : Store} (h : Inv s) (op : Op) : Inv (step s op).1 := by
  cases op with
  | crearViaje user body hoy => exact inv_crearViaje h user body hoy
  | actualizarViaje id user body hoy => exact inv_actualizarViaje h id user body hoy
  | eliminarViaje id user => exact inv_eliminarViaje h id user
  | cancelarViaje id user => exact inv_cancelarViaje h id user
  | joinTrip id user n pts => exact inv_joinTrip h id user n pts
  | cancelarReserva id user => exact inv_cancelarReserva h id user
  | confirmarReserva id user => exact inv_confirmarReserva h id user
  | completarReserva id user => exact inv_completarReserva h id user
  | eliminarReserva id user => exact inv_eliminarReserva h id user

theorem inv_run {s : Store} (h : Inv s) (ops : List Op) : Inv (run s ops) := by
  induction ops generalizing s with
  | nil => exact h
  | cons op ops ih => exact ih (inv_step h op)

theorem inv_reachable (vs : List Vehicle) (ops : List Op) :
    Inv (run (Store.inicial vs) ops) :=
  inv_run (inv_inicial vs) ops

theorem run_append (s : Store) (ops1 ops2 : List Op) :
    run s (ops1 ++ ops2) = run (run s ops1) ops2 := by
  induction ops1 generalizing s with
  | nil => rfl
  | cons op ops ih => exact ih (step s op).1

/-! ## The seat equation under requests that do not retire seats -/

theorem exactos_putTrip {s : Store} {t' : Trip}
    (h : ∀ t ∈ s.trips, t.id ≠ t'.id →
      t.cuposDisponibles + cuposRetenidos s.bookings t.id = t.cuposTotales)
    (hc : t'.cuposDisponibles + cuposRetenidos s.bookings t'.id = t'.cuposTotales) :
    CuposExactos (s.putTrip t') := by
  intro y hy
  rcases mem_replace Trip.id s.trips t' y hy with rfl | ⟨hy, hne⟩
  · exact hc
  · exact h y hy hne

theorem exactos_putBooking {s : Store} {b b' : Booking} (h : Inv s) (he : CuposExactos s)
    (hb : b ∈ s.bookings) (hid : b'.id = b.id) (hap : ∀ tid, aporte tid b' = aporte tid b) :
    CuposExactos (s.putBooking b') := by
  intro t ht
  have h1 := he t ht
  have h2 := cuposRetenidos_putBooking b b' h hb hid t.id
  have h3 := hap t.id
  change t.cuposDisponibles + cuposRetenidos (s.putBooking b').bookings t.id = t.cuposTotales
  omega

theorem aporte_le_cuposRetenidos {s : Store} (h : Inv s) {b : Booking} (hb : b ∈ s.bookings)
    (tid : Nat) : aporte tid b ≤ cuposRetenidos s.bookings tid := by
  rw [cuposRetenidos_eq_sum]
  apply List.single_le_sum
  · intro x hx
    rcases List.mem_map.1 hx with ⟨y, hy, rfl⟩
    exact aporte_nonneg tid y (h.bookingValido y hy)
  · exact List.mem_map_of_mem _ hb

/-- On a well-formed store neither write of `cancelarReserva` can fail: the request is
rejected with nothing written, or the booking is cancelled and its seats are released. -/
theorem cancelarReserva_cases_inv {s : Store} (h : Inv s) (id u : Nat) :
    ((cancelarReserva s id u).1 = s ∧ (cancelarReserva s id u).2 ≠ 200) ∨
    ∃ reserva viaje, s.findBookingDe id u = some reserva ∧
      (reserva.estado = .pendiente ∨ reserva.estado = .confirmada) ∧
      s.findTripById reserva.tripId = some viaje ∧
      cancelarReserva s id u =
        ((s.putBooking { reserva with estado := .cancelada }).putTrip
          (liberarCupos viaje reserva), 200) := by
  unfold cancelarReserva
  split
  · exact Or.inl ⟨rfl, by simp⟩
  · rename_i reserva hfind
    have hm := mem_of_findBookingDe hfind
    split
    · exact Or.inl ⟨rfl, by simp⟩
    · rename_i hnc
      split
      · exact Or.inl ⟨rfl, by simp⟩
      · rename_i hnk
        split
        · exact Or.inl ⟨rfl, by simp⟩
        · rename_i viaje hviaje
          have hvm := mem_of_findTripById hviaje
          have hest : reserva.estado = .pendiente ∨ reserva.estado = .confirmada := by
            cases hes : reserva.estado <;> simp_all
          have hbv := h.bookingValido reserva hm.1
          have hsb : s.saveBooking { reserva with estado := .cancelada }
              = some (s.putBooking { reserva with estado := .cancelada }) := by
            unfold Store.saveBooking
            rw [if_pos]
            exact hbv
          have hact : aporte viaje.id reserva = reserva.cuposReservados := by
            rcases hest with e | e <;>
              simp [aporte, Booking.reservaActivaDe, hvm.2, hm.2.2.2, e]
          have hle := aporte_le_cuposRetenidos h hm.1 viaje.id
          have hc := h.cupos viaje hvm.1
          have htv := h.tripValido viaje hvm.1
          have hfr := liberarCupos_frame viaje reserva
          have hcr : 1 ≤ reserva.cuposReservados := by
            simp only [Booking.validar, Bool.and_eq_true, decide_eq_true_eq] at hbv
            exact hbv.1.1
          have hst : (s.putBooking { reserva with estado := .cancelada }).saveTrip
              (liberarCupos viaje reserva)
              = some ((s.putBooking { reserva with estado := .cancelada }).putTrip
                  (liberarCupos viaje reserva)) := by
            apply saveTrip_isSome
            · have hv := htv.1
              unfold liberarCupos
              dsimp only
              simp only [Trip.validar, Bool.and_eq_true, decide_eq_true_eq] at hv
              split <;>
                · simp only [Trip.validar, Bool.and_eq_true, decide_eq_true_eq]
                  refine ⟨⟨⟨⟨⟨hv.1.1.1.1.1, hv.1.1.1.1.2⟩, hv.1.1.1.2⟩, ?_⟩, hv.1.2⟩, hv.2⟩
                  omega
            · rw [hfr.2.1, hfr.2.2]; omega
          rw [hsb]
          dsimp only
          rw [hst]
          exact Or.inr ⟨reserva, viaje, hfind, hest, hviaje, rfl⟩

theorem exactos_step {s : Store} (h : Inv s) (he : CuposExactos s) (op : Op)
    (hop : op.retiraCupos = false) : CuposExactos (step s op).1 := by
  cases op with
  | crearViaje u body hoy =>
    change CuposExactos (crearViaje s u body hoy).1
    rcases crearViaje_cases s u body hoy with ⟨h0, _⟩ | ⟨nv, hid, _, _, hcu, _, _, _, hres⟩
    · rw [h0]; exact he
    · rw [hres]
      have hfresh : ∀ b ∈ s.bookings, b.tripId ≠ nv.id := by
        intro b hb e
        rcases List.mem_map.1 (h.bookingTrip b hb) with ⟨t, ht, hte⟩
        have := h.tripIdLt t ht
        omega
      intro t ht
      change t ∈ s.trips ++ [nv] at ht
      simp only [List.mem_append, List.mem_singleton] at ht
      rcases ht with ht | rfl
      · exact he t ht
      · change t.cuposDisponibles + cuposRetenidos s.bookings t.id = t.cuposTotales
        rw [cuposRetenidos_eq_zero s.bookings t.id hfresh, hcu]; omega
  | actualizarViaje id u body hoy =>
    change CuposExactos (actualizarViaje s id u body hoy).1
    rcases actualizarViaje_cases s id u body hoy with
      ⟨h0, _⟩ | ⟨viaje, v1, hfind, hid, _, _, hres, _, _, hr⟩
    · rw [h0]; exact he
    · rw [hr]
      have hm := mem_of_findTripDe hfind
      have hc := he viaje hm.1
      apply exactos_putTrip (fun t ht _ => he t ht)
      rw [hid]; omega
  | eliminarViaje id u =>
    change CuposExactos (eliminarViaje s id u).1
    unfold eliminarViaje
    split
    · exact he
    · rename_i viaje hfind
      have hm := mem_of_findTripDe hfind
      dsimp only
      split
      · exact he
      · rcases saveTrip_cases s { viaje with activo := false, estado := .cancelado } with
          hs | ⟨_, _, hs⟩
        · rw [hs]; exact he
        · rw [hs]
          exact exactos_putTrip (fun t ht _ => he t ht) (he viaje hm.1)
  | cancelarViaje id u => simp [Op.retiraCupos] at hop
  | joinTrip id u n pts =>
    change CuposExactos (joinTrip s id u n pts).1
    rcases joinTrip_cases_inv h id u n pts with ⟨h0, _⟩ | ⟨viaje, b1, hf, hn, _, _, _, hcu, _,
      hv, hb1, hd, hres⟩
    · rw [h0]; exact he
    · rw [hres]
      have hm := mem_of_findTripActivo hf
      have hfr := descontarCupos_frame viaje n
      rcases preSaveNuevo_some hb1 with ⟨trip, _, hb1e⟩
      have hb1trip : b1.tripId = id := by rw [hb1e]; rfl
      have hb1act : b1.reservaActivaDe id = true := by
        rw [hb1e]; simp [Booking.reservaActivaDe, nuevaReserva]
      have hap : aporte id b1 = n := by
        have : b1.cuposReservados = n := by rw [hb1e]; rfl
        simp [aporte, hb1act, this]
      apply exactos_putTrip
      · intro t ht hne
        change t.cuposDisponibles + cuposRetenidos (s.bookings ++ [b1]) t.id = t.cuposTotales
        rw [cuposRetenidos_append]
        have hz : aporte t.id b1 = 0 := by
          have hne2 : b1.tripId ≠ t.id := by
            rw [hb1trip, ← hm.2.1, ← hfr.1]; exact fun e => hne e.symm
          simp [aporte, Booking.reservaActivaDe, hne2]
        have := he t ht
        omega
      · change (descontarCupos viaje n).cuposDisponibles +
          cuposRetenidos (s.bookings ++ [b1]) (descontarCupos viaje n).id
            = (descontarCupos viaje n).cuposTotales
        rw [hfr.1, hfr.2.1, hfr.2.2.1, cuposRetenidos_append, hm.2.1, hap]
        have := he viaje hm.1
        rw [hm.2.1] at this
        omega
  | cancelarReserva id u =>
    change CuposExactos (cancelarReserva s id u).1
    rcases cancelarReserva_cases_inv h id u with ⟨h0, _⟩ | ⟨reserva, viaje, hfind, hest, hviaje,
      hres⟩
    · rw [h0]; exact he
    · rw [hres]
      have hm := mem_of_findBookingDe hfind
      have hvm := mem_of_findTripById hviaje
      have hfr := liberarCupos_frame viaje reserva
      have hz : ∀ tid, aporte tid { reserva with estado := BookingEstado.cancelada } = 0 :=
        fun tid => aporte_eq_zero_of_estado tid (Or.inl rfl)
      have hsum : ∀ tid,
          cuposRetenidos (s.putBooking { reserva with estado := .cancelada }).bookings tid
            = cuposRetenidos s.bookings tid - aporte tid reserva := by
        intro tid
        have := cuposRetenidos_putBooking reserva { reserva with estado := .cancelada }
          h hm.1 rfl tid
        rw [hz] at this
        omega
      apply exactos_putTrip
      · intro t ht hne
        change t.cuposDisponibles +
          cuposRetenidos (s.putBooking { reserva with estado := .cancelada }).bookings t.id
            = t.cuposTotales
        rw [hsum]
        have hz2 : aporte t.id reserva = 0 := by
          have hne2 : reserva.tripId ≠ t.id := by
            rw [← hvm.2, ← hfr.1]; exact fun e => hne e.symm
          simp [aporte, Booking.reservaActivaDe, hne2]
        have := he t ht
        omega
      · rw [hfr.1, hfr.2.1, hfr.2.2, hsum]
        have hact : aporte viaje.id reserva = reserva.cuposReservados := by
          rcases hest with e | e <;>
            simp [aporte, Booking.reservaActivaDe, hvm.2, hm.2.2.2, e]
        have := he viaje hvm.1
        omega
  | confirmarReserva id u =>
    change CuposExactos (confirmarReserva s id u).1
    unfold confirmarReserva
    split
    · exact he
    · rename_i reserva hfind
      have hm := mem_of_findBookingActivo hfind
      split
      · exact he
      · split
        · exact he
        · split
          · exact he
          · rename_i hpend
            rcases saveBooking_cases s { reserva with estado := .confirmada } with hs | ⟨_, hs⟩
            · rw [hs]; exact he
            · rw [hs]
              refine exactos_putBooking h he hm.1 ?_ ?_
              · rfl
              · intro tid
                have hp : reserva.estado = .pendiente := not_not.1 hpend
                simp [aporte, Booking.reservaActivaDe, hp]
  | completarReserva id u => simp [Op.retiraCupos] at hop
  | eliminarReserva id u =>
    change CuposExactos (eliminarReserva s id u).1
    unfold eliminarReserva
    split
    · exact he
    · rename_i reserva hfind
      have hm := mem_of_findBookingDe hfind
      split
      · exact he
      · rename_i hterm
        have ht : reserva.estado = .cancelada ∨ reserva.estado = .completada := by
          by_cases e : reserva.estado = .cancelada
          · exact Or.inl e
          · right
            by_contra e2
            exact hterm ⟨e, e2⟩
        rcases saveBooking_cases s { reserva with activo := false } with hs | ⟨_, hs⟩
        · rw [hs]; exact he
        · rw [hs]
          refine exactos_putBooking h he hm.1 ?_ ?_
          · rfl
          · intro tid
            rw [aporte_eq_zero_of_estado (b := { reserva with activo := false }) tid ht,
              aporte_eq_zero_of_estado tid ht]

theorem exactos_run {s : Store} (h : Inv s) (he : CuposExactos s) (ops : List Op)
    (hops : ∀ op ∈ ops, op.retiraCupos = false) : CuposExactos (run s ops) := by
  induction ops generalizing s with
  | nil => exact he
  | cons op ops ih =>
    have hop := hops op (List.mem_cons_self op ops)
    exact ih (inv_step h op) (exactos_step h he op hop)
      (fun o ho => hops o (List.mem_cons_of_mem op ho))

/-! ## The link between `lleno` and the free seats -/

theorem coherente_of_trips_eq {s s' : Store} (he : s'.trips = s.trips)
    (h : LlenoCoherente s) : LlenoCoherente s' := by
  intro t ht
  rw [he] at ht
  exact h t ht

theorem coherente_putTrip {s : Store} {t' : Trip} (h : LlenoCoherente s)
    (h1 : t'.estado = .lleno → t'.cuposDisponibles = 0)
    (h2 : t'.cuposDisponibles = 0 → t'.estado = .lleno ∨ t'.estado = .cancelado) :
    LlenoCoherente (s.putTrip t') := by
  intro y hy
  rcases mem_replace Trip.id s.trips t' y hy with rfl | ⟨hy, _⟩
  · exact ⟨h1, h2⟩
  · exact h y hy

theorem descontarCupos_estado (viaje : Trip) (n : Int) :
    (descontarCupos viaje n).estado =
      if viaje.cuposDisponibles - n = 0 then .lleno else viaje.estado := by
  unfold descontarCupos
  dsimp only
  split <;> rfl

theorem liberarCupos_estado (viaje : Trip) (r : Booking) :
    (liberarCupos viaje r).estado =
      if viaje.estado = .lleno then .disponible else viaje.estado := by
  unfold liberarCupos
  dsimp only
  split <;> rfl

theorem trips_saveBooking {s s1 : Store} {b : Booking} (h : s.saveBooking b = some s1) :
    s1.trips = s.trips ∧ s1.vehicles = s.vehicles ∧ s1.nextId = s.nextId := by
  rcases saveBooking_cases s b with he | ⟨_, he⟩
  · rw [he] at h; cases h
  · rw [he] at h; cases h; exact ⟨rfl, rfl, rfl⟩

theorem trips_confirmarReserva (s : Store) (id u : Nat) :
    (confirmarReserva s id u).1.trips = s.trips := by
  unfold confirmarReserva
  repeat' split
  all_goals first | rfl | (rename_i hs; exact (trips_saveBooking hs).1)

theorem trips_completarReserva (s : Store) (id u : Nat) :
    (completarReserva s id u).1.trips = s.trips := by
  unfold completarReserva
  repeat' split
  all_goals first | rfl | (rename_i hs; exact (trips_saveBooking hs).1)

theorem trips_eliminarReserva (s : Store) (id u : Nat) :
    (eliminarReserva s id u).1.trips = s.trips := by
  unfold eliminarReserva
  repeat' split
  all_goals first | rfl | (rename_i hs; exact (trips_saveBooking hs).1)

theorem coherente_step {s : Store} (h : Inv s) (hl : LlenoCoherente s) (op : Op)
    (hop : op.sinEstadoNiCupos = true) : LlenoCoherente (step s op).1 := by
  cases op with
  | crearViaje u body hoy =>
    change LlenoCoherente (crearViaje s u body hoy).1
    simp only [Op.sinEstadoNiCupos, decide_eq_true_eq] at hop
    rcases crearViaje_cases s u body hoy with ⟨h0, _⟩ | ⟨nv, _, hv, _, hcu, _, _, hes, hres⟩
    · rw [h0]; exact hl
    · rw [hres]
      intro t ht
      change t ∈ s.trips ++ [nv] at ht
      simp only [List.mem_append, List.mem_singleton] at ht
      rcases ht with ht | rfl
      · exact hl t ht
      · simp only [Trip.validar, Bool.and_eq_true, decide_eq_true_eq] at hv
        constructor
        · intro e; rw [hes hop] at e; cases e
        · intro e; omega
  | actualizarViaje id u body hoy =>
    change LlenoCoherente (actualizarViaje s id u body hoy).1
    simp only [Op.sinEstadoNiCupos, Bool.and_eq_true, decide_eq_true_eq] at hop
    rcases actualizarViaje_cases s id u body hoy with
      ⟨h0, _⟩ | ⟨viaje, v1, hfind, _, _, _, _, hes, hcd, hr⟩
    · rw [h0]; exact hl
    · rw [hr]
      have hm := mem_of_findTripDe hfind
      have hv := hl viaje hm.1
      apply coherente_putTrip hl
      · rw [hes hop.1, hcd hop.2]; exact hv.1
      · rw [hes hop.1, hcd hop.2]; exact hv.2
  | eliminarViaje id u =>
    change LlenoCoherente (eliminarViaje s id u).1
    unfold eliminarViaje
    split
    · exact hl
    · rename_i viaje hfind
      dsimp only
      split
      · exact hl
      · rcases saveTrip_cases s { viaje with activo := false, estado := .cancelado } with
          hs | ⟨_, _, hs⟩
        · rw [hs]; exact hl
        · rw [hs]
          apply coherente_putTrip hl
          · intro e; cases e
          · intro _; exact Or.inr rfl
  | cancelarViaje id u =>
    change LlenoCoherente (cancelarViaje s id u).1
    unfold cancelarViaje
    split
    · exact hl
    · rename_i viaje hfind
      split
      · exact hl
      · rcases saveTrip_cases s { viaje with estado := .cancelado } with hs | ⟨_, _, hs⟩
        · rw [hs]; exact hl
        · rw [hs]
          refine coherente_of_trips_eq (s := s.putTrip { viaje with estado := .cancelado })
            rfl ?_
          apply coherente_putTrip hl
          · intro e; cases e
          · intro _; exact Or.inr rfl
  | joinTrip id u n pts =>
    change LlenoCoherente (joinTrip s id u n pts).1
    rcases joinTrip_cases_inv h id u n pts with ⟨h0, _⟩ | ⟨viaje, b1, _, _, _, hdisp, _, _, _,
      _, _, _, hres⟩
    · rw [h0]; exact hl
    · rw [hres]
      have hfr := descontarCupos_frame viaje n
      have hes := descontarCupos_estado viaje n
      have hl1 : LlenoCoherente (s.conReserva b1) := coherente_of_trips_eq rfl hl
      apply coherente_putTrip hl1
      · intro e
        rw [hes] at e
        rw [hfr.2.1]
        by_cases hz : viaje.cuposDisponibles - n = 0
        · exact hz
        · rw [if_neg hz, hdisp] at e; cases e
      · intro e
        rw [hfr.2.1] at e
        rw [hes, if_pos e]
        exact Or.inl rfl
  | cancelarReserva id u =>
    change LlenoCoherente (cancelarReserva s id u).1
    rcases cancelarReserva_cases_inv h id u with ⟨h0, _⟩ | ⟨reserva, viaje, hfind, _, hviaje,
      hres⟩
    · rw [h0]; exact hl
    · rw [hres]
      have hm := mem_of_findBookingDe hfind
      have hvm := mem_of_findTripById hviaje
      have hfr := liberarCupos_frame viaje reserva
      have hes := liberarCupos_estado viaje reserva
      have hbv := h.bookingValido reserva hm.1
      have htv := (h.tripValido viaje hvm.1).1
      simp only [Booking.validar, Bool.and_eq_true, decide_eq_true_eq] at hbv
      simp only [Trip.validar, Bool.and_eq_true, decide_eq_true_eq] at htv
      have hl1 : LlenoCoherente (s.putBooking { reserva with estado := .cancelada }) :=
        coherente_of_trips_eq rfl hl
      apply coherente_putTrip hl1
      · intro e
        rw [hes] at e
        by_cases hz : viaje.estado = .lleno
        · rw [if_pos hz] at e; cases e
        · rw [if_neg hz] at e; exact absurd e hz
      · intro e
        rw [hfr.2.1] at e
        omega
  | confirmarReserva id u =>
    exact coherente_of_trips_eq (trips_confirmarReserva s id u) hl
  | completarReserva id u =>
    exact coherente_of_trips_eq (trips_completarReserva s id u) hl
  | eliminarReserva id u =>
    exact coherente_of_trips_eq (trips_eliminarReserva s id u) hl

theorem coherente_run {s : Store} (h : Inv s) (hl : LlenoCoherente s) (ops : List Op)
    (hops : ∀ op ∈ ops, op.sinEstadoNiCupos = true) : LlenoCoherente (run s ops) := by
  induction ops generalizing s with
  | nil => exact hl
  | cons op ops ih =>
    have hop := hops op (List.mem_cons_self op ops)
    exact ih (inv_step h op) (coherente_step h hl op hop)
      (fun o ho => hops o (List.mem_cons_of_mem op ho))

/-! ## Claims on the seat counters and the trip state -/

/-- C1, as stated, fails: once a booking is completed (`ejCompletar`), the trip still
counts its seat as taken (3 free of 4) while no `pendiente`/`confirmada` booking holds
it, so `cuposDisponibles + held seats = cuposTotales` is false. -/
theorem seat_equation_counterexample :
    ¬ CuposExactos (run (Store.inicial [ejVehiculo]) ejCompletar) := by
  decide

/-- C1, amended: in every state reachable from an empty store, every trip satisfies
`cuposDisponibles + (seats held by its active pendiente/confirmada bookings) ≤
cuposTotales`; and the two sides are equal in every state reached without a
`completarReserva` or a `cancelarViaje` request. -/
theorem seat_invariant (vs : List Vehicle) (ops : List Op) :
    (∀ t ∈ (run (Store.inicial vs) ops).trips,
      t.cuposDisponibles + cuposRetenidos (run (Store.inicial vs) ops).bookings t.id
        ≤ t.cuposTotales) ∧
    ((∀ op ∈ ops, op.retiraCupos = false) → CuposExactos (run (Store.inicial vs) ops)) := by
  refine ⟨(inv_reachable vs ops).cupos, fun hops => ?_⟩
  apply exactos_run (inv_inicial vs) _ ops hops
  intro t ht
  simp [Store.inicial] at ht

/-- Witness for C1: after passenger 2 books three of four seats, the trip has one free
seat and the equation holds. -/
theorem seat_invariant_witness :
    (ejViajeTres ∈ (run (Store.inicial [ejVehiculo]) ejTresCupos).trips ∧
      ejViajeTres.cuposDisponibles +
        cuposRetenidos (run (Store.inicial [ejVehiculo]) ejTresCupos).bookings ejViajeTres.id
          ≤ ejViajeTres.cuposTotales) ∧
    ((∀ op ∈ ejTresCupos, op.retiraCupos = false) ∧
      CuposExactos (run (Store.inicial [ejVehiculo]) ejTresCupos)) :=
  ⟨⟨by decide, (seat_invariant [ejVehiculo] ejTresCupos).1 ejViajeTres (by decide)⟩,
   ⟨by decide, (seat_invariant [ejVehiculo] ejTresCupos).2 (by decide)⟩⟩

/-- C2 (invariant I1): in every state reachable from an empty store, every stored trip
has `0 ≤ cuposDisponibles ≤ cuposTotales`. -/
theorem seat_bounds (vs : List Vehicle) (ops : List Op) :
    ∀ t ∈ (run (Store.inicial vs) ops).trips,
      0 ≤ t.cuposDisponibles ∧ t.cuposDisponibles ≤ t.cuposTotales := by
  intro t ht
  have h := (inv_reachable vs ops).tripValido t ht
  have hv := h.1
  simp only [Trip.validar, Bool.and_eq_true, decide_eq_true_eq] at hv
  exact ⟨hv.1.1.2, h.2⟩

/-- Witness for C2 on the full trip of `ejLleno`. -/
theorem seat_bounds_witness :
    ejViajeLleno ∈ (run (Store.inicial [ejVehiculo]) ejLleno).trips ∧
    0 ≤ ejViajeLleno.cuposDisponibles ∧
    ejViajeLleno.cuposDisponibles ≤ ejViajeLleno.cuposTotales :=
  ⟨by decide, seat_bounds [ejVehiculo] ejLleno ejViajeLleno (by decide)⟩

/-- C3, as stated, fails: `crearViaje` with `estado: 'lleno'` in the body stores a trip in
`lleno` with all four seats free. -/
theorem lleno_iff_counterexample :
    ¬ LlenoSiiSinCupos (run (Store.inicial [ejVehiculo]) ejCrearLleno) := by
  decide

/-- C3, amended: in every state reachable by requests in which no `crearViaje` or
`actualizarViaje` carries `estado` and no `actualizarViaje` carries `cuposDisponibles`, a
trip in `lleno` has `cuposDisponibles = 0`, and a trip with `cuposDisponibles = 0` is in
`lleno` or `cancelado`. -/
theorem lleno_coherente (vs : List Vehicle) (ops : List Op)
    (hops : ∀ op ∈ ops, op.sinEstadoNiCupos = true) :
    LlenoCoherente (run (Store.inicial vs) ops) := by
  apply coherente_run (inv_inicial vs) _ ops hops
  intro t ht
  simp [Store.inicial] at ht

/-- Witness for C3: the run `ejLleno` carries no `estado`, and its trip ends in `lleno`
with no free seat. -/
theorem lleno_coherente_witness :
    (∀ op ∈ ejLleno, op.sinEstadoNiCupos = true) ∧
    LlenoCoherente (run (Store.inicial [ejVehiculo]) ejLleno) :=
  ⟨by decide, lleno_coherente [ejVehiculo] ejLleno (by decide)⟩

/-! ## Claims on `joinTrip` -/

theorem find_replace (l : List Trip) (t' : Trip) (h : ∃ x ∈ l, x.id = t'.id) :
    (l.map (fun x => if x.id = t'.id then t' else x)).find? (fun t => t.id = t'.id)
      = some t' := by
  induction l with
  | nil => rcases h with ⟨x, hx, _⟩; simp at hx
  | cons x l ih =>
    by_cases hx : x.id = t'.id
    · simp [hx]
    · have : ∃ y ∈ l, y.id = t'.id := by
        rcases h with ⟨y, hy, hye⟩
        rcases List.mem_cons.1 hy with rfl | hy
        · exact absurd hye hx
        · exact ⟨y, hy, hye⟩
      simp only [List.map_cons, if_neg hx]
      rw [List.find?_cons_of_neg _ (by simpa using hx)]
      exact ih this

theorem descontarCupos_eq (viaje : Trip) (n : Int) :
    descontarCupos viaje n =
      { viaje with
        cuposDisponibles := viaje.cuposDisponibles - n
        estado := if viaje.cuposDisponibles - n = 0 then .lleno else viaje.estado } := by
  unfold descontarCupos
  dsimp only
  split <;> rfl

/-- C4: postcondition of a `joinTrip` answered 201, on any store. Exactly one booking is
appended, in `pendiente`, for the requested seats, trip and passenger; the trip loaded by
the controller is written back with `cuposDisponibles` lowered by `numCupos`, `estado`
set to `lleno` when that reaches 0 and kept otherwise, and every other field
(`cuposTotales` included) as loaded; every other trip, every earlier booking and the
vehicles are unchanged. -/
theorem joinTrip_postcondition (s : Store) (id u : Nat) (n : Int) (pts : List String)
    (hok : (joinTrip s id u n pts).2 = 201) :
    ∃ viaje b, s.findTripActivo id = some viaje ∧
      (joinTrip s id u n pts).1.bookings = s.bookings ++ [b] ∧
      b.estado = .pendiente ∧ b.cuposReservados = n ∧ b.tripId = id ∧
      b.pasajeroId = u ∧ b.activo = true ∧
      (joinTrip s id u n pts).1.trips = s.trips.map (fun t => if t.id = id then
        { viaje with
          cuposDisponibles := viaje.cuposDisponibles - n
          estado := if viaje.cuposDisponibles - n = 0 then .lleno else viaje.estado }
        else t) ∧
      (joinTrip s id u n pts).1.findTripById id = some
        { viaje with
          cuposDisponibles := viaje.cuposDisponibles - n
          estado := if viaje.cuposDisponibles - n = 0 then .lleno else viaje.estado } ∧
      (joinTrip s id u n pts).1.vehicles = s.vehicles := by
  rcases joinTrip_cases s id u n pts with ⟨_, hne⟩ | ⟨viaje, b1, hf, _, _, _, _, _, _, _, hb1,
    _, hres⟩
  · exact absurd hok hne
  · have hm := mem_of_findTripActivo hf
    rcases preSaveNuevo_some hb1 with ⟨trip, _, hb1e⟩
    rcases saveTrip_cases (s.conReserva b1) (descontarCupos viaje n) with hs | ⟨_, _, hs⟩
    · rw [hres, hs] at hok; simp at hok
    · rw [hres, hs]
      have hid : (descontarCupos viaje n).id = id := by
        rw [(descontarCupos_frame viaje n).1]; exact hm.2.1
      refine ⟨viaje, b1, hf, rfl, ?_, ?_, ?_, ?_, ?_, ?_, ?_, rfl⟩
      · rw [hb1e]; rfl
      · rw [hb1e]; rfl
      · rw [hb1e]; rfl
      · rw [hb1e]; rfl
      · rw [hb1e]; rfl
      · change (s.trips.map (fun x =>
          if x.id = (descontarCupos viaje n).id then descontarCupos viaje n else x)) = _
        rw [hid, descontarCupos_eq]
      · have := find_replace s.trips (descontarCupos viaje n)
          ⟨viaje, hm.1, (descontarCupos_frame viaje n).1.symm⟩
        rw [hid] at this
        rw [← descontarCupos_eq]
        change (s.trips.map (fun x =>
          if x.id = (descontarCupos viaje n).id then descontarCupos viaje n else x)).find?
            (fun t => decide (t.id = id)) = _
        rw [hid]
        exact this

/-- Witness for C4: passenger 3 takes the last seat of the trip of `ejTresCupos`. -/
theorem joinTrip_postcondition_witness :
    (joinTrip (run (Store.inicial [ejVehiculo]) ejTresCupos) 0 3 1 ["Biblioteca"]).2 = 201 ∧
    ∃ viaje b, (run (Store.inicial [ejVehiculo]) ejTresCupos).findTripActivo 0 = some viaje ∧
      (joinTrip (run (Store.inicial [ejVehiculo]) ejTresCupos) 0 3 1 ["Biblioteca"]).1.bookings
        = (run (Store.inicial [ejVehiculo]) ejTresCupos).bookings ++ [b] ∧
      b.estado = .pendiente ∧ b.cuposReservados = 1 ∧ b.tripId = 0 ∧
      b.pasajeroId = 3 ∧ b.activo = true ∧
      (joinTrip (run (Store.inicial [ejVehiculo]) ejTresCupos) 0 3 1 ["Biblioteca"]).1.trips
        = (run (Store.inicial [ejVehiculo]) ejTresCupos).trips.map (fun t => if t.id = 0 then
          { viaje with
            cuposDisponibles := viaje.cuposDisponibles - 1
            estado := if viaje.cuposDisponibles - 1 = 0 then .lleno else viaje.estado }
          else t) ∧
      (joinTrip (run (Store.inicial [ejVehiculo]) ejTresCupos) 0 3 1
          ["Biblioteca"]).1.findTripById 0 = some
        { viaje with
          cuposDisponibles := viaje.cuposDisponibles - 1
          estado := if viaje.cuposDisponibles - 1 = 0 then .lleno else viaje.estado } ∧
      (joinTrip (run (Store.inicial [ejVehiculo]) ejTresCupos) 0 3 1 ["Biblioteca"]).1.vehicles
        = (run (Store.inicial [ejVehiculo]) ejTresCupos).vehicles :=
  ⟨by decide,
   joinTrip_postcondition (run (Store.inicial [ejVehiculo]) ejTresCupos) 0 3 1 ["Biblioteca"]
    (by decide)⟩

/-- C5: the controller and the reference procedure of the specification disagree on a
re-booking. After passenger 2 booked one seat and cancelled it (`ejCancelada`), none of
the six rejection conditions holds for a new request of passenger 2, so the reference
answers 201; the controller answers 500 and writes nothing, because the unique index on
`(tripId, pasajeroId)` still holds the cancelled booking. -/
theorem joinTrip_rebook_diverges :
    joinTripRef (run (Store.inicial [ejVehiculo]) ejCancelada) 0 2 1 ["Porteria"] = 201 ∧
    joinTrip (run (Store.inicial [ejVehiculo]) ejCancelada) 0 2 1 ["Porteria"]
      = (run (Store.inicial [ejVehiculo]) ejCancelada, 500) := by
  decide

/-- C6: in every reachable state a `joinTrip` that is not answered 201 leaves the store
exactly as it was: no booking is created and no trip field changes. -/
theorem joinTrip_rejected_unchanged (vs : List Vehicle) (ops : List Op) (id u : Nat)
    (n : Int) (pts : List String)
    (hrej : (joinTrip (run (Store.inicial vs) ops) id u n pts).2 ≠ 201) :
    (joinTrip (run (Store.inicial vs) ops) id u n pts).1 = run (Store.inicial vs) ops := by
  rcases joinTrip_cases_inv (inv_reachable vs ops) id u n pts with ⟨h0, _⟩ |
    ⟨_, _, _, _, _, _, _, _, _, _, _, _, hres⟩
  · exact h0
  · rw [hres] at hrej; simp at hrej

/-- Witness for C6, scenario 1 of the specification: four seats, three booked by
passenger 2, passenger 3 asks for two; the request is answered 400 and the store, with
one free seat, is unchanged. -/
theorem joinTrip_rejected_unchanged_witness :
    (joinTrip (run (Store.inicial [ejVehiculo]) ejTresCupos) 0 3 2 ["Biblioteca"]).2 = 400 ∧
    (joinTrip (run (Store.inicial [ejVehiculo]) ejTresCupos) 0 3 2 ["Biblioteca"]).1
      = run (Store.inicial [ejVehiculo]) ejTresCupos :=
  ⟨by decide,
   joinTrip_rejected_unchanged [ejVehiculo] ejTresCupos 0 3 2 ["Biblioteca"] (by decide)⟩

theorem filter_length_le_one (l : List Booking) (k : Nat × Nat) (q : Booking → Bool)
    (hn : (l.map Booking.clave).Nodup) (hq : ∀ b, q b = true → b.clave = k) :
    (l.filter q).length ≤ 1 := by
  induction l with
  | nil => simp
  | cons x l ih =>
    simp only [List.map_cons, List.nodup_cons] at hn
    by_cases hx : q x = true
    · have hnil : l.filter q = [] := by
        rw [List.filter_eq_nil_iff]
        intro y hy hqy
        apply hn.1
        rw [hq x hx, ← hq y hqy]
        exact List.mem_map_of_mem _ hy
      simp [List.filter_cons, hx, hnil]
    · simp only [List.filter_cons, hx, Bool.false_eq_true, if_false]
      exact ih hn.2

theorem reservasDelPar_length (vs : List Vehicle) (ops : List Op) (tripId pasajeroId : Nat)
    (p : BookingEstado → Bool) :
    (reservasDelPar (run (Store.inicial vs) ops) tripId pasajeroId p).length ≤ 1 := by
  unfold reservasDelPar
  apply filter_length_le_one _ (tripId, pasajeroId) _ (inv_reachable vs ops).claveNodup
  intro b hb
  simp only [Bool.and_eq_true, decide_eq_true_eq] at hb
  simp [Booking.clave, hb.1.1, hb.1.2]

/-- C7: in every reachable state, each (trip, passenger) pair has at most one booking
whose `estado` is `pendiente` or `confirmada`. -/
theorem una_reserva_activa (vs : List Vehicle) (ops : List Op) (tripId pasajeroId : Nat) :
    (reservasDelPar (run (Store.inicial vs) ops) tripId pasajeroId
      (fun e => e = .pendiente || e = .confirmada)).length ≤ 1 :=
  reservasDelPar_length vs ops tripId pasajeroId _

/-- C8 (invariant I4): in every reachable state, each (trip, passenger) pair has at most
one booking whose `estado` is not `cancelada`. -/
theorem una_reserva_no_cancelada (vs : List Vehicle) (ops : List Op)
    (tripId pasajeroId : Nat) :
    (reservasDelPar (run (Store.inicial vs) ops) tripId pasajeroId
      (fun e => e ≠ .cancelada)).length ≤ 1 :=
  reservasDelPar_length vs ops tripId pasajeroId _

/-- C9, as stated, fails above `2 ^ 53`: on a trip at 9007199254740991 per seat, a
`joinTrip` for three seats is answered 201 and stores `precioTotal = 27021597764222972`,
the double nearest to the product, which is 27021597764222973. -/
theorem joinTrip_precio_redondeado :
    (run (Store.inicial [ejVehiculo]) [.crearViaje 1 ejCrearCaro 10]).trips.map
      (fun t => t.tarifaPorPasajero) = [9007199254740991] ∧
    (joinTrip (run (Store.inicial [ejVehiculo]) [.crearViaje 1 ejCrearCaro 10]) 0 2 3
      ["Porteria"]).2 = 201 ∧
    (joinTrip (run (Store.inicial [ejVehiculo]) [.crearViaje 1 ejCrearCaro 10]) 0 2 3
      ["Porteria"]).1.bookings.map (fun b => b.precioTotal)
      = [.entero 27021597764222972] ∧
    (9007199254740991 : Int) * 3 = 27021597764222973 ∧
    Numero.entero (9007199254740991 * 3) ≠ .entero 27021597764222972 := by
  decide

/-- C9, amended: in every reachable state, a `joinTrip` answered 201 appends one booking
whose `precioTotal` is the `tarifaPorPasajero` of the trip as loaded by the controller
times `numCupos` in double arithmetic (`multiplicar`), which is the exact product when that
is below `2 ^ 53`; the document built by the controller already carries that value, and
the `pre('save')` hook, which reloads the trip, recomputes the same. -/
theorem joinTrip_precio (vs : List Vehicle) (ops : List Op) (id u : Nat) (n : Int)
    (pts : List String)
    (hok : (joinTrip (run (Store.inicial vs) ops) id u n pts).2 = 201) :
    ∃ viaje b, (run (Store.inicial vs) ops).findTripActivo id = some viaje ∧
      (joinTrip (run (Store.inicial vs) ops) id u n pts).1.bookings
        = (run (Store.inicial vs) ops).bookings ++ [b] ∧
      b.precioTotal = multiplicar viaje.tarifaPorPasajero n ∧
      (viaje.tarifaPorPasajero * n < 2 ^ 53 →
        b.precioTotal = .entero (viaje.tarifaPorPasajero * n)) ∧
      (nuevaReserva (run (Store.inicial vs) ops) viaje id u n pts).precioTotal
        = b.precioTotal ∧
      (nuevaReserva (run (Store.inicial vs) ops) viaje id u n pts).preSaveNuevo
        (run (Store.inicial vs) ops) = some b := by
  have h := inv_reachable vs ops
  rcases joinTrip_cases_inv h id u n pts with ⟨_, hne⟩ |
    ⟨viaje, b1, hf, hn, _, _, _, _, _, _, hb1, _, hres⟩
  · exact absurd hok hne
  · have hm := mem_of_findTripActivo hf
    rcases preSaveNuevo_some hb1 with ⟨trip, htrip, hb1e⟩
    have hsame : trip = viaje := by
      have h1 := findTripById_eq_of_mem h hm.1
      rw [hm.2.1] at h1
      have h2 : (nuevaReserva (run (Store.inicial vs) ops) viaje id u n pts).tripId = id := rfl
      rw [h2, h1] at htrip
      cases htrip; rfl
    have hp : b1.precioTotal = multiplicar viaje.tarifaPorPasajero n := by
      rw [hb1e, hsame]; rfl
    refine ⟨viaje, b1, hf, ?_, hp, ?_, ?_, hb1⟩
    · rw [hres]; rfl
    · intro hlt
      rw [hp]
      apply multiplicar_exacto
      have htv := (h.tripValido viaje hm.1).1
      simp only [Trip.validar, Bool.and_eq_true, decide_eq_true_eq] at htv
      have h0 : 0 ≤ viaje.tarifaPorPasajero * n := mul_nonneg htv.2 (by omega)
      omega
    · rw [hp]; rfl

/-- Witness for C9: the booking of three seats at 5000 per seat costs 15000. -/
theorem joinTrip_precio_witness :
    (joinTrip (run (Store.inicial [ejVehiculo]) [.crearViaje 1 ejCrear 10]) 0 2 3
      ["Porteria"]).2 = 201 ∧
    (joinTrip (run (Store.inicial [ejVehiculo]) [.crearViaje 1 ejCrear 10]) 0 2 3
      ["Porteria"]).1.bookings.map (fun b => b.precioTotal) = [.entero 15000] ∧
    ∃ viaje b,
      (run (Store.inicial [ejVehiculo]) [.crearViaje 1 ejCrear 10]).findTripActivo 0
        = some viaje ∧
      (joinTrip (run (Store.inicial [ejVehiculo]) [.crearViaje 1 ejCrear 10]) 0 2 3
        ["Porteria"]).1.bookings
        = (run (Store.inicial [ejVehiculo]) [.crearViaje 1 ejCrear 10]).bookings ++ [b] ∧
      b.precioTotal = multiplicar viaje.tarifaPorPasajero 3 ∧
      (viaje.tarifaPorPasajero * 3 < 2 ^ 53 →
        b.precioTotal = .entero (viaje.tarifaPorPasajero * 3)) ∧
      (nuevaReserva (run (Store.inicial [ejVehiculo]) [.crearViaje 1 ejCrear 10]) viaje 0 2 3
        ["Porteria"]).precioTotal = b.precioTotal ∧
      (nuevaReserva (run (Store.inicial [ejVehiculo]) [.crearViaje 1 ejCrear 10]) viaje 0 2 3
        ["Porteria"]).preSaveNuevo (run (Store.inicial [ejVehiculo]) [.crearViaje 1 ejCrear 10])
        = some b :=
  ⟨by decide, by decide,
   joinTrip_precio [ejVehiculo] [.crearViaje 1 ejCrear 10] 0 2 3 ["Porteria"] (by decide)⟩

theorem reservaActiva_par (id u : Nat) :
    (fun b : Booking => b.reservaActivaDe id && decide (b.pasajeroId = u)) =
    (fun b : Booking => decide (b.tripId = id) && decide (b.pasajeroId = u) && b.activo &&
      (decide (b.estado = .pendiente) || decide (b.estado = .confirmada))) := by
  funext b
  unfold Booking.reservaActivaDe
  cases decide (b.tripId = id) <;> cases decide (b.pasajeroId = u) <;> cases b.activo <;>
    cases (decide (b.estado = .pendiente) || decide (b.estado = .confirmada)) <;> rfl

/-- Where the controller and the reference procedure of the specification can differ:
on any store the status of `joinTrip` is the status of the reference, except that the
controller may answer 500 where the reference answers 201. -/
theorem joinTrip_ref_or_500 (s : Store) (id u : Nat) (n : Int) (pts : List String) :
    (joinTrip s id u n pts).2 = joinTripRef s id u n pts ∨
    ((joinTrip s id u n pts).2 = 500 ∧ joinTripRef s id u n pts = 201) := by
  unfold joinTrip joinTripRef Store.findTripActivo
  by_cases h1 : n < 1
  · have h1' : n = 0 ∨ n < 1 := Or.inr h1
    simp [h1, h1']
  · have h1' : ¬ (n = 0 ∨ n < 1) := by omega
    by_cases h2 : pts = []
    · simp [h1', h2]
    · have h2' : ¬ pts.length = 0 := by
        intro e; exact h2 (List.length_eq_zero.1 e)
      have h12 : ¬ (n < 1 ∨ pts = []) := by
        intro e; rcases e with e | e
        · exact h1 e
        · exact h2 e
      rw [if_neg h1', if_neg h2', if_neg h12]
      cases hfind : s.trips.find? (fun t => decide (t.id = id) && t.activo) with
      | none => exact Or.inl rfl
      | some viaje =>
        dsimp only
        by_cases h3 : viaje.estado ≠ .disponible
        · rw [if_pos h3, if_pos h3]; exact Or.inl rfl
        · rw [if_neg h3, if_neg h3]
          by_cases h4 : viaje.conductorId = u
          · rw [if_pos h4, if_pos h4.symm]; exact Or.inl rfl
          · rw [if_neg h4, if_neg (show ¬ u = viaje.conductorId from fun e => h4 e.symm)]
            by_cases h5 : viaje.cuposDisponibles < n
            · rw [if_pos h5, if_pos h5]; exact Or.inl rfl
            · rw [if_neg h5, if_neg h5, reservaActiva_par id u]
              split
              · exact Or.inl rfl
              · split
                · exact Or.inr ⟨rfl, rfl⟩
                · split
                  · exact Or.inr ⟨rfl, rfl⟩
                  · exact Or.inl rfl

/-! ## Claims on the booking price -/

theorem idPrecio_putBooking {s : Store} {b b' : Booking} (h : Inv s) (hb : b ∈ s.bookings)
    (hid : b'.id = b.id) (hp : b'.precioTotal = b.precioTotal) :
    (s.putBooking b').bookings.map Booking.idPrecio = s.bookings.map Booking.idPrecio := by
  apply map_replace_of_eq Booking.id Booking.idPrecio
  intro x hx hk
  rw [eq_of_key_eq Booking.id s.bookings h.bookingIdNodup b x hb hx (hk.trans hid)]
  simp [Booking.idPrecio, hid, hp]

theorem bookings_saveTrip {s s1 : Store} {t : Trip} (h : s.saveTrip t = some s1) :
    s1.bookings = s.bookings := by
  rcases saveTrip_cases s t with he | ⟨_, _, he⟩
  · rw [he] at h; cases h
  · rw [he] at h; cases h; rfl

/-- One request keeps the identity and price of every stored booking, in order; new
bookings are appended. -/
theorem idPrecio_step {s : Store} (h : Inv s) (op : Op) :
    ∃ l, (step s op).1.bookings.map Booking.idPrecio
      = s.bookings.map Booking.idPrecio ++ l := by
  cases op with
  | crearViaje u body hoy =>
    change ∃ l, (crearViaje s u body hoy).1.bookings.map Booking.idPrecio = _
    rcases crearViaje_cases s u body hoy with ⟨h0, _⟩ | ⟨nv, _, _, _, _, _, _, _, hres⟩
    · rw [h0]; exact ⟨[], by simp⟩
    · rw [hres]; exact ⟨[], by simp⟩
  | actualizarViaje id u body hoy =>
    change ∃ l, (actualizarViaje s id u body hoy).1.bookings.map Booking.idPrecio = _
    rcases actualizarViaje_cases s id u body hoy with
      ⟨h0, _⟩ | ⟨viaje, v1, _, _, _, _, _, _, _, hr⟩
    · rw [h0]; exact ⟨[], by simp⟩
    · rw [hr]; exact ⟨[], by simp [Store.putTrip]⟩
  | eliminarViaje id u =>
    change ∃ l, (eliminarViaje s id u).1.bookings.map Booking.idPrecio = _
    refine ⟨[], ?_⟩
    rw [List.append_nil]
    unfold eliminarViaje
    split
    · rfl
    · rename_i viaje hfind
      dsimp only
      split
      · rfl
      · rcases saveTrip_cases s { viaje with activo := false, estado := .cancelado } with
          hs | ⟨_, _, hs⟩
        · rw [hs]
        · rw [hs]; rfl
  | cancelarViaje id u =>
    change ∃ l, (cancelarViaje s id u).1.bookings.map Booking.idPrecio = _
    refine ⟨[], ?_⟩
    rw [List.append_nil]
    unfold cancelarViaje
    split
    · rfl
    · rename_i viaje hfind
      split
      · rfl
      · rcases saveTrip_cases s { viaje with estado := .cancelado } with hs | ⟨_, _, hs⟩
        · rw [hs]
        · rw [hs]
          simp only [Store.cancelarReservasDe, Store.putTrip, List.map_map]
          apply List.map_congr_left
          intro x _
          simp only [Function.comp]
          split <;> rfl
  | joinTrip id u n pts =>
    change ∃ l, (joinTrip s id u n pts).1.bookings.map Booking.idPrecio = _
    rcases joinTrip_cases_inv h id u n pts with ⟨h0, _⟩ |
      ⟨_, b1, _, _, _, _, _, _, _, _, _, _, hres⟩
    · rw [h0]; exact ⟨[], by simp⟩
    · rw [hres]
      refine ⟨[b1.idPrecio], ?_⟩
      change (s.bookings ++ [b1]).map Booking.idPrecio = _
      simp
  | cancelarReserva id u =>
    change ∃ l, (cancelarReserva s id u).1.bookings.map Booking.idPrecio = _
    rcases cancelarReserva_cases_inv h id u with ⟨h0, _⟩ | ⟨reserva, viaje, hfind, _, _, hres⟩
    · rw [h0]; exact ⟨[], by simp⟩
    · rw [hres]
      refine ⟨[], ?_⟩
      rw [List.append_nil]
      exact idPrecio_putBooking h (mem_of_findBookingDe hfind).1 rfl rfl
  | confirmarReserva id u =>
    change ∃ l, (confirmarReserva s id u).1.bookings.map Booking.idPrecio = _
    refine ⟨[], ?_⟩
    rw [List.append_nil]
    unfold confirmarReserva
    split
    · rfl
    · rename_i reserva hfind
      split
      · rfl
      · split
        · rfl
        · split
          · rfl
          · rcases saveBooking_cases s { reserva with estado := .confirmada } with hs | ⟨_, hs⟩
            · rw [hs]
            · rw [hs]
              exact idPrecio_putBooking h (mem_of_findBookingActivo hfind).1 rfl rfl
  | completarReserva id u =>
    change ∃ l, (completarReserva s id u).1.bookings.map Booking.idPrecio = _
    refine ⟨[], ?_⟩
    rw [List.append_nil]
    unfold completarReserva
    split
    · rfl
    · rename_i reserva hfind
      split
      · rfl
      · split
        · rfl
        · split
          · rfl
          · rcases saveBooking_cases s { reserva with estado := .completada } with hs | ⟨_, hs⟩
            · rw [hs]
            · rw [hs]
              exact idPrecio_putBooking h (mem_of_findBookingActivo hfind).1 rfl rfl
  | eliminarReserva id u =>
    change ∃ l, (eliminarReserva s id u).1.bookings.map Booking.idPrecio = _
    refine ⟨[], ?_⟩
    rw [List.append_nil]
    unfold eliminarReserva
    split
    · rfl
    · rename_i reserva hfind
      split
      · rfl
      · rcases saveBooking_cases s { reserva with activo := false } with hs | ⟨_, hs⟩
        · rw [hs]
        · rw [hs]
          exact idPrecio_putBooking h (mem_of_findBookingDe hfind).1 rfl rfl

theorem idPrecio_run {s : Store} (h : Inv s) (ops : List Op) :
    ∃ l, (run s ops).bookings.map Booking.idPrecio = s.bookings.map Booking.idPrecio ++ l := by
  induction ops generalizing s with
  | nil => exact ⟨[], by simp [run]⟩
  | cons op ops ih =>
    rcases idPrecio_step h op with ⟨l1, h1⟩
    rcases ih (inv_step h op) with ⟨l2, h2⟩
    refine ⟨l1 ++ l2, ?_⟩
    change (run (step s op).1 ops).bookings.map Booking.idPrecio = _
    rw [h2, h1, List.append_assoc]

/-- C10 (invariant I5): a booking stored after the requests `ops1` is still stored after
any further requests `ops2`, and the stored booking with its id has the `precioTotal`
it had; no request, `actualizarViaje` with a new `tarifaPorPasajero` included, changes the
price of an existing booking. -/
theorem precio_fijo (vs : List Vehicle) (ops1 ops2 : List Op) :
    ∀ b ∈ (run (Store.inicial vs) ops1).bookings,
      (∃ b' ∈ (run (Store.inicial vs) (ops1 ++ ops2)).bookings, b'.id = b.id) ∧
      ∀ b' ∈ (run (Store.inicial vs) (ops1 ++ ops2)).bookings,
        b'.id = b.id → b'.precioTotal = b.precioTotal := by
  intro b hb
  have h1 := inv_reachable vs ops1
  have h2 := inv_reachable vs (ops1 ++ ops2)
  rcases idPrecio_run h1 ops2 with ⟨l, hl⟩
  rw [← run_append] at hl
  have hmem : b.idPrecio ∈ (run (Store.inicial vs) (ops1 ++ ops2)).bookings.map
      Booking.idPrecio := by
    rw [hl]
    exact List.mem_append_left _ (List.mem_map_of_mem _ hb)
  rcases List.mem_map.1 hmem with ⟨c, hc, hce⟩
  simp only [Booking.idPrecio, Prod.mk.injEq] at hce
  refine ⟨⟨c, hc, hce.1⟩, ?_⟩
  intro b' hb' hid
  have := eq_of_key_eq Booking.id _ h2.bookingIdNodup c b' hc hb' (hid.trans hce.1.symm)
  rw [this]; exact hce.2

/-- Witness for C10: the booking made at 5000 per seat keeps `precioTotal = 15000` after
the fare is doubled and the booking is confirmed, completed and removed. -/
theorem precio_fijo_witness :
    ejReserva ∈ (run (Store.inicial [ejVehiculo]) ejTresCupos).bookings ∧
    ejReservaFinal ∈ (run (Store.inicial [ejVehiculo]) (ejTresCupos ++ ejTarifa)).bookings ∧
    ejReservaFinal.precioTotal = ejReserva.precioTotal :=
  ⟨by decide, by decide,
   (precio_fijo [ejVehiculo] ejTresCupos ejTarifa ejReserva (by decide)).2 ejReservaFinal
     (by decide) (by decide)⟩

/-! ## Claims on `cancelarReserva` -/

theorem Alcanzable.inv {s : Store} (hs : Alcanzable s) : Inv s := by
  rcases hs with ⟨vs, ops, rfl⟩
  exact inv_reachable vs ops

theorem find_replace_pred {α : Type} (key : α → Nat) (p : α → Bool) (l : List α) (a' : α)
    (hp : p a' = true) (hk : ∀ x, p x = true → key x = key a')
    (h : ∃ x ∈ l, key x = key a') :
    (l.map (fun x => if key x = key a' then a' else x)).find? p = some a' := by
  induction l with
  | nil => rcases h with ⟨x, hx, _⟩; simp at hx
  | cons x l ih =>
    by_cases hx : key x = key a'
    · simp [hx, hp]
    · have hpx : ¬ p x = true := fun e => hx (hk x e)
      have : ∃ y ∈ l, key y = key a' := by
        rcases h with ⟨y, hy, hye⟩
        rcases List.mem_cons.1 hy with rfl | hy
        · exact absurd hye hx
        · exact ⟨y, hy, hye⟩
      simp only [List.map_cons, if_neg hx]
      rw [List.find?_cons_of_neg _ hpx]
      exact ih this

theorem liberarCupos_eq (viaje : Trip) (r : Booking) :
    liberarCupos viaje r =
      { viaje with
        cuposDisponibles := viaje.cuposDisponibles + r.cuposReservados
        estado := if viaje.estado = .lleno then .disponible else viaje.estado } := by
  unfold liberarCupos
  dsimp only
  split <;> rfl

/-- Shape of a `cancelarReserva` answered 200, on any store. -/
theorem cancelarReserva_ok {s : Store} {id u : Nat}
    (hok : (cancelarReserva s id u).2 = 200) :
    ∃ reserva viaje, s.findBookingDe id u = some reserva ∧
      (reserva.estado = .pendiente ∨ reserva.estado = .confirmada) ∧
      s.findTripById reserva.tripId = some viaje ∧
      cancelarReserva s id u =
        ((s.putBooking { reserva with estado := .cancelada }).putTrip
          (liberarCupos viaje reserva), 200) := by
  unfold cancelarReserva at hok ⊢
  split at hok
  · simp at hok
  · rename_i reserva hfind
    rw [hfind]
    try dsimp only
    split at hok
    · simp at hok
    · rename_i hnc
      split at hok
      · simp at hok
      · rename_i hnk
        rw [if_neg hnc, if_neg hnk]
        split at hok
        · simp at hok
        · rename_i viaje hviaje
          have hest : reserva.estado = .pendiente ∨ reserva.estado = .confirmada := by
            cases hes : reserva.estado <;> simp_all
          rcases saveBooking_cases s { reserva with estado := .cancelada } with hs | ⟨_, hs⟩
          · rw [hs] at hok; simp at hok
          · rw [hs] at hok ⊢
            try dsimp only at hok ⊢
            rcases saveTrip_cases (s.putBooking { reserva with estado := .cancelada })
              (liberarCupos viaje reserva) with ht | ⟨_, _, ht⟩
            · rw [ht] at hok; simp at hok
            · rw [ht]
              exact ⟨reserva, viaje, rfl, hest, hviaje, rfl⟩

theorem findBookingDe_putBooking {s : Store} {id u : Nat} {r r' : Booking}
    (hfind : s.findBookingDe id u = some r) (hid : r'.id = r.id)
    (hpas : r'.pasajeroId = r.pasajeroId) (hact : r'.activo = r.activo) :
    (s.putBooking r').findBookingDe id u = some r' := by
  have hm := mem_of_findBookingDe hfind
  unfold Store.findBookingDe Store.putBooking
  apply find_replace_pred Booking.id
  · simp [hid, hpas, hact, hm.2.1, hm.2.2.1, hm.2.2.2]
  · intro x hx
    simp only [Bool.and_eq_true, decide_eq_true_eq] at hx
    rw [hid, hm.2.1]; exact hx.1.1
  · exact ⟨r, hm.1, hid.symm⟩

/-- C11: postcondition of a `cancelarReserva` answered 200, on any store. The request
comes from the booking's passenger and the booking was `pendiente` or `confirmada`; the
booking is stored as `cancelada` with every other field as before; its trip is written
back with `cuposDisponibles` raised by exactly `cuposReservados`, `estado` set to
`disponible` when it was `lleno` and kept otherwise, and every other field
(`cuposTotales` included) as before; other trips and the vehicles are unchanged. -/
theorem cancelarReserva_postcondition (s : Store) (id u : Nat)
    (hok : (cancelarReserva s id u).2 = 200) :
    ∃ reserva viaje, s.findBookingDe id u = some reserva ∧
      (reserva.estado = .pendiente ∨ reserva.estado = .confirmada) ∧
      s.findTripById reserva.tripId = some viaje ∧
      (cancelarReserva s id u).1.findBookingDe id u =
        some { reserva with estado := .cancelada } ∧
      (cancelarReserva s id u).1.bookings = s.bookings.map (fun b =>
        if b.id = id then { reserva with estado := .cancelada } else b) ∧
      (cancelarReserva s id u).1.findTripById reserva.tripId = some
        { viaje with
          cuposDisponibles := viaje.cuposDisponibles + reserva.cuposReservados
          estado := if viaje.estado = .lleno then .disponible else viaje.estado } ∧
      (cancelarReserva s id u).1.trips = s.trips.map (fun t =>
        if t.id = reserva.tripId then
          { viaje with
            cuposDisponibles := viaje.cuposDisponibles + reserva.cuposReservados
            estado := if viaje.estado = .lleno then .disponible else viaje.estado }
        else t) ∧
      (cancelarReserva s id u).1.vehicles = s.vehicles := by
  rcases cancelarReserva_ok hok with ⟨reserva, viaje, hfind, hest, hviaje, hres⟩
  have hm := mem_of_findBookingDe hfind
  have hvm := mem_of_findTripById hviaje
  have hid : (liberarCupos viaje reserva).id = reserva.tripId := by
    rw [(liberarCupos_frame viaje reserva).1]; exact hvm.2
  refine ⟨reserva, viaje, hfind, hest, hviaje, ?_, ?_, ?_, ?_, ?_⟩
  · rw [hres]
    exact findBookingDe_putBooking hfind rfl rfl rfl
  · rw [hres]
    change s.bookings.map (fun x =>
      if x.id = reserva.id then { reserva with estado := .cancelada } else x) = _
    rw [hm.2.1]
  · rw [hres, ← liberarCupos_eq]
    have := find_replace s.trips (liberarCupos viaje reserva)
      ⟨viaje, hvm.1, (liberarCupos_frame viaje reserva).1.symm⟩
    rw [hid] at this
    change (s.trips.map (fun x =>
      if x.id = (liberarCupos viaje reserva).id then liberarCupos viaje reserva else x)).find?
        (fun t => decide (t.id = reserva.tripId)) = _
    rw [hid]
    exact this
  · rw [hres, ← liberarCupos_eq]
    change (s.trips.map (fun x =>
      if x.id = (liberarCupos viaje reserva).id then liberarCupos viaje reserva else x)) = _
    rw [hid]
  · rw [hres]; rfl

/-- Witness for C11, scenario 3 of the specification: on the full trip of `ejLleno`,
passenger 2 cancels the booking of three seats; the trip has three free seats again and is
`disponible`. -/
theorem cancelarReserva_postcondition_witness :
    (cancelarReserva (run (Store.inicial [ejVehiculo]) ejLleno) 1 2).2 = 200 ∧
    (cancelarReserva (run (Store.inicial [ejVehiculo]) ejLleno) 1 2).1.findTripById 0
      = some ejViajeLiberado ∧
    ∃ reserva viaje, (run (Store.inicial [ejVehiculo]) ejLleno).findBookingDe 1 2
        = some reserva ∧
      (reserva.estado = .pendiente ∨ reserva.estado = .confirmada) ∧
      (run (Store.inicial [ejVehiculo]) ejLleno).findTripById reserva.tripId = some viaje ∧
      (cancelarReserva (run (Store.inicial [ejVehiculo]) ejLleno) 1 2).1.findBookingDe 1 2 =
        some { reserva with estado := .cancelada } ∧
      (cancelarReserva (run (Store.inicial [ejVehiculo]) ejLleno) 1 2).1.bookings =
        (run (Store.inicial [ejVehiculo]) ejLleno).bookings.map (fun b =>
          if b.id = 1 then { reserva with estado := .cancelada } else b) ∧
      (cancelarReserva (run (Store.inicial [ejVehiculo]) ejLleno) 1 2).1.findTripById
          reserva.tripId = some
        { viaje with
          cuposDisponibles := viaje.cuposDisponibles + reserva.cuposReservados
          estado := if viaje.estado = .lleno then .disponible else viaje.estado } ∧
      (cancelarReserva (run (Store.inicial [ejVehiculo]) ejLleno) 1 2).1.trips =
        (run (Store.inicial [ejVehiculo]) ejLleno).trips.map (fun t =>
          if t.id = reserva.tripId then
            { viaje with
              cuposDisponibles := viaje.cuposDisponibles + reserva.cuposReservados
              estado := if viaje.estado = .lleno then .disponible else viaje.estado }
          else t) ∧
      (cancelarReserva (run (Store.inicial [ejVehiculo]) ejLleno) 1 2).1.vehicles =
        (run (Store.inicial [ejVehiculo]) ejLleno).vehicles :=
  ⟨by decide, by decide,
   cancelarReserva_postcondition (run (Store.inicial [ejVehiculo]) ejLleno) 1 2 (by decide)⟩

/-- C12: cancelling is not idempotent. On any store, `cancelarReserva` by the passenger
on an active booking that is already `cancelada` or `completada` answers 400 (the status
the controllers use for every state or seat conflict) and writes nothing; hence a second
`cancelarReserva` right after a successful one answers 400 and leaves the store, seat
counters included, as the first call left it. -/
theorem cancelarReserva_no_idempotente (s : Store) (id u : Nat) :
    (∀ r, s.findBookingDe id u = some r → r.estado.terminal →
      cancelarReserva s id u = (s, 400)) ∧
    ((cancelarReserva s id u).2 = 200 →
      cancelarReserva (cancelarReserva s id u).1 id u = ((cancelarReserva s id u).1, 400)) := by
  have h1 : ∀ (s : Store) (r : Booking), s.findBookingDe id u = some r → r.estado.terminal →
      cancelarReserva s id u = (s, 400) := by
    intro s r hfind ht
    unfold cancelarReserva
    rw [hfind]
    dsimp only
    rcases ht with e | e
    · rw [if_pos e]
    · have hne : ¬ r.estado = .cancelada := by rw [e]; decide
      rw [if_neg hne, if_pos e]
  refine ⟨h1 s, fun hok => ?_⟩
  rcases cancelarReserva_ok hok with ⟨reserva, viaje, hfind, _, _, hres⟩
  have hf2 : (cancelarReserva s id u).1.findBookingDe id u
      = some { reserva with estado := .cancelada } := by
    rw [hres]
    exact findBookingDe_putBooking hfind rfl rfl rfl
  exact h1 _ _ hf2 (Or.inl rfl)

/-- Witness for C12: the cancelled booking of `ejCancelada` cannot be cancelled again, and
the second of two consecutive cancellations on `ejTresCupos` changes nothing. -/
theorem cancelarReserva_no_idempotente_witness :
    (run (Store.inicial [ejVehiculo]) ejCancelada).findBookingDe 1 2
      = some ejReservaCancelada ∧
    cancelarReserva (run (Store.inicial [ejVehiculo]) ejCancelada) 1 2
      = (run (Store.inicial [ejVehiculo]) ejCancelada, 400) ∧
    (cancelarReserva (run (Store.inicial [ejVehiculo]) ejTresCupos) 1 2).2 = 200 ∧
    cancelarReserva (cancelarReserva (run (Store.inicial [ejVehiculo]) ejTresCupos) 1 2).1 1 2
      = ((cancelarReserva (run (Store.inicial [ejVehiculo]) ejTresCupos) 1 2).1, 400) :=
  ⟨by decide,
   (cancelarReserva_no_idempotente (run (Store.inicial [ejVehiculo]) ejCancelada) 1 2).1
     ejReservaCancelada (by decide) (Or.inl rfl),
   by decide,
   (cancelarReserva_no_idempotente (run (Store.inicial [ejVehiculo]) ejTresCupos) 1 2).2
     (by decide)⟩

/-! ## Claims on `confirmarReserva` and `completarReserva` -/

theorem findBookingActivo_of_mem {s : Store} (h : Inv s) {b : Booking} (hb : b ∈ s.bookings)
    (hact : b.activo = true) : s.findBookingActivo b.id = some b := by
  unfold Store.findBookingActivo
  cases hfind : s.bookings.find? (fun x => decide (x.id = b.id) && x.activo) with
  | none =>
    have := List.find?_eq_none.1 hfind b hb
    simp [hact] at this
  | some x =>
    have h1 := List.mem_of_find?_eq_some hfind
    have h2 := List.find?_some hfind
    simp only [Bool.and_eq_true, decide_eq_true_eq] at h2
    rw [eq_of_key_eq Booking.id s.bookings h.bookingIdNodup b x hb h1 h2.1]

theorem findBookingActivo_putBooking {s : Store} {id : Nat} {r r' : Booking}
    (hfind : s.findBookingActivo id = some r) (hid : r'.id = r.id)
    (hact : r'.activo = r.activo) :
    (s.putBooking r').findBookingActivo id = some r' := by
  have hm := mem_of_findBookingActivo hfind
  unfold Store.findBookingActivo Store.putBooking
  apply find_replace_pred Booking.id
  · simp [hid, hact, hm.2.1, hm.2.2]
  · intro x hx
    simp only [Bool.and_eq_true, decide_eq_true_eq] at hx
    rw [hid, hm.2.1]; exact hx.1
  · exact ⟨r, hm.1, hid.symm⟩

theorem saveBooking_isSome {s : Store} {b : Booking} (hv : b.validar = true) :
    s.saveBooking b = some (s.putBooking b) := by
  unfold Store.saveBooking
  rw [if_pos hv]

/-- Shape of a `confirmarReserva` answered 200, on any store. -/
theorem confirmarReserva_ok {s : Store} {id u : Nat}
    (hok : (confirmarReserva s id u).2 = 200) :
    ∃ reserva viaje, s.findBookingActivo id = some reserva ∧
      s.findTripById reserva.tripId = some viaje ∧ viaje.conductorId = u ∧
      reserva.estado = .pendiente ∧
      confirmarReserva s id u = (s.putBooking { reserva with estado := .confirmada }, 200) := by
  cases hfind : s.findBookingActivo id with
  | none => simp [confirmarReserva, hfind] at hok
  | some reserva =>
    cases hviaje : s.findTripById reserva.tripId with
    | none => simp [confirmarReserva, hfind, hviaje] at hok
    | some viaje =>
      by_cases hc : viaje.conductorId = u
      · by_cases hp : reserva.estado = .pendiente
        · rcases saveBooking_cases s { reserva with estado := .confirmada } with hs | ⟨_, hs⟩
          · simp [confirmarReserva, hfind, hviaje, hc, hp, hs] at hok
          · refine ⟨reserva, viaje, rfl, hviaje, hc, hp, ?_⟩
            simp only [confirmarReserva, hfind, hviaje, hc, hp, hs, ne_eq, not_true_eq_false,
              if_false]
        · simp [confirmarReserva, hfind, hviaje, hc, hp] at hok
      · simp [confirmarReserva, hfind, hviaje, hc] at hok

/-- A `confirmarReserva` that is not answered 200 writes nothing, on any store. -/
theorem confirmarReserva_fail {s : Store} {id u : Nat}
    (hne : (confirmarReserva s id u).2 ≠ 200) : (confirmarReserva s id u).1 = s := by
  cases hfind : s.findBookingActivo id with
  | none => simp [confirmarReserva, hfind]
  | some reserva =>
    cases hviaje : s.findTripById reserva.tripId with
    | none => simp [confirmarReserva, hfind, hviaje]
    | some viaje =>
      by_cases hc : viaje.conductorId = u
      · by_cases hp : reserva.estado = .pendiente
        · rcases saveBooking_cases s { reserva with estado := .confirmada } with hs | ⟨_, hs⟩
          · simp [confirmarReserva, hfind, hviaje, hc, hp, hs]
          · exfalso
            apply hne
            simp [confirmarReserva, hfind, hviaje, hc, hp, hs]
        · simp [confirmarReserva, hfind, hviaje, hc, hp]
      · simp [confirmarReserva, hfind, hviaje, hc]

/-- C13: in every reachable state, `confirmarReserva` is answered 200 exactly when a
stored booking with the requested id is active, the requester is the driver of its trip,
and its `estado` is `pendiente`. On success the stored booking only changes its `estado`,
to `confirmada`; every other booking, every trip (seat counters and `estado` included) and
the vehicles are unchanged, and another confirm of the same booking, by anyone, is
refused. A refused request writes nothing. -/
theorem confirmarReserva_spec (s : Store) (hs : Alcanzable s) (id u : Nat) :
    ((confirmarReserva s id u).2 = 200 ↔
      ∃ b ∈ s.bookings, ∃ t ∈ s.trips, b.id = id ∧ b.activo = true ∧ t.id = b.tripId ∧
        t.conductorId = u ∧ b.estado = .pendiente) ∧
    ((confirmarReserva s id u).2 = 200 →
      ∃ b, s.findBookingActivo id = some b ∧
        (confirmarReserva s id u).1.bookings = s.bookings.map (fun x =>
          if x.id = id then { b with estado := .confirmada } else x) ∧
        (confirmarReserva s id u).1.trips = s.trips ∧
        (confirmarReserva s id u).1.vehicles = s.vehicles ∧
        ∀ v, (confirmarReserva (confirmarReserva s id u).1 id v).2 ≠ 200) ∧
    ((confirmarReserva s id u).2 ≠ 200 → (confirmarReserva s id u).1 = s) := by
  have h := hs.inv
  refine ⟨⟨fun hok => ?_, fun hex => ?_⟩, fun hok => ?_, confirmarReserva_fail⟩
  · rcases confirmarReserva_ok hok with ⟨reserva, viaje, hfind, hviaje, hc, hp, _⟩
    have hm := mem_of_findBookingActivo hfind
    have hvm := mem_of_findTripById hviaje
    exact ⟨reserva, hm.1, viaje, hvm.1, hm.2.1, hm.2.2, hvm.2, hc, hp⟩
  · rcases hex with ⟨b, hb, t, ht, hid, hact, htid, hc, hp⟩
    have hfind := findBookingActivo_of_mem h hb hact
    rw [hid] at hfind
    have hviaje := findTripById_eq_of_mem h ht
    rw [htid] at hviaje
    have hv : ({ b with estado := .confirmada } : Booking).validar = true :=
      h.bookingValido b hb
    simp [confirmarReserva, hfind, hviaje, hc, hp, saveBooking_isSome hv]
  · rcases confirmarReserva_ok hok with ⟨reserva, viaje, hfind, hviaje, hc, hp, hres⟩
    have hm := mem_of_findBookingActivo hfind
    refine ⟨reserva, hfind, ?_, ?_, ?_, ?_⟩
    · rw [hres]
      change s.bookings.map (fun x =>
        if x.id = reserva.id then { reserva with estado := .confirmada } else x) = _
      rw [hm.2.1]
    · rw [hres]; rfl
    · rw [hres]; rfl
    · intro v hok2
      rcases confirmarReserva_ok hok2 with ⟨r2, _, hf2, _, _, hp2, _⟩
      rw [hres] at hf2
      have hf3 : (s.putBooking { reserva with estado := .confirmada }).findBookingActivo id
          = some { reserva with estado := .confirmada } :=
        findBookingActivo_putBooking hfind rfl rfl
      rw [hf3] at hf2
      cases hf2
      cases hp2

/-- Witness for C13, first half of scenario 4: the driver confirms the pending booking of
`ejPendiente`; a later confirm is refused. -/
theorem confirmarReserva_spec_witness :
    (confirmarReserva (run (Store.inicial [ejVehiculo]) ejPendiente) 1 1).2 = 200 ∧
    (∃ b ∈ (run (Store.inicial [ejVehiculo]) ejPendiente).bookings,
      ∃ t ∈ (run (Store.inicial [ejVehiculo]) ejPendiente).trips,
        b.id = 1 ∧ b.activo = true ∧ t.id = b.tripId ∧ t.conductorId = 1 ∧
        b.estado = .pendiente) ∧
    (confirmarReserva (confirmarReserva (run (Store.inicial [ejVehiculo]) ejPendiente)
      1 1).1 1 1).2 = 400 :=
  ⟨by decide,
   ((confirmarReserva_spec (run (Store.inicial [ejVehiculo]) ejPendiente)
      ⟨[ejVehiculo], ejPendiente, rfl⟩ 1 1).1).1 (by decide),
   by decide⟩

/-- Shape of a `completarReserva` answered 200, on any store. -/
theorem completarReserva_ok {s : Store} {id u : Nat}
    (hok : (completarReserva s id u).2 = 200) :
    ∃ reserva viaje, s.findBookingActivo id = some reserva ∧
      s.findTripById reserva.tripId = some viaje ∧ viaje.conductorId = u ∧
      reserva.estado = .confirmada ∧
      completarReserva s id u = (s.putBooking { reserva with estado := .completada }, 200) := by
  cases hfind : s.findBookingActivo id with
  | none => simp [completarReserva, hfind] at hok
  | some reserva =>
    cases hviaje : s.findTripById reserva.tripId with
    | none => simp [completarReserva, hfind, hviaje] at hok
    | some viaje =>
      by_cases hc : viaje.conductorId = u
      · by_cases hp : reserva.estado = .confirmada
        · rcases saveBooking_cases s { reserva with estado := .completada } with hs | ⟨_, hs⟩
          · simp [completarReserva, hfind, hviaje, hc, hp, hs] at hok
          · refine ⟨reserva, viaje, rfl, hviaje, hc, hp, ?_⟩
            simp only [completarReserva, hfind, hviaje, hc, hp, hs, ne_eq, not_true_eq_false,
              if_false]
        · simp [completarReserva, hfind, hviaje, hc, hp] at hok
      · simp [completarReserva, hfind, hviaje, hc] at hok

/-- A `completarReserva` that is not answered 200 writes nothing, on any store. -/
theorem completarReserva_fail {s : Store} {id u : Nat}
    (hne : (completarReserva s id u).2 ≠ 200) : (completarReserva s id u).1 = s := by
  cases hfind : s.findBookingActivo id with
  | none => simp [completarReserva, hfind]
  | some reserva =>
    cases hviaje : s.findTripById reserva.tripId with
    | none => simp [completarReserva, hfind, hviaje]
    | some viaje =>
      by_cases hc : viaje.conductorId = u
      · by_cases hp : reserva.estado = .confirmada
        · rcases saveBooking_cases s { reserva with estado := .completada } with hs | ⟨_, hs⟩
          · simp [completarReserva, hfind, hviaje, hc, hp, hs]
          · exfalso
            apply hne
            simp [completarReserva, hfind, hviaje, hc, hp, hs]
        · simp [completarReserva, hfind, hviaje, hc, hp]
      · simp [completarReserva, hfind, hviaje, hc]

/-- C14: in every reachable state, `completarReserva` is answered 200 exactly when a
stored booking with the requested id is active, the requester is the driver of its trip,
and its `estado` is `confirmada`. On success the stored booking only changes its `estado`,
to `completada`; every other booking, every trip (seat counters and `estado` included) and
the vehicles are unchanged. A refused request writes nothing. -/
theorem completarReserva_spec (s : Store) (hs : Alcanzable s) (id u : Nat) :
    ((completarReserva s id u).2 = 200 ↔
      ∃ b ∈ s.bookings, ∃ t ∈ s.trips, b.id = id ∧ b.activo = true ∧ t.id = b.tripId ∧
        t.conductorId = u ∧ b.estado = .confirmada) ∧
    ((completarReserva s id u).2 = 200 →
      ∃ b, s.findBookingActivo id = some b ∧
        (completarReserva s id u).1.bookings = s.bookings.map (fun x =>
          if x.id = id then { b with estado := .completada } else x) ∧
        (completarReserva s id u).1.trips = s.trips ∧
        (completarReserva s id u).1.vehicles = s.vehicles) ∧
    ((completarReserva s id u).2 ≠ 200 → (completarReserva s id u).1 = s) := by
  have h := hs.inv
  refine ⟨⟨fun hok => ?_, fun hex => ?_⟩, fun hok => ?_, completarReserva_fail⟩
  · rcases completarReserva_ok hok with ⟨reserva, viaje, hfind, hviaje, hc, hp, _⟩
    have hm := mem_of_findBookingActivo hfind
    have hvm := mem_of_findTripById hviaje
    exact ⟨reserva, hm.1, viaje, hvm.1, hm.2.1, hm.2.2, hvm.2, hc, hp⟩
  · rcases hex with ⟨b, hb, t, ht, hid, hact, htid, hc, hp⟩
    have hfind := findBookingActivo_of_mem h hb hact
    rw [hid] at hfind
    have hviaje := findTripById_eq_of_mem h ht
    rw [htid] at hviaje
    have hv : ({ b with estado := .completada } : Booking).validar = true :=
      h.bookingValido b hb
    simp [completarReserva, hfind, hviaje, hc, hp, saveBooking_isSome hv]
  · rcases completarReserva_ok hok with ⟨reserva, viaje, hfind, hviaje, hc, hp, hres⟩
    have hm := mem_of_findBookingActivo hfind
    refine ⟨reserva, hfind, ?_, ?_, ?_⟩
    · rw [hres]
      change s.bookings.map (fun x =>
        if x.id = reserva.id then { reserva with estado := .completada } else x) = _
      rw [hm.2.1]
    · rw [hres]; rfl
    · rw [hres]; rfl

/-- Witness for C14, second half of scenario 4: the driver completes the confirmed
booking of `ejConfirmada`. -/
theorem completarReserva_spec_witness :
    (completarReserva (run (Store.inicial [ejVehiculo]) ejConfirmada) 1 1).2 = 200 ∧
    (∃ b ∈ (run (Store.inicial [ejVehiculo]) ejConfirmada).bookings,
      ∃ t ∈ (run (Store.inicial [ejVehiculo]) ejConfirmada).trips,
        b.id = 1 ∧ b.activo = true ∧ t.id = b.tripId ∧ t.conductorId = 1 ∧
        b.estado = .confirmada) ∧
    (completarReserva (run (Store.inicial [ejVehiculo]) ejPendiente) 1 1).2 ≠ 200 ∧
    (completarReserva (run (Store.inicial [ejVehiculo]) ejPendiente) 1 1).1
      = run (Store.inicial [ejVehiculo]) ejPendiente :=
  ⟨by decide,
   ((completarReserva_spec (run (Store.inicial [ejVehiculo]) ejConfirmada)
      ⟨[ejVehiculo], ejConfirmada, rfl⟩ 1 1).1).1 (by decide),
   by decide,
   (completarReserva_spec (run (Store.inicial [ejVehiculo]) ejPendiente)
      ⟨[ejVehiculo], ejPendiente, rfl⟩ 1 1).2.2 (by decide)⟩

/-! ## Claims on `cancelarViaje` -/

/-- Shape of a `cancelarViaje` answered 200, on any store. -/
theorem cancelarViaje_ok {s : Store} {id u : Nat} (hok : (cancelarViaje s id u).2 = 200) :
    ∃ viaje, s.findTripDe id u = some viaje ∧
      viaje.estado ≠ .cancelado ∧ viaje.estado ≠ .completado ∧
      cancelarViaje s id u =
        ((s.putTrip { viaje with estado := .cancelado }).cancelarReservasDe id, 200) := by
  cases hfind : s.findTripDe id u with
  | none => simp [cancelarViaje, hfind] at hok
  | some viaje =>
    by_cases he : viaje.estado = .cancelado ∨ viaje.estado = .completado
    · simp [cancelarViaje, hfind, he] at hok
    · rcases saveTrip_cases s { viaje with estado := .cancelado } with hs | ⟨_, _, hs⟩
      · simp [cancelarViaje, hfind, he, hs] at hok
      · refine ⟨viaje, rfl, fun e => he (Or.inl e), fun e => he (Or.inr e), ?_⟩
        simp only [cancelarViaje, hfind, he, hs, if_false]

/-- C15, at scenario 5 of the specification: the state machine is broken by
`cancelarViaje`. With booking 1 `completada` and booking 2 `pendiente` on trip 0
(`ejMixta`), the driver's `cancelarViaje` is answered 200 and the bulk update moves
booking 1 from `completada` to `cancelada`, which is not an edge of the machine. -/
theorem cancelarViaje_rompe_maquina :
    (cancelarViaje (run (Store.inicial [ejVehiculo]) ejMixta) 0 1).2 = 200 ∧
    ¬ MaquinaRespetada (run (Store.inicial [ejVehiculo]) ejMixta)
        (cancelarViaje (run (Store.inicial [ejVehiculo]) ejMixta) 0 1).1 := by
  decide

/-- C16: cascade cancellation. In every reachable state, after a `cancelarViaje` answered
200 the caller's trip is stored with `estado = cancelado` and nothing else changed on it,
every booking of that trip that was `pendiente` or `confirmada` is stored as `cancelada`,
no booking of that trip is `pendiente` or `confirmada`, and the bookings of other trips
are exactly those stored before. -/
theorem cancelarViaje_cascada (s : Store) (hs : Alcanzable s) (id u : Nat)
    (hok : (cancelarViaje s id u).2 = 200) :
    ∃ viaje, s.findTripDe id u = some viaje ∧
      (cancelarViaje s id u).1.findTripById id = some { viaje with estado := .cancelado } ∧
      (cancelarViaje s id u).1.trips = s.trips.map (fun t =>
        if t.id = id then { viaje with estado := .cancelado } else t) ∧
      (∀ b ∈ s.bookings, b.tripId = id → b.estado = .pendiente ∨ b.estado = .confirmada →
        { b with estado := .cancelada } ∈ (cancelarViaje s id u).1.bookings) ∧
      (∀ b ∈ (cancelarViaje s id u).1.bookings, b.tripId = id →
        b.estado ≠ .pendiente ∧ b.estado ≠ .confirmada) ∧
      (∀ b, b.tripId ≠ id → (b ∈ (cancelarViaje s id u).1.bookings ↔ b ∈ s.bookings)) := by
  have h := hs.inv
  rcases cancelarViaje_ok hok with ⟨viaje, hfind, _, _, hres⟩
  have hm := mem_of_findTripDe hfind
  have hbk : (cancelarViaje s id u).1.bookings = s.bookings.map (fun b =>
      if b.tripId = id && b.activo then { b with estado := .cancelada } else b) := by
    rw [hres]; rfl
  have hactivo : ∀ b ∈ s.bookings, b.estado = .pendiente ∨ b.estado = .confirmada →
      b.activo = true := by
    intro b hb hest
    by_contra hna
    have hf : b.activo = false := by simpa using hna
    rcases h.inactiva b hb hf with e | e <;> rcases hest with e2 | e2 <;>
      rw [e] at e2 <;> cases e2
  refine ⟨viaje, hfind, ?_, ?_, ?_, ?_, ?_⟩
  · rw [hres]
    have := find_replace s.trips { viaje with estado := .cancelado } ⟨viaje, hm.1, rfl⟩
    change (s.trips.map (fun x =>
      if x.id = viaje.id then { viaje with estado := .cancelado } else x)).find?
        (fun t => decide (t.id = id)) = _
    rw [hm.2.1] at this ⊢
    exact this
  · rw [hres]
    change s.trips.map (fun x =>
      if x.id = viaje.id then { viaje with estado := .cancelado } else x) = _
    rw [hm.2.1]
  · intro b hb htid hest
    rw [hbk]
    apply List.mem_map.2
    refine ⟨b, hb, ?_⟩
    simp [htid, hactivo b hb hest]
  · intro b' hb' htid
    rw [hbk] at hb'
    rcases List.mem_map.1 hb' with ⟨x, hx, rfl⟩
    by_cases hc : (decide (x.tripId = id) && x.activo) = true
    · rw [if_pos hc]
      exact ⟨fun e => (by cases e), fun e => (by cases e)⟩
    · rw [if_neg hc] at htid ⊢
      have hina : x.activo = false := by
        simp only [Bool.and_eq_true, decide_eq_true_eq, not_and, Bool.not_eq_true] at hc
        exact hc htid
      rcases h.inactiva x hx hina with e | e <;> rw [e] <;> exact ⟨by decide, by decide⟩
  · intro b hne
    rw [hbk]
    constructor
    · intro hb
      rcases List.mem_map.1 hb with ⟨x, hx, hxe⟩
      by_cases hc : (decide (x.tripId = id) && x.activo) = true
      · rw [if_pos hc] at hxe
        simp only [Bool.and_eq_true, decide_eq_true_eq] at hc
        exfalso; apply hne; rw [← hxe]; exact hc.1
      · rw [if_neg hc] at hxe
        rw [← hxe]; exact hx
    · intro hb
      apply List.mem_map.2
      refine ⟨b, hb, ?_⟩
      simp [hne]

/-- Witness for C16 on scenario 5: the trip of `ejMixta` ends `cancelado` and its pending
booking is stored as `cancelada`. -/
theorem cancelarViaje_cascada_witness :
    (cancelarViaje (run (Store.inicial [ejVehiculo]) ejMixta) 0 1).2 = 200 ∧
    ejReservaPendiente ∈ (run (Store.inicial [ejVehiculo]) ejMixta).bookings ∧
    ∃ viaje, (run (Store.inicial [ejVehiculo]) ejMixta).findTripDe 0 1 = some viaje ∧
      (cancelarViaje (run (Store.inicial [ejVehiculo]) ejMixta) 0 1).1.findTripById 0
        = some { viaje with estado := .cancelado } ∧
      (cancelarViaje (run (Store.inicial [ejVehiculo]) ejMixta) 0 1).1.trips
        = (run (Store.inicial [ejVehiculo]) ejMixta).trips.map (fun t =>
          if t.id = 0 then { viaje with estado := .cancelado } else t) ∧
      (∀ b ∈ (run (Store.inicial [ejVehiculo]) ejMixta).bookings, b.tripId = 0 →
        b.estado = .pendiente ∨ b.estado = .confirmada →
        { b with estado := .cancelada } ∈
          (cancelarViaje (run (Store.inicial [ejVehiculo]) ejMixta) 0 1).1.bookings) ∧
      (∀ b ∈ (cancelarViaje (run (Store.inicial [ejVehiculo]) ejMixta) 0 1).1.bookings,
        b.tripId = 0 → b.estado ≠ .pendiente ∧ b.estado ≠ .confirmada) ∧
      (∀ b, b.tripId ≠ 0 →
        (b ∈ (cancelarViaje (run (Store.inicial [ejVehiculo]) ejMixta) 0 1).1.bookings ↔
          b ∈ (run (Store.inicial [ejVehiculo]) ejMixta).bookings)) :=
  ⟨by decide, by decide,
   cancelarViaje_cascada (run (Store.inicial [ejVehiculo]) ejMixta)
     ⟨[ejVehiculo], ejMixta, rfl⟩ 0 1 (by decide)⟩

/-- C17, at scenario 5 of the specification: `cancelarViaje` does not leave the completed
booking untouched. Before the call booking 1 is `completada` and booking 2 `pendiente`;
the call is answered 200 and afterwards both are stored as `cancelada`. -/
theorem cancelarViaje_recancela_completada :
    (run (Store.inicial [ejVehiculo]) ejMixta).bookings
      = [ejReservaCompletada, ejReservaPendiente] ∧
    (cancelarViaje (run (Store.inicial [ejVehiculo]) ejMixta) 0 1).2 = 200 ∧
    (cancelarViaje (run (Store.inicial [ejVehiculo]) ejMixta) 0 1).1.bookings
      = [{ ejReservaCompletada with estado := .cancelada },
         { ejReservaPendiente with estado := .cancelada }] := by
  decide

/-! ## Claims on `eliminarViaje` and `eliminarReserva` -/

theorem reservaActivaDe_iff (b : Booking) (id : Nat) :
    b.reservaActivaDe id = true ↔
      b.tripId = id ∧ b.activo = true ∧ (b.estado = .pendiente ∨ b.estado = .confirmada) := by
  simp [Booking.reservaActivaDe, and_assoc]

/-- C18: in every reachable state, `eliminarViaje` by the driver of an active trip is
refused exactly when some active booking of the trip is `pendiente` or `confirmada`, and a
refusal answers 400 and writes nothing; otherwise it is answered 200, the trip is stored
with `activo = false` and `estado = cancelado` and every other field (seat counters
included) as before, and no other trip, no booking and no vehicle changes. -/
theorem eliminarViaje_spec (s : Store) (hs : Alcanzable s) (id u : Nat) (viaje : Trip)
    (hfind : s.findTripDe id u = some viaje) :
    ((eliminarViaje s id u).2 ≠ 200 ↔
      ∃ b ∈ s.bookings, b.tripId = id ∧ b.activo = true ∧
        (b.estado = .pendiente ∨ b.estado = .confirmada)) ∧
    ((eliminarViaje s id u).2 ≠ 200 → eliminarViaje s id u = (s, 400)) ∧
    ((eliminarViaje s id u).2 = 200 →
      (eliminarViaje s id u).1.findTripById id
        = some { viaje with activo := false, estado := .cancelado } ∧
      (eliminarViaje s id u).1.trips = s.trips.map (fun t =>
        if t.id = id then { viaje with activo := false, estado := .cancelado } else t) ∧
      (eliminarViaje s id u).1.bookings = s.bookings ∧
      (eliminarViaje s id u).1.vehicles = s.vehicles) := by
  have h := hs.inv
  have hm := mem_of_findTripDe hfind
  have hval := h.tripValido viaje hm.1
  have hsave : s.saveTrip { viaje with activo := false, estado := .cancelado }
      = some (s.putTrip { viaje with activo := false, estado := .cancelado }) :=
    saveTrip_isSome hval.1 hval.2
  by_cases hc : s.bookings.countP (fun b => b.reservaActivaDe id) > 0
  · have hres : eliminarViaje s id u = (s, 400) := by
      simp only [eliminarViaje, hfind, hc, if_true]
    have hex : ∃ b ∈ s.bookings, b.tripId = id ∧ b.activo = true ∧
        (b.estado = .pendiente ∨ b.estado = .confirmada) := by
      rcases List.countP_pos_iff.1 hc with ⟨b, hb, hp⟩
      exact ⟨b, hb, (reservaActivaDe_iff b id).1 hp⟩
    refine ⟨⟨fun _ => hex, fun _ => by rw [hres]; simp⟩, fun _ => hres, fun hok => ?_⟩
    rw [hres] at hok; simp at hok
  · have hres : eliminarViaje s id u
        = (s.putTrip { viaje with activo := false, estado := .cancelado }, 200) := by
      simp only [eliminarViaje, hfind, hc, if_false, hsave]
    refine ⟨⟨fun hne => ?_, fun hex => ?_⟩, fun hne => ?_, fun _ => ?_⟩
    · rw [hres] at hne; simp at hne
    · exfalso
      apply hc
      rcases hex with ⟨b, hb, hp⟩
      exact List.countP_pos_iff.2 ⟨b, hb, (reservaActivaDe_iff b id).2 hp⟩
    · rw [hres] at hne; simp at hne
    · rw [hres]
      refine ⟨?_, ?_, rfl, rfl⟩
      · have := find_replace s.trips { viaje with activo := false, estado := .cancelado }
          ⟨viaje, hm.1, rfl⟩
        change (s.trips.map (fun x =>
          if x.id = viaje.id then { viaje with activo := false, estado := .cancelado }
          else x)).find? (fun t => decide (t.id = id)) = _
        rw [hm.2.1] at this ⊢
        exact this
      · change s.trips.map (fun x =>
          if x.id = viaje.id then { viaje with activo := false, estado := .cancelado }
          else x) = _
        rw [hm.2.1]

/-- Witness for C18: with a pending booking (`ejPendiente`) the driver's `eliminarViaje`
is refused with 400; once the booking is cancelled (`ejCancelada`) it is answered 200 and
the trip is stored inactive and `cancelado`. -/
theorem eliminarViaje_spec_witness :
    (run (Store.inicial [ejVehiculo]) ejPendiente).findTripDe 0 1 = some ejViajeUna ∧
    (∃ b ∈ (run (Store.inicial [ejVehiculo]) ejPendiente).bookings,
      b.tripId = 0 ∧ b.activo = true ∧ (b.estado = .pendiente ∨ b.estado = .confirmada)) ∧
    eliminarViaje (run (Store.inicial [ejVehiculo]) ejPendiente) 0 1
      = (run (Store.inicial [ejVehiculo]) ejPendiente, 400) ∧
    (run (Store.inicial [ejVehiculo]) ejCancelada).findTripDe 0 1 = some ejViaje ∧
    (eliminarViaje (run (Store.inicial [ejVehiculo]) ejCancelada) 0 1).2 = 200 ∧
    (eliminarViaje (run (Store.inicial [ejVehiculo]) ejCancelada) 0 1).1.findTripById 0
      = some ejViajeEliminado :=
  ⟨by decide,
   (eliminarViaje_spec (run (Store.inicial [ejVehiculo]) ejPendiente)
      ⟨[ejVehiculo], ejPendiente, rfl⟩ 0 1 ejViajeUna (by decide)).1.1 (by decide),
   (eliminarViaje_spec (run (Store.inicial [ejVehiculo]) ejPendiente)
      ⟨[ejVehiculo], ejPendiente, rfl⟩ 0 1 ejViajeUna (by decide)).2.1 (by decide),
   by decide, by decide,
   ((eliminarViaje_spec (run (Store.inicial [ejVehiculo]) ejCancelada)
      ⟨[ejVehiculo], ejCancelada, rfl⟩ 0 1 ejViaje (by decide)).2.2 (by decide)).1⟩

/-- Shape of an `eliminarReserva` answered 200, on any store. -/
theorem eliminarReserva_ok {s : Store} {id u : Nat}
    (hok : (eliminarReserva s id u).2 = 200) :
    ∃ reserva, s.findBookingDe id u = some reserva ∧ reserva.estado.terminal ∧
      eliminarReserva s id u = (s.putBooking { reserva with activo := false }, 200) := by
  cases hfind : s.findBookingDe id u with
  | none => simp [eliminarReserva, hfind] at hok
  | some reserva =>
    by_cases ht : reserva.estado ≠ .cancelada ∧ reserva.estado ≠ .completada
    · simp [eliminarReserva, hfind, ht] at hok
    · rcases saveBooking_cases s { reserva with activo := false } with hs | ⟨_, hs⟩
      · simp [eliminarReserva, hfind, ht, hs] at hok
      · refine ⟨reserva, rfl, ?_, ?_⟩
        · by_cases e : reserva.estado = .cancelada
          · exact Or.inl e
          · right
            by_contra e2
            exact ht ⟨e, e2⟩
        · simp only [eliminarReserva, hfind, ht, hs, if_false]

/-- An `eliminarReserva` that is not answered 200 writes nothing, on any store. -/
theorem eliminarReserva_fail {s : Store} {id u : Nat}
    (hne : (eliminarReserva s id u).2 ≠ 200) : (eliminarReserva s id u).1 = s := by
  cases hfind : s.findBookingDe id u with
  | none => simp [eliminarReserva, hfind]
  | some reserva =>
    by_cases ht : reserva.estado ≠ .cancelada ∧ reserva.estado ≠ .completada
    · simp [eliminarReserva, hfind, ht]
    · rcases saveBooking_cases s { reserva with activo := false } with hs | ⟨_, hs⟩
      · simp only [eliminarReserva, hfind, ht, hs, if_false]
      · exfalso
        apply hne
        simp only [eliminarReserva, hfind, ht, hs, if_false]

/-- C19: in every reachable state, `eliminarReserva` by the passenger of an active
booking is answered 200 exactly when the booking is `cancelada` or `completada`. On
success the stored booking only changes `activo`, to `false`: its `estado`,
`cuposReservados` and `precioTotal`, every other booking, every trip (seat counters and
`estado` included) and the vehicles are unchanged. A refused request writes nothing. -/
theorem eliminarReserva_spec (s : Store) (hs : Alcanzable s) (id u : Nat) (reserva : Booking)
    (hfind : s.findBookingDe id u = some reserva) :
    ((eliminarReserva s id u).2 = 200 ↔
      reserva.estado = .cancelada ∨ reserva.estado = .completada) ∧
    ((eliminarReserva s id u).2 = 200 →
      (eliminarReserva s id u).1.bookings = s.bookings.map (fun x =>
        if x.id = id then { reserva with activo := false } else x) ∧
      (eliminarReserva s id u).1.trips = s.trips ∧
      (eliminarReserva s id u).1.vehicles = s.vehicles) ∧
    ((eliminarReserva s id u).2 ≠ 200 → (eliminarReserva s id u).1 = s) := by
  have h := hs.inv
  have hm := mem_of_findBookingDe hfind
  refine ⟨⟨fun hok => ?_, fun ht => ?_⟩, fun hok => ?_, eliminarReserva_fail⟩
  · rcases eliminarReserva_ok hok with ⟨r, hf, ht, _⟩
    rw [hfind] at hf; cases hf
    exact ht
  · have hv : ({ reserva with activo := false } : Booking).validar = true :=
      h.bookingValido reserva hm.1
    have hnt : ¬ (reserva.estado ≠ .cancelada ∧ reserva.estado ≠ .completada) := by
      intro hn
      rcases ht with e | e
      · exact hn.1 e
      · exact hn.2 e
    simp only [eliminarReserva, hfind, hnt, if_false, saveBooking_isSome hv]
  · rcases eliminarReserva_ok hok with ⟨r, hf, _, hres⟩
    rw [hfind] at hf; cases hf
    rw [hres]
    refine ⟨?_, rfl, rfl⟩
    change s.bookings.map (fun x =>
      if x.id = reserva.id then { reserva with activo := false } else x) = _
    rw [hm.2.1]

/-- Witness for C19: passenger 2 removes the cancelled booking of `ejCancelada`, and is
refused on the pending booking of `ejPendiente`. -/
theorem eliminarReserva_spec_witness :
    (run (Store.inicial [ejVehiculo]) ejCancelada).findBookingDe 1 2
      = some ejReservaCancelada ∧
    (eliminarReserva (run (Store.inicial [ejVehiculo]) ejCancelada) 1 2).2 = 200 ∧
    (run (Store.inicial [ejVehiculo]) ejPendiente).findBookingDe 1 2 = some ejReservaUna ∧
    (eliminarReserva (run (Store.inicial [ejVehiculo]) ejPendiente) 1 2).1
      = run (Store.inicial [ejVehiculo]) ejPendiente :=
  ⟨by decide,
   (eliminarReserva_spec (run (Store.inicial [ejVehiculo]) ejCancelada)
      ⟨[ejVehiculo], ejCancelada, rfl⟩ 1 2 ejReservaCancelada (by decide)).1.2 (Or.inl rfl),
   by decide,
   (eliminarReserva_spec (run (Store.inicial [ejVehiculo]) ejPendiente)
      ⟨[ejVehiculo], ejPendiente, rfl⟩ 1 2 ejReservaUna (by decide)).2.2 (by decide)⟩

/-! ## Claims on the seat resize of `actualizarViaje` -/

/-- An `actualizarViaje` that is not answered 200 writes nothing, on any store. -/
theorem actualizarViaje_fail {s : Store} {id u : Nat} {body : ActualizarViajeBody}
    {hoy : Int} (hne : (actualizarViaje s id u body hoy).2 ≠ 200) :
    (actualizarViaje s id u body hoy).1 = s := by
  rcases actualizarViaje_cases s id u body hoy with ⟨h0, _⟩ | ⟨_, _, _, _, _, _, _, _, _, hr⟩
  · exact h0
  · rw [hr] at hne; simp at hne

/-- Shape of an `actualizarViaje` answered 200 whose body carries `cuposDisponibles`. -/
theorem actualizarViaje_cupos_ok {s : Store} {id u : Nat} {body : ActualizarViajeBody}
    {hoy : Int} {viaje : Trip} {a : Int} (hfind : s.findTripDe id u = some viaje)
    (hbody : body.cuposDisponibles = some a)
    (hok : (actualizarViaje s id u body hoy).2 = 200) :
    ∃ v1, actualizarViaje s id u body hoy = (s.putTrip v1, 200) ∧ v1.id = viaje.id ∧
      v1.cuposDisponibles = a ∧
      v1.cuposTotales = a + (viaje.cuposTotales - viaje.cuposDisponibles) := by
  have hf := aplicarCampos_frame viaje body
  unfold actualizarViaje at hok ⊢
  rw [hfind] at hok ⊢
  dsimp only at hok ⊢
  split at hok
  · simp at hok
  · rename_i he
    rw [if_neg he]
    rw [hbody] at hok ⊢
    dsimp only at hok ⊢
    split at hok
    · simp at hok
    · rename_i vh hvh
      split at hok
      · simp at hok
      · rename_i hcap
        rw [if_neg hcap]
        rcases guardarEdicion_cases s viaje
            { aplicarCampos viaje body with
              cuposDisponibles := a
              cuposTotales := a + ((aplicarCampos viaje body).cuposTotales -
                (aplicarCampos viaje body).cuposDisponibles) }
            body.estado hoy with hg | ⟨v1, hv1, _, _, hg⟩
        · rw [hg] at hok; simp at hok
        · rw [hg]
          have hfr := aplicarEstado_frame hv1
          refine ⟨v1, rfl, ?_, ?_, ?_⟩
          · rw [hfr]; exact hf.1
          · rw [hfr]
          · rw [hfr]; simp only; rw [hf.2.1, hf.2.2.1]

theorem aplicarCampos_soloCupos (viaje : Trip) (a : Int) :
    aplicarCampos viaje (soloCupos a) = viaje := by
  simp [aplicarCampos, soloCupos, ActualizarViajeBody.vacio, truthyStr, truthyNum]

/-- C20: the seat resize of `actualizarViaje`, in every reachable state, for the driver
of an active trip and a patch with `cuposDisponibles = a`; `booked` is
`cuposTotales - cuposDisponibles` of the stored trip. If `a + booked` exceeds the
`capacidad` of the trip's vehicle the request answers 400 and the store is unchanged.
Whenever the edit is saved, the stored trip has `cuposDisponibles = a` and
`cuposTotales = a + booked`, so the booked seats are the same before and after; an edit
that is not saved writes nothing. And a patch that carries nothing else is saved when the
trip is not `en_curso` or `completado`, `0 ≤ a`, `1 ≤ a + booked` and `a + booked` is
within the capacity. -/
theorem actualizarViaje_resize (s : Store) (hs : Alcanzable s) (id u : Nat)
    (body : ActualizarViajeBody) (hoy : Int) (viaje : Trip) (a : Int)
    (hfind : s.findTripDe id u = some viaje) (hbody : body.cuposDisponibles = some a) :
    (∀ vh, s.vehicles.find? (fun x => x.id = viaje.vehiculoId) = some vh →
      a + (viaje.cuposTotales - viaje.cuposDisponibles) > vh.capacidad →
      actualizarViaje s id u body hoy = (s, 400)) ∧
    ((actualizarViaje s id u body hoy).2 = 200 →
      ∃ v1, (actualizarViaje s id u body hoy).1.findTripById id = some v1 ∧
        (actualizarViaje s id u body hoy).1.trips
          = s.trips.map (fun t => if t.id = id then v1 else t) ∧
        v1.cuposDisponibles = a ∧
        v1.cuposTotales = a + (viaje.cuposTotales - viaje.cuposDisponibles) ∧
        v1.cuposTotales - v1.cuposDisponibles
          = viaje.cuposTotales - viaje.cuposDisponibles) ∧
    ((actualizarViaje s id u body hoy).2 ≠ 200 → (actualizarViaje s id u body hoy).1 = s) ∧
    (body = soloCupos a → viaje.estado ≠ .en_curso → viaje.estado ≠ .completado →
      0 ≤ a → 1 ≤ a + (viaje.cuposTotales - viaje.cuposDisponibles) →
      (∃ vh, s.vehicles.find? (fun x => x.id = viaje.vehiculoId) = some vh ∧
        a + (viaje.cuposTotales - viaje.cuposDisponibles) ≤ vh.capacidad) →
      (actualizarViaje s id u body hoy).2 = 200) := by
  have h := hs.inv
  have hm := mem_of_findTripDe hfind
  have hf := aplicarCampos_frame viaje body
  refine ⟨fun vh hvh hcap => ?_, fun hok => ?_, actualizarViaje_fail, ?_⟩
  · unfold actualizarViaje
    rw [hfind]
    dsimp only
    split
    · rfl
    · rw [hbody]
      dsimp only
      rw [hf.2.2.2.2.2.1, hvh]
      dsimp only
      rw [hf.2.1, hf.2.2.1, if_pos hcap]
  · rcases actualizarViaje_cupos_ok hfind hbody hok with ⟨v1, hres, hid, hcd, hct⟩
    have hid2 : v1.id = id := hid.trans hm.2.1
    refine ⟨v1, ?_, ?_, hcd, hct, ?_⟩
    · rw [hres]
      have := find_replace s.trips v1 ⟨viaje, hm.1, hid.symm⟩
      change (s.trips.map (fun x => if x.id = v1.id then v1 else x)).find?
        (fun t => decide (t.id = id)) = _
      rw [hid2] at this ⊢
      exact this
    · rw [hres]
      change s.trips.map (fun x => if x.id = v1.id then v1 else x) = _
      rw [hid2]
    · rw [hcd, hct]; ring
  · intro hb he1 he2 ha hat hveh
    rcases hveh with ⟨vh, hvh, hcap⟩
    have hval := h.tripValido viaje hm.1
    have hv := hval.1
    simp only [Trip.validar, Bool.and_eq_true, decide_eq_true_eq] at hv
    have hne : ¬ (viaje.estado = .en_curso ∨ viaje.estado = .completado) := by
      intro e; rcases e with e | e
      · exact he1 e
      · exact he2 e
    have hncap : ¬ a + (viaje.cuposTotales - viaje.cuposDisponibles) > vh.capacidad := by
      omega
    have hle : a ≤ a + (viaje.cuposTotales - viaje.cuposDisponibles) := by
      have := hval.2; omega
    subst hb
    unfold actualizarViaje
    rw [hfind]
    dsimp only
    rw [if_neg hne, aplicarCampos_soloCupos]
    have hsc : (soloCupos a).cuposDisponibles = some a := rfl
    rw [hsc]
    dsimp only
    rw [hvh]
    dsimp only
    rw [if_neg hncap]
    have hest : (soloCupos a).estado = none := rfl
    simp only [guardarEdicion, aplicarEstado, hest, truthyStr, Bool.false_eq_true, if_false]
    rw [if_pos]
    simp only [Trip.validar, Trip.preSave, Bool.and_eq_true, decide_eq_true_eq,
      Bool.not_eq_true', Bool.and_eq_false_imp, decide_eq_false_iff_not, not_lt, ne_eq,
      not_true_eq_false, decide_False, Bool.false_and, Bool.not_false, Bool.true_and]
    refine ⟨⟨⟨⟨⟨⟨hv.1.1.1.1.1, hv.1.1.1.1.2⟩, hv.1.1.1.2⟩, ha⟩, hat⟩, hv.2⟩, ?_⟩
    omega

/-- Witness for C20: on the trip of `ejPendiente` (four seats, one booked) a resize to 4
free seats exceeds the capacity of 4 and is refused, and a resize to 2 free seats is saved
with `cuposTotales = 3`. -/
theorem actualizarViaje_resize_witness :
    (run (Store.inicial [ejVehiculo]) ejPendiente).findTripDe 0 1 = some ejViajeUna ∧
    actualizarViaje (run (Store.inicial [ejVehiculo]) ejPendiente) 0 1 (soloCupos 4) 10
      = (run (Store.inicial [ejVehiculo]) ejPendiente, 400) ∧
    (actualizarViaje (run (Store.inicial [ejVehiculo]) ejPendiente) 0 1 (soloCupos 2) 10).2
      = 200 ∧
    ∃ v1, (actualizarViaje (run (Store.inicial [ejVehiculo]) ejPendiente) 0 1 (soloCupos 2)
        10).1.findTripById 0 = some v1 ∧
      (actualizarViaje (run (Store.inicial [ejVehiculo]) ejPendiente) 0 1 (soloCupos 2)
        10).1.trips = (run (Store.inicial [ejVehiculo]) ejPendiente).trips.map
          (fun t => if t.id = 0 then v1 else t) ∧
      v1.cuposDisponibles = 2 ∧
      v1.cuposTotales = 2 + (ejViajeUna.cuposTotales - ejViajeUna.cuposDisponibles) ∧
      v1.cuposTotales - v1.cuposDisponibles
        = ejViajeUna.cuposTotales - ejViajeUna.cuposDisponibles :=
  ⟨by decide,
   (actualizarViaje_resize (run (Store.inicial [ejVehiculo]) ejPendiente)
      ⟨[ejVehiculo], ejPendiente, rfl⟩ 0 1 (soloCupos 4) 10 ejViajeUna 4 (by decide) rfl).1
      ejVehiculo (by decide) (by decide),
   (actualizarViaje_resize (run (Store.inicial [ejVehiculo]) ejPendiente)
      ⟨[ejVehiculo], ejPendiente, rfl⟩ 0 1 (soloCupos 2) 10 ejViajeUna 2 (by decide) rfl).2.2.2
      rfl (by decide) (by decide) (by decide) (by decide) ⟨ejVehiculo, by decide, by decide⟩,
   (actualizarViaje_resize (run (Store.inicial [ejVehiculo]) ejPendiente)
      ⟨[ejVehiculo], ejPendiente, rfl⟩ 0 1 (soloCupos 2) 10 ejViajeUna 2 (by decide) rfl).2.1
      (by decide)⟩

/-! ## The booking state machine, request by request -/

theorem transicion_refl (a : BookingEstado) : BookingEstado.transicion a a = true := by
  cases a <;> rfl

/-- A `cancelarViaje` that is not answered 200 writes nothing, on any store. -/
theorem cancelarViaje_fail {s : Store} {id u : Nat} (hne : (cancelarViaje s id u).2 ≠ 200) :
    (cancelarViaje s id u).1 = s := by
  cases hfind : s.findTripDe id u with
  | none => simp [cancelarViaje, hfind]
  | some viaje =>
    by_cases he : viaje.estado = .cancelado ∨ viaje.estado = .completado
    · simp [cancelarViaje, hfind, he]
    · rcases saveTrip_cases s { viaje with estado := .cancelado } with hs | ⟨_, _, hs⟩
      · simp only [cancelarViaje, hfind, he, hs, if_false]
      · exfalso
        apply hne
        simp only [cancelarViaje, hfind, he, hs, if_false]

theorem bookings_eliminarViaje (s : Store) (id u : Nat) :
    (eliminarViaje s id u).1.bookings = s.bookings := by
  cases hfind : s.findTripDe id u with
  | none => simp [eliminarViaje, hfind]
  | some viaje =>
    by_cases hc : s.bookings.countP (fun b => b.reservaActivaDe id) > 0
    · simp only [eliminarViaje, hfind, hc, if_true]
    · rcases saveTrip_cases s { viaje with activo := false, estado := .cancelado } with
        hs | ⟨_, _, hs⟩
      · simp only [eliminarViaje, hfind, hc, hs, if_false]
      · simp only [eliminarViaje, hfind, hc, hs, if_false]
        rfl

theorem maquina_of_eq {s : Store} (h : Inv s) {bs : List Booking} (he : bs = s.bookings)
    (b : Booking) (hb : b ∈ s.bookings) (b' : Booking) (hb' : b' ∈ bs) (hid : b'.id = b.id) :
    BookingEstado.transicion b.estado b'.estado = true := by
  rw [he] at hb'
  rw [eq_of_key_eq Booking.id s.bookings h.bookingIdNodup b b' hb hb' hid]
  exact transicion_refl _

theorem maquina_of_put {s : Store} (h : Inv s) (r r' : Booking) (hr : r ∈ s.bookings)
    (hrid : r'.id = r.id) (ht : BookingEstado.transicion r.estado r'.estado = true)
    (b : Booking) (hb : b ∈ s.bookings) (b' : Booking) (hb' : b' ∈ (s.putBooking r').bookings)
    (hid : b'.id = b.id) : BookingEstado.transicion b.estado b'.estado = true := by
  rcases mem_replace Booking.id s.bookings r' b' hb' with rfl | ⟨hb'', _⟩
  · have : b = r :=
      eq_of_key_eq Booking.id s.bookings h.bookingIdNodup r b hr hb (hid.symm.trans hrid)
    rw [this]; exact ht
  · rw [eq_of_key_eq Booking.id s.bookings h.bookingIdNodup b b' hb hb'' hid]
    exact transicion_refl _

/-- Where the booking state machine holds: in every reachable state, a request moves the
`estado` of every stored booking along an edge of the machine (or leaves it), except
that `cancelarViaje` also moves `completada` bookings to `cancelada`. -/
theorem maquina_step (s : Store) (hs : Alcanzable s) (op : Op) :
    ∀ b ∈ s.bookings, ∀ b' ∈ (step s op).1.bookings, b'.id = b.id →
      BookingEstado.transicion b.estado b'.estado = true ∨
      ((∃ id u, op = .cancelarViaje id u) ∧ b.estado = .completada ∧
        b'.estado = .cancelada) := by
  have h := hs.inv
  intro b hb b' hb' hid
  cases op with
  | crearViaje u body hoy =>
    left
    change b' ∈ (crearViaje s u body hoy).1.bookings at hb'
    refine maquina_of_eq h ?_ b hb b' hb' hid
    rcases crearViaje_cases s u body hoy with ⟨h0, _⟩ | ⟨_, _, _, _, _, _, _, _, hres⟩
    · rw [h0]
    · rw [hres]
  | actualizarViaje id u body hoy =>
    left
    change b' ∈ (actualizarViaje s id u body hoy).1.bookings at hb'
    refine maquina_of_eq h ?_ b hb b' hb' hid
    rcases actualizarViaje_cases s id u body hoy with
      ⟨h0, _⟩ | ⟨_, _, _, _, _, _, _, _, _, hr⟩
    · rw [h0]
    · rw [hr]; rfl
  | eliminarViaje id u =>
    left
    exact maquina_of_eq h (bookings_eliminarViaje s id u) b hb b' hb' hid
  | cancelarViaje id u =>
    change b' ∈ (cancelarViaje s id u).1.bookings at hb'
    by_cases hok : (cancelarViaje s id u).2 = 200
    · rcases cancelarViaje_ok hok with ⟨viaje, _, _, _, hres⟩
      rw [hres] at hb'
      change b' ∈ s.bookings.map (fun b =>
        if b.tripId = id && b.activo then { b with estado := .cancelada } else b) at hb'
      rcases List.mem_map.1 hb' with ⟨x, hx, rfl⟩
      have hxid : x.id = b.id := by
        rw [← hid]; split <;> rfl
      have hxb : x = b :=
        eq_of_key_eq Booking.id s.bookings h.bookingIdNodup b x hb hx hxid
      subst hxb
      split
      · cases hes : x.estado
        · left; rfl
        · left; rfl
        · left; rfl
        · right; exact ⟨⟨id, u, rfl⟩, rfl, rfl⟩
      · left; exact transicion_refl _
    · left
      refine maquina_of_eq h ?_ b hb b' hb' hid
      rw [cancelarViaje_fail hok]
  | joinTrip id u n pts =>
    left
    change b' ∈ (joinTrip s id u n pts).1.bookings at hb'
    rcases joinTrip_cases_inv h id u n pts with ⟨h0, _⟩ |
      ⟨_, b1, _, _, _, _, _, _, _, _, hb1, _, hres⟩
    · refine maquina_of_eq h ?_ b hb b' hb' hid
      rw [h0]
    · rw [hres] at hb'
      change b' ∈ s.bookings ++ [b1] at hb'
      rcases preSaveNuevo_some hb1 with ⟨_, _, hb1e⟩
      simp only [List.mem_append, List.mem_singleton] at hb'
      rcases hb' with hb' | rfl
      · exact maquina_of_eq h rfl b hb b' hb' hid
      · exfalso
        have h1 : b'.id = s.nextId := by rw [hb1e]; rfl
        have h2 := h.bookingIdLt b hb
        omega
  | cancelarReserva id u =>
    left
    change b' ∈ (cancelarReserva s id u).1.bookings at hb'
    rcases cancelarReserva_cases_inv h id u with ⟨h0, _⟩ | ⟨reserva, _, hfind, hest, _, hres⟩
    · refine maquina_of_eq h ?_ b hb b' hb' hid
      rw [h0]
    · rw [hres] at hb'
      refine maquina_of_put h reserva { reserva with estado := .cancelada }
        (mem_of_findBookingDe hfind).1 rfl ?_ b hb b' hb' hid
      rcases hest with e | e <;> rw [e] <;> rfl
  | confirmarReserva id u =>
    left
    change b' ∈ (confirmarReserva s id u).1.bookings at hb'
    by_cases hok : (confirmarReserva s id u).2 = 200
    · rcases confirmarReserva_ok hok with ⟨reserva, _, hfind, _, _, hp, hres⟩
      rw [hres] at hb'
      refine maquina_of_put h reserva { reserva with estado := .confirmada }
        (mem_of_findBookingActivo hfind).1 rfl ?_ b hb b' hb' hid
      rw [hp]; rfl
    · refine maquina_of_eq h ?_ b hb b' hb' hid
      rw [confirmarReserva_fail hok]
  | completarReserva id u =>
    left
    change b' ∈ (completarReserva s id u).1.bookings at hb'
    by_cases hok : (completarReserva s id u).2 = 200
    · rcases completarReserva_ok hok with ⟨reserva, _, hfind, _, _, hp, hres⟩
      rw [hres] at hb'
      refine maquina_of_put h reserva { reserva with estado := .completada }
        (mem_of_findBookingActivo hfind).1 rfl ?_ b hb b' hb' hid
      rw [hp]; rfl
    · refine maquina_of_eq h ?_ b hb b' hb' hid
      rw [completarReserva_fail hok]
  | eliminarReserva id u =>
    left
    change b' ∈ (eliminarReserva s id u).1.bookings at hb'
    by_cases hok : (eliminarReserva s id u).2 = 200
    · rcases eliminarReserva_ok hok with ⟨reserva, hfind, _, hres⟩
      rw [hres] at hb'
      refine maquina_of_put h reserva { reserva with activo := false }
        (mem_of_findBookingDe hfind).1 rfl ?_ b hb b' hb' hid
      exact transicion_refl _
    · refine maquina_of_eq h ?_ b hb b' hb' hid
      rw [eliminarReserva_fail hok]

/-! ## Claims on ownership and on the edit guard of `actualizarViaje` -/

theorem findTripDe_of_mem {s : Store} (h : Inv s) {t : Trip} (ht : t ∈ s.trips) (u : Nat) :
    s.findTripDe t.id u = if t.conductorId = u ∧ t.activo = true then some t else none := by
  cases hfind : s.findTripDe t.id u with
  | none =>
    unfold Store.findTripDe at hfind
    have := List.find?_eq_none.1 hfind t ht
    simp only [decide_True, Bool.true_and, Bool.and_eq_true, decide_eq_true_eq] at this
    rw [if_neg this]
  | some x =>
    have hm := mem_of_findTripDe hfind
    have hx : x = t := eq_of_key_eq Trip.id s.trips h.tripIdNodup t x ht hm.1 hm.2.1
    subst hx
    rw [if_pos ⟨hm.2.2.1, hm.2.2.2⟩]

/-- C24: trip ownership. In every reachable state, for every stored trip and every
requester other than its `conductorId`, `actualizarViaje`, `cancelarViaje` and
`eliminarViaje` answer 404 and return the store unchanged, the trip and its bookings
included. -/
theorem solo_el_conductor (s : Store) (hs : Alcanzable s) (t : Trip) (ht : t ∈ s.trips)
    (u : Nat) (hu : u ≠ t.conductorId) (body : ActualizarViajeBody) (hoy : Int) :
    actualizarViaje s t.id u body hoy = (s, 404) ∧
    cancelarViaje s t.id u = (s, 404) ∧
    eliminarViaje s t.id u = (s, 404) := by
  have hnone : s.findTripDe t.id u = none := by
    rw [findTripDe_of_mem hs.inv ht u, if_neg]
    intro hc
    exact hu hc.1.symm
  refine ⟨?_, ?_, ?_⟩
  · simp only [actualizarViaje, hnone]
  · simp only [cancelarViaje, hnone]
  · simp only [eliminarViaje, hnone]

/-- Witness for C24: passenger 2 cannot edit, cancel or remove the trip of driver 1. -/
theorem solo_el_conductor_witness :
    ejViajeUna ∈ (run (Store.inicial [ejVehiculo]) ejPendiente).trips ∧
    actualizarViaje (run (Store.inicial [ejVehiculo]) ejPendiente) 0 2 ejParche 10
      = (run (Store.inicial [ejVehiculo]) ejPendiente, 404) ∧
    cancelarViaje (run (Store.inicial [ejVehiculo]) ejPendiente) 0 2
      = (run (Store.inicial [ejVehiculo]) ejPendiente, 404) ∧
    eliminarViaje (run (Store.inicial [ejVehiculo]) ejPendiente) 0 2
      = (run (Store.inicial [ejVehiculo]) ejPendiente, 404) :=
  ⟨by decide,
   solo_el_conductor (run (Store.inicial [ejVehiculo]) ejPendiente)
     ⟨[ejVehiculo], ejPendiente, rfl⟩ ejViajeUna (by decide) 2 (by decide) ejParche 10⟩

/-- C26: in every reachable state, `actualizarViaje` on a stored trip whose `estado` is
`en_curso` or `completado` is refused and returns the store unchanged, whatever the patch
and whoever asks; for the driver of the trip, when it is active, the answer is 400. -/
theorem actualizarViaje_bloqueado (s : Store) (hs : Alcanzable s) (t : Trip)
    (ht : t ∈ s.trips) (he : t.estado = .en_curso ∨ t.estado = .completado) (u : Nat)
    (body : ActualizarViajeBody) (hoy : Int) :
    (actualizarViaje s t.id u body hoy).1 = s ∧
    (actualizarViaje s t.id u body hoy).2 ≠ 200 ∧
    (t.conductorId = u → t.activo = true →
      actualizarViaje s t.id u body hoy = (s, 400)) := by
  have hfind := findTripDe_of_mem hs.inv ht u
  by_cases hc : t.conductorId = u ∧ t.activo = true
  · rw [if_pos hc] at hfind
    have hres : actualizarViaje s t.id u body hoy = (s, 400) := by
      simp only [actualizarViaje, hfind, he, if_true]
    rw [hres]
    exact ⟨rfl, by simp, fun _ _ => rfl⟩
  · rw [if_neg hc] at hfind
    have hres : actualizarViaje s t.id u body hoy = (s, 404) := by
      simp only [actualizarViaje, hfind]
    rw [hres]
    exact ⟨rfl, by simp, fun h1 h2 => absurd ⟨h1, h2⟩ hc⟩

/-- Witness for C26: the driver's patch on the completed trip of `ejCompletado` is
refused with 400. -/
theorem actualizarViaje_bloqueado_witness :
    ejViajeCompletado ∈ (run (Store.inicial [ejVehiculo]) ejCompletado).trips ∧
    (actualizarViaje (run (Store.inicial [ejVehiculo]) ejCompletado) 0 1 ejParche 10).1
      = run (Store.inicial [ejVehiculo]) ejCompletado ∧
    (actualizarViaje (run (Store.inicial [ejVehiculo]) ejCompletado) 0 1 ejParche 10).2
      ≠ 200 ∧
    actualizarViaje (run (Store.inicial [ejVehiculo]) ejCompletado) 0 1 ejParche 10
      = (run (Store.inicial [ejVehiculo]) ejCompletado, 400) :=
  ⟨by decide,
   (actualizarViaje_bloqueado (run (Store.inicial [ejVehiculo]) ejCompletado)
     ⟨[ejVehiculo], ejCompletado, rfl⟩ ejViajeCompletado (by decide) (Or.inr rfl) 1
     ejParche 10).1,
   (actualizarViaje_bloqueado (run (Store.inicial [ejVehiculo]) ejCompletado)
     ⟨[ejVehiculo], ejCompletado, rfl⟩ ejViajeCompletado (by decide) (Or.inr rfl) 1
     ejParche 10).2.1,
   (actualizarViaje_bloqueado (run (Store.inicial [ejVehiculo]) ejCompletado)
     ⟨[ejVehiculo], ejCompletado, rfl⟩ ejViajeCompletado (by decide) (Or.inr rfl) 1
     ejParche 10).2.2 rfl rfl⟩

/-! ## Claims on overbooking and on deactivated bookings -/

theorem activo_of_en_curso {s : Store} (h : Inv s) {b : Booking} (hb : b ∈ s.bookings)
    (hest : b.estado = .pendiente ∨ b.estado = .confirmada) : b.activo = true := by
  by_contra hna
  have hf : b.activo = false := by simpa using hna
  rcases h.inactiva b hb hf with e | e <;> rcases hest with e2 | e2 <;>
    rw [e] at e2 <;> cases e2

theorem cuposEnCurso_eq {s : Store} (h : Inv s) (tid : Nat) :
    cuposEnCurso s.bookings tid = cuposRetenidos s.bookings tid := by
  unfold cuposEnCurso cuposRetenidos
  congr 2
  apply List.filter_congr
  intro b hb
  unfold Booking.reservaActivaDe
  by_cases hest : b.estado = .pendiente ∨ b.estado = .confirmada
  · have := activo_of_en_curso h hb hest
    simp [this]
  · have h1 : ¬ b.estado = .pendiente := fun e => hest (Or.inl e)
    have h2 : ¬ b.estado = .confirmada := fun e => hest (Or.inr e)
    simp [h1, h2]

/-- C28: no overbooking. In every state reachable by requests handled one at a time, for
every trip the sum of `cuposReservados` over its bookings in `pendiente` or `confirmada`
is at most `cuposTotales - cuposDisponibles`. -/
theorem sin_sobreventa (s : Store) (hs : Alcanzable s) :
    ∀ t ∈ s.trips, cuposEnCurso s.bookings t.id ≤ t.cuposTotales - t.cuposDisponibles := by
  intro t ht
  have h := hs.inv
  rw [cuposEnCurso_eq h]
  have := h.cupos t ht
  omega

/-- Witness for C28: on the full trip of `ejLleno` the bookings hold all four seats. -/
theorem sin_sobreventa_witness :
    ejViajeLleno ∈ (run (Store.inicial [ejVehiculo]) ejLleno).trips ∧
    cuposEnCurso (run (Store.inicial [ejVehiculo]) ejLleno).bookings ejViajeLleno.id = 4 ∧
    cuposEnCurso (run (Store.inicial [ejVehiculo]) ejLleno).bookings ejViajeLleno.id
      ≤ ejViajeLleno.cuposTotales - ejViajeLleno.cuposDisponibles :=
  ⟨by decide, by decide,
   sin_sobreventa (run (Store.inicial [ejVehiculo]) ejLleno) ⟨[ejVehiculo], ejLleno, rfl⟩
     ejViajeLleno (by decide)⟩

theorem mem_putBooking_of_inactiva {s : Store} (h : Inv s) (r r' : Booking)
    (hr : r ∈ s.bookings) (hract : r.activo = true) (hid : r'.id = r.id) (b : Booking)
    (hb : b ∈ s.bookings) (hina : b.activo = false) : b ∈ (s.putBooking r').bookings := by
  have hne : ¬ b.id = r'.id := by
    intro e
    have : b = r := eq_of_key_eq Booking.id s.bookings h.bookingIdNodup r b hr hb (e.trans hid)
    rw [this, hract] at hina
    cases hina
  apply List.mem_map.2
  exact ⟨b, hb, if_neg hne⟩

/-- C29: in every reachable state, every booking with `activo = false` is `cancelada` or
`completada`, and every request leaves every such booking stored exactly as it was. -/
theorem reserva_inactiva (s : Store) (hs : Alcanzable s) :
    (∀ b ∈ s.bookings, b.activo = false →
      b.estado = .cancelada ∨ b.estado = .completada) ∧
    (∀ op : Op, ∀ b ∈ s.bookings, b.activo = false →
      b ∈ (step s op).1.bookings ∧
      ∀ b' ∈ (step s op).1.bookings, b'.id = b.id → b' = b) := by
  have h := hs.inv
  refine ⟨h.inactiva, fun op b hb hina => ?_⟩
  have hmem : b ∈ (step s op).1.bookings := by
    cases op with
    | crearViaje u body hoy =>
      change b ∈ (crearViaje s u body hoy).1.bookings
      rcases crearViaje_cases s u body hoy with ⟨h0, _⟩ | ⟨_, _, _, _, _, _, _, _, hres⟩
      · rw [h0]; exact hb
      · rw [hres]; exact hb
    | actualizarViaje id u body hoy =>
      change b ∈ (actualizarViaje s id u body hoy).1.bookings
      rcases actualizarViaje_cases s id u body hoy with
        ⟨h0, _⟩ | ⟨_, _, _, _, _, _, _, _, _, hr⟩
      · rw [h0]; exact hb
      · rw [hr]; exact hb
    | eliminarViaje id u =>
      change b ∈ (eliminarViaje s id u).1.bookings
      rw [bookings_eliminarViaje]; exact hb
    | cancelarViaje id u =>
      change b ∈ (cancelarViaje s id u).1.bookings
      by_cases hok : (cancelarViaje s id u).2 = 200
      · rcases cancelarViaje_ok hok with ⟨viaje, _, _, _, hres⟩
        rw [hres]
        change b ∈ s.bookings.map (fun b =>
          if b.tripId = id && b.activo then { b with estado := .cancelada } else b)
        apply List.mem_map.2
        refine ⟨b, hb, ?_⟩
        simp [hina]
      · rw [cancelarViaje_fail hok]; exact hb
    | joinTrip id u n pts =>
      change b ∈ (joinTrip s id u n pts).1.bookings
      rcases joinTrip_cases_inv h id u n pts with ⟨h0, _⟩ |
        ⟨_, b1, _, _, _, _, _, _, _, _, _, _, hres⟩
      · rw [h0]; exact hb
      · rw [hres]
        change b ∈ s.bookings ++ [b1]
        exact List.mem_append_left _ hb
    | cancelarReserva id u =>
      change b ∈ (cancelarReserva s id u).1.bookings
      rcases cancelarReserva_cases_inv h id u with ⟨h0, _⟩ | ⟨reserva, _, hfind, _, _, hres⟩
      · rw [h0]; exact hb
      · rw [hres]
        have hm := mem_of_findBookingDe hfind
        exact mem_putBooking_of_inactiva h reserva { reserva with estado := .cancelada }
          hm.1 hm.2.2.2 rfl b hb hina
    | confirmarReserva id u =>
      change b ∈ (confirmarReserva s id u).1.bookings
      by_cases hok : (confirmarReserva s id u).2 = 200
      · rcases confirmarReserva_ok hok with ⟨reserva, _, hfind, _, _, _, hres⟩
        rw [hres]
        have hm := mem_of_findBookingActivo hfind
        exact mem_putBooking_of_inactiva h reserva { reserva with estado := .confirmada }
          hm.1 hm.2.2 rfl b hb hina
      · rw [confirmarReserva_fail hok]; exact hb
    | completarReserva id u =>
      change b ∈ (completarReserva s id u).1.bookings
      by_cases hok : (completarReserva s id u).2 = 200
      · rcases completarReserva_ok hok with ⟨reserva, _, hfind, _, _, _, hres⟩
        rw [hres]
        have hm := mem_of_findBookingActivo hfind
        exact mem_putBooking_of_inactiva h reserva { reserva with estado := .completada }
          hm.1 hm.2.2 rfl b hb hina
      · rw [completarReserva_fail hok]; exact hb
    | eliminarReserva id u =>
      change b ∈ (eliminarReserva s id u).1.bookings
      by_cases hok : (eliminarReserva s id u).2 = 200
      · rcases eliminarReserva_ok hok with ⟨reserva, hfind, _, hres⟩
        rw [hres]
        have hm := mem_of_findBookingDe hfind
        exact mem_putBooking_of_inactiva h reserva { reserva with activo := false }
          hm.1 hm.2.2.2 rfl b hb hina
      · rw [eliminarReserva_fail hok]; exact hb
  refine ⟨hmem, fun b' hb' hid => ?_⟩
  exact eq_of_key_eq Booking.id _ (inv_step h op).bookingIdNodup b b' hmem hb' hid

/-- Witness for C29: the removed booking of `ejEliminada` is `completada`, and a
`cancelarViaje` of its trip leaves it as it is. -/
theorem reserva_inactiva_witness :
    ejReservaFinal ∈ (run (Store.inicial [ejVehiculo]) ejEliminada).bookings ∧
    (ejReservaFinal.estado = .cancelada ∨ ejReservaFinal.estado = .completada) ∧
    ejReservaFinal ∈
      (step (run (Store.inicial [ejVehiculo]) ejEliminada) (.cancelarViaje 0 1)).1.bookings :=
  ⟨by decide,
   (reserva_inactiva (run (Store.inicial [ejVehiculo]) ejEliminada)
     ⟨[ejVehiculo], ejEliminada, rfl⟩).1 ejReservaFinal (by decide) rfl,
   ((reserva_inactiva (run (Store.inicial [ejVehiculo]) ejEliminada)
     ⟨[ejVehiculo], ejEliminada, rfl⟩).2 (.cancelarViaje 0 1) ejReservaFinal (by decide)
     rfl).1⟩

/-! ## Claims on `crearViaje` -/

/-- Shape of the result of `crearViaje` for a driver with an active vehicle: nothing is
written, or one trip is appended whose seats and `estado` are read from the body. -/
theorem crearViaje_shape (s : Store) (u : Nat) (body : CrearViajeBody) (hoy : Int)
    (vh : Vehicle)
    (hvh : s.vehicles.find? (fun v => v.conductorId = u && v.activo) = some vh) :
    ((crearViaje s u body hoy).1 = s ∧ (crearViaje s u body hoy).2 ≠ 201) ∨
    ∃ nv : Trip, nv.validar = true ∧
      nv.cuposDisponibles = body.cuposPedidos.getD vh.capacidad ∧
      nv.cuposTotales = body.cuposPedidos.getD vh.capacidad ∧
      body.cuposPedidos.getD vh.capacidad ≤ vh.capacidad ∧
      TripEstado.ofString? body.estadoTexto = some nv.estado ∧
      crearViaje s u body hoy =
        ({ s with trips := s.trips ++ [nv], nextId := s.nextId + 1 }, 201) := by
  have hc : (match orNum body.asientosDisponibles body.cuposDisponibles with
      | some n => if n ≠ 0 then n else vh.capacidad
      | none => vh.capacidad) = body.cuposPedidos.getD vh.capacidad := by
    unfold CrearViajeBody.cuposPedidos
    split
    · split <;> rfl
    · rfl
  unfold crearViaje
  rw [hvh]
  dsimp only
  rw [hc]
  split
  · exact Or.inl ⟨rfl, by simp⟩
  · split
    · exact Or.inl ⟨rfl, by simp⟩
    · rename_i hcap
      split
      · exact Or.inl ⟨rfl, by simp⟩
      · rename_i estado hestado
        split
        · rename_i hok
          simp only [Bool.and_eq_true] at hok
          refine Or.inr ⟨_, hok.1, rfl, rfl, ?_, ?_, rfl⟩
          · omega
          · exact hestado
        · exact Or.inl ⟨rfl, by simp⟩

/-- C22, as stated, fails when the seat count supplied is 0: the body `ejCrearCero`
supplies `asientosDisponibles = 0`, the request is answered 201, and the stored trip has
the four seats of the vehicle, not the 0 requested. -/
theorem crearViaje_cero_cupos :
    ejCrearCero.cuposSuministrados = some 0 ∧
    crearViaje (Store.inicial [ejVehiculo]) 1 ejCrearCero 10
      = ({ Store.inicial [ejVehiculo] with trips := [ejViaje], nextId := 1 }, 201) ∧
    ejViaje.cuposTotales ≠ 0 := by
  decide

/-- C22, amended: for a driver whose active vehicle has capacity `c`, on any store, the
trip appended by a `crearViaje` answered 201 has `cuposTotales = cuposDisponibles`, both
equal to the seat count of the body when a non-zero one is supplied and to `c` when none
or 0 is supplied, with `1 ≤ cuposTotales ≤ c`; and a request whose seat count exceeds `c`
answers 400 and stores nothing. -/
theorem crearViaje_cupos (s : Store) (u : Nat) (body : CrearViajeBody) (hoy : Int)
    (vh : Vehicle)
    (hvh : s.vehicles.find? (fun v => v.conductorId = u && v.activo) = some vh) :
    ((crearViaje s u body hoy).2 = 201 →
      ∃ nv : Trip, (crearViaje s u body hoy).1.trips = s.trips ++ [nv] ∧
        (crearViaje s u body hoy).1.bookings = s.bookings ∧
        nv.cuposTotales = nv.cuposDisponibles ∧
        nv.cuposTotales = body.cuposPedidos.getD vh.capacidad ∧
        1 ≤ nv.cuposTotales ∧ nv.cuposTotales ≤ vh.capacidad) ∧
    (∀ n, body.cuposPedidos = some n → n > vh.capacidad →
      crearViaje s u body hoy = (s, 400)) := by
  constructor
  · intro hok
    rcases crearViaje_shape s u body hoy vh hvh with ⟨_, hne⟩ | ⟨nv, hv, hcd, hct, hle, _, hres⟩
    · exact absurd hok hne
    · rw [hres]
      simp only [Trip.validar, Bool.and_eq_true, decide_eq_true_eq] at hv
      exact ⟨nv, rfl, rfl, by rw [hcd, hct], hct, hv.1.2, by rw [hct]; exact hle⟩
  · intro n hn hgt
    have hc : (match orNum body.asientosDisponibles body.cuposDisponibles with
        | some n => if n ≠ 0 then n else vh.capacidad
        | none => vh.capacidad) = n := by
      unfold CrearViajeBody.cuposPedidos at hn
      split at hn
      · rename_i m hm
        split at hn
        · rename_i hm0
          cases hn
          rw [if_pos hm0]
        · cases hn
      · cases hn
    unfold crearViaje
    rw [hvh]
    dsimp only
    rw [hc]
    split
    · rfl
    · rfl

/-- Witness for C22: with the four-seat vehicle, a request for two seats stores a trip
with two seats, a request without a seat count stores four, and a request for five is
refused with 400. -/
theorem crearViaje_cupos_witness :
    (crearViaje (Store.inicial [ejVehiculo]) 1 ejCrearDos 10).2 = 201 ∧
    (crearViaje (Store.inicial [ejVehiculo]) 1 ejCrearDos 10).1.trips = [ejViajeDos] ∧
    (crearViaje (Store.inicial [ejVehiculo]) 1 ejCrear 10).1.trips = [ejViaje] ∧
    (∃ nv : Trip, (crearViaje (Store.inicial [ejVehiculo]) 1 ejCrearDos 10).1.trips
        = (Store.inicial [ejVehiculo]).trips ++ [nv] ∧
      (crearViaje (Store.inicial [ejVehiculo]) 1 ejCrearDos 10).1.bookings
        = (Store.inicial [ejVehiculo]).bookings ∧
      nv.cuposTotales = nv.cuposDisponibles ∧
      nv.cuposTotales = ejCrearDos.cuposPedidos.getD ejVehiculo.capacidad ∧
      1 ≤ nv.cuposTotales ∧ nv.cuposTotales ≤ ejVehiculo.capacidad) ∧
    crearViaje (Store.inicial [ejVehiculo]) 1 ejCrearCinco 10
      = (Store.inicial [ejVehiculo], 400) :=
  ⟨by decide, by decide, by decide,
   (crearViaje_cupos (Store.inicial [ejVehiculo]) 1 ejCrearDos 10 ejVehiculo
     (by decide)).1 (by decide),
   (crearViaje_cupos (Store.inicial [ejVehiculo]) 1 ejCrearCinco 10 ejVehiculo
     (by decide)).2 5 (by decide) (by decide)⟩

/-- C23, as stated, fails: `crearViaje` with `estado: 'lleno'` in the body is answered 201
and stores the trip in `lleno`. -/
theorem crearViaje_estado_del_cuerpo :
    (step (Store.inicial [ejVehiculo]) (.crearViaje 1
      { ejCrear with estado := some "lleno" } 10)).2 = 201 ∧
    (run (Store.inicial [ejVehiculo]) ejCrearLleno).trips = [ejViajeCreadoLleno] ∧
    ejViajeCreadoLleno.estado ≠ .disponible := by
  decide

/-- C23, amended: on any store, the trip appended by a `crearViaje` answered 201 has the
`estado` named by the body: `disponible` when the body has no `estado`, an empty one,
`'activo'` or `'disponible'`, and otherwise the enum value spelled by the body's `estado`
(one of `lleno`, `en_curso`, `completado`, `cancelado`). -/
theorem crearViaje_estado (s : Store) (u : Nat) (body : CrearViajeBody) (hoy : Int)
    (hok : (crearViaje s u body hoy).2 = 201) :
    ∃ nv : Trip, (crearViaje s u body hoy).1.trips = s.trips ++ [nv] ∧
      TripEstado.ofString? body.estadoTexto = some nv.estado ∧
      (body.estado = none ∨ body.estado = some "" ∨ body.estado = some "activo" ∨
        body.estado = some "disponible" → nv.estado = .disponible) ∧
      (∀ e, body.estado = some e → e ≠ "" → e ≠ "activo" →
        TripEstado.ofString? e = some nv.estado) := by
  cases hvh : s.vehicles.find? (fun v => v.conductorId = u && v.activo) with
  | none => simp [crearViaje, hvh] at hok
  | some vh =>
    rcases crearViaje_shape s u body hoy vh hvh with ⟨_, hne⟩ | ⟨nv, _, _, _, _, hes, hres⟩
    · exact absurd hok hne
    · rw [hres]
      refine ⟨nv, rfl, hes, ?_, ?_⟩
      · have h0 : TripEstado.ofString? "disponible" = some .disponible := by decide
        intro hb
        have ht : body.estadoTexto = "disponible" := by
          rcases hb with e | e | e | e <;>
            simp [CrearViajeBody.estadoTexto, e, orStr, truthyStr]
        rw [ht, h0] at hes
        exact (Option.some.inj hes).symm
      · intro e he hne1 hne2
        have ht : body.estadoTexto = e := by
          simp [CrearViajeBody.estadoTexto, he, orStr, truthyStr, hne1, hne2]
        rw [ht] at hes
        exact hes

/-- Witness for C23: the trip of `ejCrear`, whose body has no `estado`, is stored in
`disponible`. -/
theorem crearViaje_estado_witness :
    (crearViaje (Store.inicial [ejVehiculo]) 1 ejCrear 10).2 = 201 ∧
    (crearViaje (Store.inicial [ejVehiculo]) 1 ejCrear 10).1.trips = [ejViaje] ∧
    ∃ nv : Trip, (crearViaje (Store.inicial [ejVehiculo]) 1 ejCrear 10).1.trips
        = (Store.inicial [ejVehiculo]).trips ++ [nv] ∧
      TripEstado.ofString? ejCrear.estadoTexto = some nv.estado ∧
      (ejCrear.estado = none ∨ ejCrear.estado = some "" ∨ ejCrear.estado = some "activo" ∨
        ejCrear.estado = some "disponible" → nv.estado = .disponible) ∧
      (∀ e, ejCrear.estado = some e → e ≠ "" → e ≠ "activo" →
        TripEstado.ofString? e = some nv.estado) :=
  ⟨by decide, by decide,
   crearViaje_estado (Store.inicial [ejVehiculo]) 1 ejCrear 10 (by decide)⟩

/-! ## Claims on trips in `cancelado` -/

theorem ofString_cancelado {e : String} (h : TripEstado.ofString? e = some .cancelado) :
    e = "cancelado" := by
  unfold TripEstado.ofString? at h
  split at h <;> first | rfl | cases h

theorem aplicarEstado_estado {v v1 : Trip} {e : Option String}
    (h : aplicarEstado v e = some v1) :
    v1.estado = v.estado ∨ ∃ x, e = some x ∧ TripEstado.ofString? x = some v1.estado := by
  unfold aplicarEstado at h
  split at h
  · split at h
    · rename_i x hx
      cases h
      cases e with
      | none => simp [truthyStr] at *
      | some y => exact Or.inr ⟨y, rfl, hx⟩
    · cases h
  · cases h
    exact Or.inl rfl

/-- Shape of an `actualizarViaje` answered 200, on any store: the caller's trip was not
`en_curso` or `completado`, and the stored `estado` is the old one or the one spelled by
the body. -/
theorem actualizarViaje_estado {s : Store} {id u : Nat} {body : ActualizarViajeBody}
    {hoy : Int} (hok : (actualizarViaje s id u body hoy).2 = 200) :
    ∃ viaje v1, s.findTripDe id u = some viaje ∧
      viaje.estado ≠ .en_curso ∧ viaje.estado ≠ .completado ∧ v1.id = viaje.id ∧
      (v1.estado = viaje.estado ∨
        ∃ x, body.estado = some x ∧ TripEstado.ofString? x = some v1.estado) ∧
      actualizarViaje s id u body hoy = (s.putTrip v1, 200) := by
  cases hfind : s.findTripDe id u with
  | none => simp [actualizarViaje, hfind] at hok
  | some viaje =>
    have hf := aplicarCampos_frame viaje body
    by_cases he : viaje.estado = .en_curso ∨ viaje.estado = .completado
    · simp [actualizarViaje, hfind, he] at hok
    · have he1 : viaje.estado ≠ .en_curso := fun e => he (Or.inl e)
      have he2 : viaje.estado ≠ .completado := fun e => he (Or.inr e)
      cases hcd : body.cuposDisponibles with
      | none =>
        have hres : actualizarViaje s id u body hoy
            = guardarEdicion s viaje (aplicarCampos viaje body) body.estado hoy := by
          simp only [actualizarViaje, hfind, he, hcd, if_false]
        rcases guardarEdicion_cases s viaje (aplicarCampos viaje body) body.estado hoy with
          hg | ⟨v1, hv1, _, _, hg⟩
        · rw [hres, hg] at hok; simp at hok
        · refine ⟨viaje, v1, rfl, he1, he2, ?_, ?_, by rw [hres, hg]⟩
          · rw [aplicarEstado_frame hv1]; exact hf.1
          · rcases aplicarEstado_estado hv1 with e | e
            · left; rw [e]; exact hf.2.2.2.1
            · right; exact e
      | some a =>
        cases hvh : s.vehicles.find? (fun x => x.id = (aplicarCampos viaje body).vehiculoId) with
        | none => simp [actualizarViaje, hfind, he, hcd, hvh] at hok
        | some vh =>
          by_cases hcap : a + ((aplicarCampos viaje body).cuposTotales -
              (aplicarCampos viaje body).cuposDisponibles) > vh.capacidad
          · simp [actualizarViaje, hfind, he, hcd, hvh, hcap] at hok
          · have hres : actualizarViaje s id u body hoy
                = guardarEdicion s viaje
                    { aplicarCampos viaje body with
                      cuposDisponibles := a
                      cuposTotales := a + ((aplicarCampos viaje body).cuposTotales -
                        (aplicarCampos viaje body).cuposDisponibles) }
                    body.estado hoy := by
              simp only [actualizarViaje, hfind, he, hcd, hvh, hcap, if_false]
            rcases guardarEdicion_cases s viaje
                { aplicarCampos viaje body with
                  cuposDisponibles := a
                  cuposTotales := a + ((aplicarCampos viaje body).cuposTotales -
                    (aplicarCampos viaje body).cuposDisponibles) }
                body.estado hoy with hg | ⟨v1, hv1, _, _, hg⟩
            · rw [hres, hg] at hok; simp at hok
            · refine ⟨viaje, v1, rfl, he1, he2, ?_, ?_, by rw [hres, hg]⟩
              · rw [aplicarEstado_frame hv1]; exact hf.1
              · rcases aplicarEstado_estado hv1 with e | e
                · left; rw [e]; exact hf.2.2.2.1
                · right; exact e

theorem sinReservas_putTrip {s : Store} {t' : Trip} (h : CanceladoSinReservas s)
    (ht : t'.estado = .cancelado → ∀ b ∈ s.bookings, b.reservaActivaDe t'.id = false) :
    CanceladoSinReservas (s.putTrip t') := by
  intro y hy hes
  rcases mem_replace Trip.id s.trips t' y hy with rfl | ⟨hy, _⟩
  · exact ht hes
  · exact h y hy hes

theorem sinReservas_putBooking {s : Store} (r r' : Booking) (h : CanceladoSinReservas s)
    (hr : r ∈ s.bookings)
    (hmono : ∀ tid, r'.reservaActivaDe tid = true → r.reservaActivaDe tid = true) :
    CanceladoSinReservas (s.putBooking r') := by
  intro t ht hes b hb
  rcases mem_replace Booking.id s.bookings r' b hb with rfl | ⟨hb, _⟩
  · by_contra hne
    have h1 : b.reservaActivaDe t.id = true := by simpa using hne
    have h2 := h t ht hes r hr
    rw [hmono t.id h1] at h2
    cases h2
  · exact h t ht hes b hb

theorem sinReservas_step {s : Store} (h : Inv s) (hp : CanceladoSinReservas s) (op : Op)
    (hop : op.cancelaPorEdicion = false) : CanceladoSinReservas (step s op).1 := by
  cases op with
  | crearViaje u body hoy =>
    change CanceladoSinReservas (crearViaje s u body hoy).1
    rcases crearViaje_cases s u body hoy with ⟨h0, _⟩ | ⟨nv, hid, _, _, _, _, _, _, hres⟩
    · rw [h0]; exact hp
    · rw [hres]
      intro t ht hes b hb
      change t ∈ s.trips ++ [nv] at ht
      change b ∈ s.bookings at hb
      simp only [List.mem_append, List.mem_singleton] at ht
      rcases ht with ht | rfl
      · exact hp t ht hes b hb
      · have hne : b.tripId ≠ t.id := by
          intro e
          rcases List.mem_map.1 (h.bookingTrip b hb) with ⟨x, hx, hxe⟩
          have := h.tripIdLt x hx
          omega
        simp [Booking.reservaActivaDe, hne]
  | actualizarViaje id u body hoy =>
    change CanceladoSinReservas (actualizarViaje s id u body hoy).1
    simp only [Op.cancelaPorEdicion, decide_eq_false_iff_not] at hop
    by_cases hok : (actualizarViaje s id u body hoy).2 = 200
    · rcases actualizarViaje_estado hok with ⟨viaje, v1, hfind, _, _, hid, hes, hres⟩
      have hm := mem_of_findTripDe hfind
      rw [hres]
      have hp1 : CanceladoSinReservas (s.putTrip v1) := by
        apply sinReservas_putTrip hp
        intro hc
        rw [hid]
        apply hp viaje hm.1
        rcases hes with e | ⟨x, hx, hxe⟩
        · rw [← e]; exact hc
        · exfalso
          rw [hc] at hxe
          rw [ofString_cancelado hxe] at hx
          exact hop hx
      exact hp1
    · rw [actualizarViaje_fail hok]; exact hp
  | eliminarViaje id u =>
    change CanceladoSinReservas (eliminarViaje s id u).1
    cases hfind : s.findTripDe id u with
    | none => simp only [eliminarViaje, hfind]; exact hp
    | some viaje =>
      have hm := mem_of_findTripDe hfind
      by_cases hc : s.bookings.countP (fun b => b.reservaActivaDe id) > 0
      · simp only [eliminarViaje, hfind, hc, if_true]; exact hp
      · rcases saveTrip_cases s { viaje with activo := false, estado := .cancelado } with
          hs | ⟨_, _, hs⟩
        · simp only [eliminarViaje, hfind, hc, hs, if_false]; exact hp
        · simp only [eliminarViaje, hfind, hc, hs, if_false]
          apply sinReservas_putTrip hp
          intro _ b hb
          have hz : s.bookings.countP (fun b => b.reservaActivaDe id) = 0 := by omega
          have := List.countP_eq_zero.1 hz b hb
          change b.reservaActivaDe viaje.id = false
          rw [hm.2.1]
          simpa using this
  | cancelarViaje id u =>
    change CanceladoSinReservas (cancelarViaje s id u).1
    by_cases hok : (cancelarViaje s id u).2 = 200
    · rcases cancelarViaje_ok hok with ⟨viaje, hfind, _, _, hres⟩
      have hm := mem_of_findTripDe hfind
      rw [hres]
      intro t ht hes b hb
      change t ∈ (s.putTrip { viaje with estado := .cancelado }).trips at ht
      change b ∈ s.bookings.map (fun b =>
        if b.tripId = id && b.activo then { b with estado := .cancelada } else b) at hb
      rcases List.mem_map.1 hb with ⟨x, hx, rfl⟩
      by_cases hc : (decide (x.tripId = id) && x.activo) = true
      · rw [if_pos hc]
        simp [Booking.reservaActivaDe]
      · rw [if_neg hc]
        rcases mem_replace Trip.id s.trips { viaje with estado := .cancelado } t ht with
          rfl | ⟨ht2, _⟩
        · change x.reservaActivaDe viaje.id = false
          rw [hm.2.1]
          simp only [Bool.and_eq_true, decide_eq_true_eq, not_and, Bool.not_eq_true] at hc
          by_cases hx2 : x.tripId = id
          · simp [Booking.reservaActivaDe, hc hx2]
          · simp [Booking.reservaActivaDe, hx2]
        · exact hp t ht2 hes x hx
    · rw [cancelarViaje_fail hok]; exact hp
  | joinTrip id u n pts =>
    change CanceladoSinReservas (joinTrip s id u n pts).1
    rcases joinTrip_cases_inv h id u n pts with ⟨h0, _⟩ |
      ⟨viaje, b1, hf, _, _, hdisp, _, _, _, _, hb1, _, hres⟩
    · rw [h0]; exact hp
    · rw [hres]
      have hm := mem_of_findTripActivo hf
      have hfr := descontarCupos_frame viaje n
      rcases preSaveNuevo_some hb1 with ⟨_, _, hb1e⟩
      have hb1trip : b1.tripId = id := by rw [hb1e]; rfl
      intro t ht hes b hb
      change b ∈ s.bookings ++ [b1] at hb
      rcases mem_replace Trip.id (s.conReserva b1).trips (descontarCupos viaje n) t ht with
        rfl | ⟨ht2, hne⟩
      · exfalso
        rw [descontarCupos_estado, hdisp] at hes
        split at hes <;> cases hes
      · simp only [List.mem_append, List.mem_singleton] at hb
        rcases hb with hb | rfl
        · exact hp t ht2 hes b hb
        · have hne2 : b.tripId ≠ t.id := by
            rw [hb1trip, ← hm.2.1, ← hfr.1]; exact fun e => hne e.symm
          simp [Booking.reservaActivaDe, hne2]
  | cancelarReserva id u =>
    change CanceladoSinReservas (cancelarReserva s id u).1
    rcases cancelarReserva_cases_inv h id u with ⟨h0, _⟩ | ⟨reserva, viaje, hfind, _, hviaje,
      hres⟩
    · rw [h0]; exact hp
    · rw [hres]
      have hm := mem_of_findBookingDe hfind
      have hvm := mem_of_findTripById hviaje
      have hp1 : CanceladoSinReservas (s.putBooking { reserva with estado := .cancelada }) := by
        apply sinReservas_putBooking reserva _ hp hm.1
        intro tid hact
        simp [Booking.reservaActivaDe] at hact
      apply sinReservas_putTrip hp1
      intro hes b hb
      rw [(liberarCupos_frame viaje reserva).1]
      have hv : viaje.estado = .cancelado := by
        rw [liberarCupos_estado] at hes
        split at hes
        · cases hes
        · exact hes
      have hvt : viaje ∈ (s.putBooking { reserva with estado := .cancelada }).trips := hvm.1
      exact hp1 viaje hvt hv b hb
  | confirmarReserva id u =>
    change CanceladoSinReservas (confirmarReserva s id u).1
    by_cases hok : (confirmarReserva s id u).2 = 200
    · rcases confirmarReserva_ok hok with ⟨reserva, _, hfind, _, _, hpend, hres⟩
      have hm := mem_of_findBookingActivo hfind
      rw [hres]
      apply sinReservas_putBooking reserva _ hp hm.1
      intro tid hact
      simp only [Booking.reservaActivaDe, Bool.and_eq_true, decide_eq_true_eq] at hact ⊢
      exact ⟨hact.1, by simp [hpend]⟩
    · rw [confirmarReserva_fail hok]; exact hp
  | completarReserva id u =>
    change CanceladoSinReservas (completarReserva s id u).1
    by_cases hok : (completarReserva s id u).2 = 200
    · rcases completarReserva_ok hok with ⟨reserva, _, hfind, _, _, _, hres⟩
      have hm := mem_of_findBookingActivo hfind
      rw [hres]
      apply sinReservas_putBooking reserva _ hp hm.1
      intro tid hact
      simp [Booking.reservaActivaDe] at hact
    · rw [completarReserva_fail hok]; exact hp
  | eliminarReserva id u =>
    change CanceladoSinReservas (eliminarReserva s id u).1
    by_cases hok : (eliminarReserva s id u).2 = 200
    · rcases eliminarReserva_ok hok with ⟨reserva, hfind, _, hres⟩
      have hm := mem_of_findBookingDe hfind
      rw [hres]
      apply sinReservas_putBooking reserva _ hp hm.1
      intro tid hact
      simp [Booking.reservaActivaDe] at hact
    · rw [eliminarReserva_fail hok]; exact hp

theorem sinReservas_run {s : Store} (h : Inv s) (hp : CanceladoSinReservas s) (ops : List Op)
    (hops : ∀ op ∈ ops, op.cancelaPorEdicion = false) :
    CanceladoSinReservas (run s ops) := by
  induction ops generalizing s with
  | nil => exact hp
  | cons op ops ih =>
    have hop := hops op (List.mem_cons_self op ops)
    exact ih (inv_step h op) (sinReservas_step h hp op hop)
      (fun o ho => hops o (List.mem_cons_of_mem op ho))

/-- C30, as stated, fails: `actualizarViaje` with `estado: 'cancelado'` sets the trip to
`cancelado` without touching its bookings, so the pending booking of passenger 2 stays
active and `pendiente` on a cancelled trip. -/
theorem cancelado_con_reserva :
    ¬ CanceladoSinReservas (run (Store.inicial [ejVehiculo]) ejCanceladoPorEdicion) := by
  decide

/-- C30, amended: in every state reachable by requests among which no `actualizarViaje`
carries `estado: 'cancelado'`, a trip whose `estado` is `cancelado` has no active booking
in `pendiente` or `confirmada`. -/
theorem cancelado_sin_reservas (vs : List Vehicle) (ops : List Op)
    (hops : ∀ op ∈ ops, op.cancelaPorEdicion = false) :
    CanceladoSinReservas (run (Store.inicial vs) ops) := by
  apply sinReservas_run (inv_inicial vs) _ ops hops
  intro t ht
  simp [Store.inicial] at ht

/-- Witness for C30: after `cancelarViaje` on the trip with a pending booking
(`ejViajeCancelado`) the trip is `cancelado` and holds no active booking. -/
theorem cancelado_sin_reservas_witness :
    (∀ op ∈ ejViajeCancelado, op.cancelaPorEdicion = false) ∧
    (run (Store.inicial [ejVehiculo]) ejViajeCancelado).trips
      = [{ ejViajeUna with estado := .cancelado }] ∧
    CanceladoSinReservas (run (Store.inicial [ejVehiculo]) ejViajeCancelado) :=
  ⟨by decide, by decide, cancelado_sin_reservas [ejVehiculo] ejViajeCancelado (by decide)⟩

/-! ## Claims on trips in a terminal `estado` -/

theorem congelado_refl (op : Op) (t : Trip)
    (hterm : t.estado = .completado ∨ t.estado = .cancelado) : Congelado op t t :=
  ⟨fun _ => ⟨rfl, rfl, rfl, rfl, rfl, hterm, fun _ => rfl, fun _ => rfl⟩, fun _ _ => rfl⟩

theorem congelado_of_eq {s : Store} (h : Inv s) (op : Op) {t : Trip} (ht : t ∈ s.trips)
    (hterm : t.estado = .completado ∨ t.estado = .cancelado) (s' : Store)
    (he : s'.trips = s.trips) :
    (∃ t' ∈ s'.trips, t'.id = t.id) ∧ ∀ t' ∈ s'.trips, t'.id = t.id → Congelado op t t' := by
  rw [he]
  refine ⟨⟨t, ht, rfl⟩, fun t' ht' hk => ?_⟩
  have e : t' = t := eq_of_key_eq Trip.id s.trips h.tripIdNodup t t' ht ht' hk
  rw [e]
  exact congelado_refl op t hterm

theorem congelado_of_put {s : Store} (h : Inv s) (op : Op) {t viaje : Trip} (v' : Trip)
    (ht : t ∈ s.trips) (hterm : t.estado = .completado ∨ t.estado = .cancelado)
    (hv : viaje ∈ s.trips) (hid : v'.id = viaje.id) (s' : Store)
    (he : s'.trips = (s.putTrip v').trips) (hc : t = viaje → Congelado op t v') :
    (∃ t' ∈ s'.trips, t'.id = t.id) ∧ ∀ t' ∈ s'.trips, t'.id = t.id → Congelado op t t' := by
  rw [he]
  constructor
  · refine ⟨if t.id = v'.id then v' else t, ?_, ?_⟩
    · exact List.mem_map.2 ⟨t, ht, rfl⟩
    · by_cases hk : t.id = v'.id
      · rw [if_pos hk]; exact hk.symm
      · rw [if_neg hk]
  · intro t' ht' hk
    rcases mem_replace Trip.id s.trips v' t' ht' with e | ⟨hm, _⟩
    · have e2 : t = viaje :=
        eq_of_key_eq Trip.id s.trips h.tripIdNodup viaje t hv ht
          (by rw [← hk, e]; exact hid)
      rw [e]
      exact hc e2
    · have e : t' = t := eq_of_key_eq Trip.id s.trips h.tripIdNodup t t' ht hm hk
      rw [e]
      exact congelado_refl op t hterm

theorem congelado_step {s : Store} (h : Inv s) {t : Trip} (ht : t ∈ s.trips)
    (hterm : t.estado = .completado ∨ t.estado = .cancelado) (op : Op) :
    (∃ t' ∈ (step s op).1.trips, t'.id = t.id) ∧
    ∀ t' ∈ (step s op).1.trips, t'.id = t.id → Congelado op t t' := by
  cases op with
  | crearViaje u body hoy =>
    change (∃ t' ∈ (crearViaje s u body hoy).1.trips, t'.id = t.id) ∧
      ∀ t' ∈ (crearViaje s u body hoy).1.trips, t'.id = t.id → Congelado _ t t'
    rcases crearViaje_cases s u body hoy with ⟨h0, _⟩ | ⟨nv, hid, _, _, _, _, _, _, hres⟩
    · exact congelado_of_eq h _ ht hterm _ (by rw [h0])
    · rw [hres]
      refine ⟨⟨t, List.mem_append_left _ ht, rfl⟩, fun t' ht' hk => ?_⟩
      change t' ∈ s.trips ++ [nv] at ht'
      simp only [List.mem_append, List.mem_singleton] at ht'
      rcases ht' with hm | e
      · have e : t' = t := eq_of_key_eq Trip.id s.trips h.tripIdNodup t t' ht hm hk
        rw [e]
        exact congelado_refl _ t hterm
      · exfalso
        have := h.tripIdLt t ht
        rw [e, hid] at hk
        omega
  | actualizarViaje id u body hoy =>
    change (∃ t' ∈ (actualizarViaje s id u body hoy).1.trips, t'.id = t.id) ∧
      ∀ t' ∈ (actualizarViaje s id u body hoy).1.trips, t'.id = t.id → Congelado _ t t'
    by_cases hok : (actualizarViaje s id u body hoy).2 = 200
    · rcases actualizarViaje_estado hok with ⟨viaje, v1, hfind, _, hnc, hid, _, hres⟩
      have hm := mem_of_findTripDe hfind
      apply congelado_of_put h _ v1 ht hterm hm.1 hid _ (by rw [hres])
      intro e
      refine ⟨fun hf => ?_, fun hc _ => ?_⟩
      · cases hf
      · rw [e] at hc
        exact absurd hc hnc
    · exact congelado_of_eq h _ ht hterm _ (by rw [actualizarViaje_fail hok])
  | eliminarViaje id u =>
    change (∃ t' ∈ (eliminarViaje s id u).1.trips, t'.id = t.id) ∧
      ∀ t' ∈ (eliminarViaje s id u).1.trips, t'.id = t.id → Congelado _ t t'
    cases hfind : s.findTripDe id u with
    | none =>
      exact congelado_of_eq h _ ht hterm _ (by simp only [eliminarViaje, hfind])
    | some viaje =>
      have hm := mem_of_findTripDe hfind
      by_cases hc : s.bookings.countP (fun b => b.reservaActivaDe id) > 0
      · exact congelado_of_eq h _ ht hterm _ (by simp only [eliminarViaje, hfind, hc, if_true])
      · rcases saveTrip_cases s { viaje with activo := false, estado := .cancelado } with
          hs | ⟨_, _, hs⟩
        · exact congelado_of_eq h _ ht hterm _
            (by simp only [eliminarViaje, hfind, hc, hs, if_false])
        · apply congelado_of_put h _ { viaje with activo := false, estado := .cancelado }
            ht hterm hm.1 rfl _ (by simp only [eliminarViaje, hfind, hc, hs, if_false])
          intro e
          rw [e]
          refine ⟨fun _ => ⟨rfl, rfl, rfl, rfl, rfl, Or.inr rfl, fun _ => rfl, fun hf => ?_⟩,
            fun _ hf => ?_⟩
          · cases hf
          · cases hf
  | cancelarViaje id u =>
    change (∃ t' ∈ (cancelarViaje s id u).1.trips, t'.id = t.id) ∧
      ∀ t' ∈ (cancelarViaje s id u).1.trips, t'.id = t.id → Congelado _ t t'
    by_cases hok : (cancelarViaje s id u).2 = 200
    · rcases cancelarViaje_ok hok with ⟨viaje, hfind, hn1, hn2, hres⟩
      have hm := mem_of_findTripDe hfind
      apply congelado_of_put h _ { viaje with estado := .cancelado } ht hterm hm.1 rfl _
        (by rw [hres]; rfl)
      intro e
      rw [e] at hterm
      rcases hterm with e1 | e1
      · exact absurd e1 hn2
      · exact absurd e1 hn1
    · exact congelado_of_eq h _ ht hterm _ (by rw [cancelarViaje_fail hok])
  | joinTrip id u n pts =>
    change (∃ t' ∈ (joinTrip s id u n pts).1.trips, t'.id = t.id) ∧
      ∀ t' ∈ (joinTrip s id u n pts).1.trips, t'.id = t.id → Congelado _ t t'
    rcases joinTrip_cases_inv h id u n pts with ⟨h0, _⟩ |
      ⟨viaje, b1, hf, _, _, hdisp, _, _, _, _, _, _, hres⟩
    · exact congelado_of_eq h _ ht hterm _ (by rw [h0])
    · have hm := mem_of_findTripActivo hf
      apply congelado_of_put h _ (descontarCupos viaje n) ht hterm hm.1
        (descontarCupos_frame viaje n).1 _ (by rw [hres]; rfl)
      intro e
      rw [e, hdisp] at hterm
      rcases hterm with e1 | e1 <;> cases e1
  | cancelarReserva id u =>
    change (∃ t' ∈ (cancelarReserva s id u).1.trips, t'.id = t.id) ∧
      ∀ t' ∈ (cancelarReserva s id u).1.trips, t'.id = t.id → Congelado _ t t'
    rcases cancelarReserva_cases_inv h id u with ⟨h0, _⟩ | ⟨reserva, viaje, _, _, hviaje,
      hres⟩
    · exact congelado_of_eq h _ ht hterm _ (by rw [h0])
    · have hvm := mem_of_findTripById hviaje
      apply congelado_of_put h _ (liberarCupos viaje reserva) ht hterm hvm.1
        (liberarCupos_frame viaje reserva).1 _ (by rw [hres]; rfl)
      intro e
      rw [e] at hterm
      have hnl : viaje.estado ≠ .lleno := by
        intro e1
        rw [e1] at hterm
        rcases hterm with e2 | e2 <;> cases e2
      have hes : (liberarCupos viaje reserva).estado = viaje.estado := by
        rw [liberarCupos_estado, if_neg hnl]
      rw [e]
      refine ⟨fun _ => ⟨?_, ?_, ?_, ?_, ?_, ?_, fun hf => ?_, fun _ => hes⟩, fun _ hf => ?_⟩
      · exact (liberarCupos_frame viaje reserva).2.2
      · rw [liberarCupos_eq]
      · rw [liberarCupos_eq]
      · rw [liberarCupos_eq]
      · rw [liberarCupos_eq]
      · rw [hes]; exact hterm
      · cases hf
      · cases hf
  | confirmarReserva id u =>
    exact congelado_of_eq h _ ht hterm _ (trips_confirmarReserva s id u)
  | completarReserva id u =>
    exact congelado_of_eq h _ ht hterm _ (trips_completarReserva s id u)
  | eliminarReserva id u =>
    exact congelado_of_eq h _ ht hterm _ (trips_eliminarReserva s id u)

/-- C21, as stated, fails twice. `actualizarViaje` refuses only trips in `en_curso` or
`completado`: on the cancelled trip of `ejCancelado` the edit `ejReabrir` is answered 200
and changes `puntoInicio`, `fechaSalida`, `horaSalida`, `cuposDisponibles`, `cuposTotales`
and moves the trip back to `disponible`. `cancelarReserva` does not look at the trip's
`estado`: on the completed trip of `ejCompletadoConReserva` it raises `cuposDisponibles`
from 3 to 4. -/
theorem terminal_mutado :
    (run (Store.inicial [ejVehiculo]) ejCancelado).trips
      = [{ ejViaje with estado := .cancelado }] ∧
    (step (run (Store.inicial [ejVehiculo]) ejCancelado)
      (.actualizarViaje 0 1 ejReabrir 10)).2 = 200 ∧
    (step (run (Store.inicial [ejVehiculo]) ejCancelado)
      (.actualizarViaje 0 1 ejReabrir 10)).1.trips = [ejViajeReabierto] ∧
    ejViajeReabierto.estado = .disponible ∧
    (run (Store.inicial [ejVehiculo]) ejCompletadoConReserva).trips
      = [{ ejViajeUna with estado := .completado }] ∧
    (step (run (Store.inicial [ejVehiculo]) ejCompletadoConReserva)
      (.cancelarReserva 1 2)).1.trips = [ejViajeCompletado] ∧
    ejViajeUna.cuposDisponibles = 3 ∧ ejViajeCompletado.cuposDisponibles = 4 := by
  decide

/-- C21, amended: for a trip `t` of a reachable state whose `estado` is `completado` or
`cancelado`, after any one request a trip `t'` is still stored under the id of `t`, and
for that trip: a request other than `actualizarViaje` leaves `cuposTotales`, `fechaSalida`,
`horaSalida`, `puntoInicio` and `puntoFinal` unchanged and the `estado` in `completado` or
`cancelado`, leaves `cuposDisponibles` unchanged unless it is a `cancelarReserva`, and
leaves the `estado` unchanged unless it is an `eliminarViaje`; and `actualizarViaje` leaves
a trip in `completado` unchanged altogether. -/
theorem terminal_congelado (s : Store) (hs : Alcanzable s) (t : Trip) (ht : t ∈ s.trips)
    (hterm : t.estado = .completado ∨ t.estado = .cancelado) (op : Op) :
    (∃ t' ∈ (step s op).1.trips, t'.id = t.id) ∧
    ∀ t' ∈ (step s op).1.trips, t'.id = t.id →
      (op.esActualizarViaje = false →
        t'.cuposTotales = t.cuposTotales ∧ t'.fechaSalida = t.fechaSalida ∧
        t'.horaSalida = t.horaSalida ∧ t'.puntoInicio = t.puntoInicio ∧
        t'.puntoFinal = t.puntoFinal ∧
        (t'.estado = .completado ∨ t'.estado = .cancelado) ∧
        (op.esCancelarReserva = false → t'.cuposDisponibles = t.cuposDisponibles) ∧
        (op.esEliminarViaje = false → t'.estado = t.estado)) ∧
      (t.estado = .completado → op.esActualizarViaje = true → t' = t) :=
  congelado_step hs.inv ht hterm op

/-- Witness for C21: the cancelled trip of `ejCancelado` is left as it is by a `joinTrip`
of passenger 2, and the completed trip of `ejCompletado` by the edit `ejReabrir`. -/
theorem terminal_congelado_witness :
    Alcanzable (run (Store.inicial [ejVehiculo]) ejCancelado) ∧
    ({ ejViaje with estado := .cancelado } : Trip)
      ∈ (run (Store.inicial [ejVehiculo]) ejCancelado).trips ∧
    (step (run (Store.inicial [ejVehiculo]) ejCancelado)
      (.joinTrip 0 2 1 ["Porteria"])).1.trips = [{ ejViaje with estado := .cancelado }] ∧
    (step (run (Store.inicial [ejVehiculo]) ejCompletado)
      (.actualizarViaje 0 1 ejReabrir 10)).1.trips = [ejViajeCompletado] ∧
    (∃ t' ∈ (step (run (Store.inicial [ejVehiculo]) ejCancelado)
        (.joinTrip 0 2 1 ["Porteria"])).1.trips,
      t'.id = ({ ejViaje with estado := .cancelado } : Trip).id) ∧
    (∃ t' ∈ (step (run (Store.inicial [ejVehiculo]) ejCompletado)
        (.actualizarViaje 0 1 ejReabrir 10)).1.trips, t'.id = ejViajeCompletado.id) :=
  ⟨⟨[ejVehiculo], ejCancelado, rfl⟩, by decide, by decide, by decide,
   (terminal_congelado (run (Store.inicial [ejVehiculo]) ejCancelado)
     ⟨[ejVehiculo], ejCancelado, rfl⟩ { ejViaje with estado := .cancelado } (by decide)
     (Or.inr rfl) (.joinTrip 0 2 1 ["Porteria"])).1,
   (terminal_congelado (run (Store.inicial [ejVehiculo]) ejCompletado)
     ⟨[ejVehiculo], ejCompletado, rfl⟩ ejViajeCompletado (by decide)
     (Or.inl rfl) (.actualizarViaje 0 1 ejReabrir 10)).1⟩

/-! ## Claims on `obtenerViajes` -/

theorem nombre_disponible {e : TripEstado} (h : e.nombre = "disponible") :
    e = .disponible := by
  cases e <;> first | rfl | (revert h; decide)

theorem construirFiltros_some {lib : Biblioteca} {q : ObtenerViajesQuery} {f : Filtros}
    (h : construirFiltros lib q = some f) :
    f.estado = q.estadoPedido ∧
    filtroTexto lib q.origen q.puntoInicio = some f.puntoInicio ∧
    filtroTexto lib q.destino q.puntoFinal = some f.puntoFinal ∧
    filtroFecha lib q.fechaSalida = some f.fechaSalida ∧
    filtroCupos lib q.cupos q.cuposMinimos = some f.cuposDisponibles := by
  unfold construirFiltros at h
  split at h
  · rename_i h1 h2 h3 h4
    cases h
    exact ⟨rfl, h1, h2, h3, h4⟩
  · cases h

theorem admite_iff (f : Filtros) (t : Trip) :
    f.admite t = true ↔
      t.activo = true ∧ t.estado.nombre = f.estado ∧
      (∀ p, f.puntoInicio = some p → p t.puntoInicio = true) ∧
      (∀ p, f.puntoFinal = some p → p t.puntoFinal = true) ∧
      (∀ d, f.fechaSalida = some d → t.fechaSalida = d) ∧
      (∀ n, f.cuposDisponibles = some n → n ≤ t.cuposDisponibles) := by
  unfold Filtros.admite
  cases f.puntoInicio <;> cases f.puntoFinal <;> cases f.fechaSalida <;>
    cases f.cuposDisponibles <;>
    simp [and_assoc]

theorem construirFiltros_rechazada (lib : Biblioteca) (q : ObtenerViajesQuery) :
    (construirFiltros lib q).isNone = rechazada lib q := by
  unfold construirFiltros rechazada filtroTexto filtroFecha filtroCupos
  generalize truthyStr (orStr q.origen q.puntoInicio) = b1
  generalize lib.regex ((orStr q.origen q.puntoInicio).getD "") = r1
  generalize truthyStr (orStr q.destino q.puntoFinal) = b2
  generalize lib.regex ((orStr q.destino q.puntoFinal).getD "") = r2
  generalize truthyStr q.fechaSalida = b3
  generalize lib.fecha (q.fechaSalida.getD "") = r3
  generalize truthyStr (orStr q.cupos q.cuposMinimos) = b4
  generalize lib.parseInt ((orStr q.cupos q.cuposMinimos).getD "") = r4
  cases b1 <;> cases b2 <;> cases b3 <;> cases b4 <;> cases r1 <;> cases r2 <;>
    cases r3 <;> cases r4 <;> rfl

/-- Shape of the result of `obtenerViajes`: a thrown error, or the stored trips admitted by
`filtros`, in some order. -/
theorem obtenerViajes_cases (lib : Biblioteca) (s : Store) (q : ObtenerViajesQuery) :
    (construirFiltros lib q = none ∧ obtenerViajes lib s q = (none, 500)) ∨
    ∃ f ts, construirFiltros lib q = some f ∧ obtenerViajes lib s q = (some ts, 200) ∧
      ts.Perm (s.trips.filter f.admite) := by
  cases hc : construirFiltros lib q with
  | none => exact Or.inl ⟨rfl, by simp only [obtenerViajes, hc]⟩
  | some f =>
    exact Or.inr ⟨f, (s.trips.filter f.admite).insertionSort (fun a b => antesDe a b = true),
      rfl, by simp only [obtenerViajes, hc], List.perm_insertionSort _ _⟩

/-- C25, as stated, fails on the alias `'activo'`: the request `?estado=activo` returns the
stored trip `ejViaje`, whose `estado` is `disponible` and not the `'activo'` requested;
and the entry of the response for that trip, asked for without a state filter, shows
`'activo'` and not `'disponible'`. -/
theorem obtenerViajes_alias_activo :
    (run (Store.inicial [ejVehiculo]) [.crearViaje 1 ejCrear 10]).trips = [ejViaje] ∧
    obtenerViajes ejBiblioteca (run (Store.inicial [ejVehiculo]) [.crearViaje 1 ejCrear 10])
      ejSoloActivo = (some [ejViaje], 200) ∧
    ejSoloActivo.estado = some "activo" ∧ ejViaje.estado.nombre = "disponible" ∧
    ejViaje.estado.nombre ≠ "activo" ∧
    obtenerViajes ejBiblioteca (run (Store.inicial [ejVehiculo]) [.crearViaje 1 ejCrear 10])
      ObtenerViajesQuery.vacio = (some [ejViaje], 200) ∧
    estadoMostrado ejViaje = "activo" := by
  decide

/-- C25, amended: `obtenerViajes` answers 500 without trips when the library rejects a
pattern, the date or the minimum that the query supplies (`rechazada`), and 200 otherwise;
in particular it answers 200 when the query has none of these. When it answers, the trips returned are,
in some order, exactly the stored trips that match `filtros`, and every returned trip is
stored, has `activo = true`, has the `estado` of the query, `'activo'` and an absent or
empty `estado` standing for `disponible`, and has `cuposDisponibles >= parseInt(m)` when
the query's `cupos`, else `cuposMinimos`, is a non-empty `m`; no stored trip with
`activo = false` is returned. -/
theorem obtenerViajes_filtra (lib : Biblioteca) (s : Store) (q : ObtenerViajesQuery) :
    ((rechazada lib q = true → obtenerViajes lib s q = (none, 500)) ∧
      (rechazada lib q = false → (obtenerViajes lib s q).2 = 200)) ∧
    (truthyStr (orStr q.origen q.puntoInicio) = false →
      truthyStr (orStr q.destino q.puntoFinal) = false →
      truthyStr q.fechaSalida = false →
      truthyStr (orStr q.cupos q.cuposMinimos) = false →
      (obtenerViajes lib s q).2 = 200) ∧
    ∀ ts, (obtenerViajes lib s q).1 = some ts →
      (∃ f, construirFiltros lib q = some f ∧ ts.Perm (s.trips.filter f.admite)) ∧
      (∀ t ∈ ts, t ∈ s.trips ∧ t.activo = true ∧ t.estado.nombre = q.estadoPedido ∧
        (truthyStr q.estado = false → t.estado = .disponible) ∧
        (q.estado = some "activo" → t.estado = .disponible) ∧
        (∀ e, q.estado = some e → e ≠ "" → e ≠ "activo" → t.estado.nombre = e) ∧
        (truthyStr (orStr q.cupos q.cuposMinimos) = true →
          ∃ n, lib.parseInt ((orStr q.cupos q.cuposMinimos).getD "") = some n ∧
            n ≤ t.cuposDisponibles)) ∧
      (∀ t ∈ s.trips, t.activo = false → t ∉ ts) := by
  refine ⟨⟨?_, ?_⟩, ?_, ?_⟩
  · intro hr
    rcases obtenerViajes_cases lib s q with ⟨_, h0⟩ | ⟨f, ts, hf, _, _⟩
    · exact h0
    · rw [← construirFiltros_rechazada, hf] at hr
      cases hr
  · intro hr
    rcases obtenerViajes_cases lib s q with ⟨hn, _⟩ | ⟨f, ts, _, hres, _⟩
    · rw [← construirFiltros_rechazada, hn] at hr
      cases hr
    · rw [hres]
  · intro h1 h2 h3 h4
    simp [obtenerViajes, construirFiltros, filtroTexto, filtroFecha, filtroCupos, h1, h2,
      h3, h4]
  · intro ts hts
    rcases obtenerViajes_cases lib s q with ⟨_, h0⟩ | ⟨f, ts1, hf, hres, hperm⟩
    · rw [h0] at hts; cases hts
    · rw [hres] at hts
      cases hts
      have hcf := construirFiltros_some hf
      have hmem : ∀ t ∈ ts, t ∈ s.trips ∧ f.admite t = true := by
        intro t ht
        exact List.mem_filter.1 (hperm.mem_iff.1 ht)
      refine ⟨⟨f, hf, hperm⟩, ?_, ?_⟩
      · intro t ht
        have ha := (admite_iff f t).1 (hmem t ht).2
        have hes : t.estado.nombre = q.estadoPedido := by rw [← hcf.1]; exact ha.2.1
        refine ⟨(hmem t ht).1, ha.1, hes, ?_, ?_, ?_, ?_⟩
        · intro hq
          apply nombre_disponible
          rw [hes]
          simp [ObtenerViajesQuery.estadoPedido, hq]
        · intro hq
          apply nombre_disponible
          rw [hes]
          simp [ObtenerViajesQuery.estadoPedido, hq, truthyStr]
        · intro e hq hne1 hne2
          rw [hes]
          simp [ObtenerViajesQuery.estadoPedido, hq, truthyStr, hne1, hne2]
        · intro hc
          have h4 := hcf.2.2.2.2
          unfold filtroCupos at h4
          rw [if_pos hc] at h4
          cases hp : lib.parseInt ((orStr q.cupos q.cuposMinimos).getD "") with
          | none => rw [hp] at h4; cases h4
          | some n =>
            rw [hp] at h4
            refine ⟨n, rfl, ha.2.2.2.2.2 n ?_⟩
            simpa using h4.symm
      · intro t _ hina ht
        have ha := (admite_iff f t).1 (hmem t ht).2
        rw [ha.1] at hina
        cases hina

/-- Witness for C25: with the four-seat trip stored, `?origen=camp&cupos=3&fechaSalida=10`
returns it, `?cupos=tres` is answered 500 without trips, and after `eliminarViaje` the
trip, now inactive, is not returned for `?estado=cancelado`. -/
theorem obtenerViajes_filtra_witness :
    obtenerViajes ejBiblioteca (run (Store.inicial [ejVehiculo]) [.crearViaje 1 ejCrear 10])
      ejDesdeCampus = (some [ejViaje], 200) ∧
    obtenerViajes ejBiblioteca (run (Store.inicial [ejVehiculo]) [.crearViaje 1 ejCrear 10])
      ejCuposTexto = (none, 500) ∧
    (run (Store.inicial [ejVehiculo])
      [.crearViaje 1 ejCrear 10, .eliminarViaje 0 1]).trips = [ejViajeEliminado] ∧
    obtenerViajes ejBiblioteca
      (run (Store.inicial [ejVehiculo]) [.crearViaje 1 ejCrear 10, .eliminarViaje 0 1])
      { ObtenerViajesQuery.vacio with estado := some "cancelado" } = (some [], 200) ∧
    (∃ f, construirFiltros ejBiblioteca ejDesdeCampus = some f ∧
      [ejViaje].Perm
        ((run (Store.inicial [ejVehiculo]) [.crearViaje 1 ejCrear 10]).trips.filter
          f.admite)) :=
  ⟨by decide, by decide, by decide, by decide,
   ((obtenerViajes_filtra ejBiblioteca
      (run (Store.inicial [ejVehiculo]) [.crearViaje 1 ejCrear 10]) ejDesdeCampus).2.2
      [ejViaje] (by decide)).1⟩

/-! ## Concurrent `joinTrip` requests -/

/-- On a store with unique trip ids, the write of `viaje.save()` on a copy that is still
the stored document is the write of the whole copy. -/
theorem guardarCupos_eq_saveTrip {s : Store} (hn : (s.trips.map Trip.id).Nodup)
    {viaje : Trip} (hv : viaje ∈ s.trips) (n : Int) :
    s.guardarCupos viaje n = s.saveTrip (descontarCupos viaje n) := by
  have hmap : s.trips.map (fun x =>
      if x.id = (descontarCupos viaje n).id then
        { x with
          cuposDisponibles := (descontarCupos viaje n).cuposDisponibles
          estado := if (descontarCupos viaje n).estado = viaje.estado then x.estado
            else (descontarCupos viaje n).estado }
      else x)
      = s.trips.map (fun x =>
          if x.id = (descontarCupos viaje n).id then descontarCupos viaje n else x) := by
    apply List.map_congr_left
    intro x hx
    by_cases hk : x.id = (descontarCupos viaje n).id
    · have e : x = viaje :=
        eq_of_key_eq Trip.id s.trips hn viaje x hv hx
          (by rw [hk]; exact (descontarCupos_frame viaje n).1)
      rw [if_pos hk, if_pos hk, e]
      by_cases he : (descontarCupos viaje n).estado = viaje.estado
      · rw [if_pos he]
        conv_rhs => rw [descontarCupos_eq]
        rw [descontarCupos_estado] at he
        rw [he, (descontarCupos_frame viaje n).2.1]
      · rw [if_neg he]
        conv_rhs => rw [descontarCupos_eq]
        rw [descontarCupos_estado, (descontarCupos_frame viaje n).2.1]
    · rw [if_neg hk, if_neg hk]
  unfold Store.guardarCupos Store.saveTrip Store.putTrip
  dsimp only
  rw [hmap]

/-- A `joinTrip` request served alone, on a store with unique trip ids, does what the
controller `joinTrip` does: same store, same status. -/
theorem atender_eq_joinTrip {s : Store} (hn : (s.trips.map Trip.id).Nodup) (id u : Nat)
    (n : Int) (pts : List String) :
    atender s (Peticion.nueva id u n pts)
      = ((joinTrip s id u n pts).1,
         { Peticion.nueva id u n pts with fase := .fin (joinTrip s id u n pts).2 }) := by
  by_cases h1 : n = 0 ∨ n < 1
  · simp [atender, avanzar, joinTrip, Peticion.nueva, h1]
  · by_cases h2 : pts.length = 0
    · simp [atender, avanzar, joinTrip, Peticion.nueva, h1, h2]
    · cases hf : s.findTripActivo id with
      | none => simp [atender, avanzar, joinTrip, Peticion.nueva, h1, h2, hf]
      | some viaje =>
        have hm := mem_of_findTripActivo hf
        by_cases h3 : viaje.estado ≠ .disponible
        · simp [atender, avanzar, joinTrip, Peticion.nueva, h1, h2, hf, h3]
        · by_cases h4 : viaje.conductorId = u
          · simp [atender, avanzar, joinTrip, Peticion.nueva, h1, h2, hf, h3, h4]
          · by_cases h5 : viaje.cuposDisponibles < n
            · simp [atender, avanzar, joinTrip, Peticion.nueva, h1, h2, hf, h3, h4, h5]
            · by_cases h6 : s.bookings.any
                  (fun b => b.reservaActivaDe id && b.pasajeroId = u) = true
              · simp [atender, avanzar, joinTrip, Peticion.nueva, h1, h2, hf, h3, h4, h5, h6]
              · rcases insertBooking_cases s (nuevaReserva s viaje id u n pts) with
                  hi | ⟨b1, _, _, _, hi⟩
                · simp [atender, avanzar, joinTrip, Peticion.nueva, h1, h2, hf, h3, h4, h5,
                    h6, hi]
                · have hg := guardarCupos_eq_saveTrip
                    (s := { s with bookings := s.bookings ++ [b1], nextId := s.nextId + 1 })
                    hn hm.1 n
                  cases hs : Store.saveTrip
                      { s with bookings := s.bookings ++ [b1], nextId := s.nextId + 1 }
                      (descontarCupos viaje n) with
                  | none =>
                    rw [hs] at hg
                    simp [atender, avanzar, joinTrip, Peticion.nueva, h1, h2, hf, h3, h4, h5,
                      h6, hi, hg, hs]
                  | some s2 =>
                    rw [hs] at hg
                    simp [atender, avanzar, joinTrip, Peticion.nueva, h1, h2, hf, h3, h4, h5,
                      h6, hi, hg, hs]

/-- C27: the code diverges. With one seat left on trip 0 (`ejTresCupos`), the requests of
passengers 3 and 4 for one seat each, served alternately, are both answered 201: each
reads `cuposDisponibles = 1` before the other writes, both bookings are stored, and both
writes set `cuposDisponibles` to 0, so one decrement is lost and the accepted bookings hold
five seats of a four-seat trip. Served one after the other, the second request is
refused with 400. -/
theorem joinTrip_carrera :
    (run (Store.inicial [ejVehiculo]) ejTresCupos).trips = [ejViajeTres] ∧
    ejViajeTres.cuposDisponibles = 1 ∧
    (entrelazar (run (Store.inicial [ejVehiculo]) ejTresCupos) ejRivales
      [0, 1, 0, 1, 0, 1, 0, 1]).2.map (fun p => p.fase) = [.fin 201, .fin 201] ∧
    (entrelazar (run (Store.inicial [ejVehiculo]) ejTresCupos) ejRivales
      [0, 1, 0, 1, 0, 1, 0, 1]).1.trips
      = [{ ejViaje with cuposDisponibles := 0, estado := .lleno }] ∧
    (entrelazar (run (Store.inicial [ejVehiculo]) ejTresCupos) ejRivales
      [0, 1, 0, 1, 0, 1, 0, 1]).1.bookings = ejReservasCarrera ∧
    cuposEnCurso ejReservasCarrera 0 = 5 ∧ ejViaje.cuposTotales = 4 ∧
    (entrelazar (run (Store.inicial [ejVehiculo]) ejTresCupos) ejRivales
      [0, 0, 0, 0, 1, 1, 1, 1]).2.map (fun p => p.fase) = [.fin 201, .fin 400] := by
  decide

end Wheels
